import Mathlib

/-!
# Topology graph engine (`topology/graph/graph.go`)

A shallow embedding of the graph coordinator: the `Graph` methods are written
over an arbitrary `GraphBackend` (the Go interface), callbacks into listeners
are recorded in a call log, and Go pointers that may be `nil` are `Option`s.
-/

set_option autoImplicit false

namespace Skydive

/-! ## Data model -/

/-- Go `type Identifier string`. -/
abbrev Identifier := String

/-- Dynamic values stored behind `interface{}` in a `Metadatas` map, each with
its dynamic type: a `string`, an `int`, a `bool`, an `int64`, a `float64` (by
its IEEE 754 bit pattern), or a value of a type that is not comparable (a
slice, a map, a function), known by the name of its type and the text of its
content. -/
inductive Value where
  | str (s : String)
  | int (i : Int)
  | bool (b : Bool)
  | int64 (i : Int)
  | float64 (bits : Nat)
  | uncomparable (typeName : String) (content : String)
  deriving DecidableEq, Repr

/-- Go `type Metadatas map[string]interface{}`: an association list, read with
`List.lookup`; iteration visits the entries. -/
abbrev Metadatas := List (String × Value)

/-- Go `struct graphElement`. -/
structure graphElement where
  ID : Identifier
  metadatas : Metadatas
  deriving DecidableEq, Repr

/-- Go `struct Node`, which embeds `graphElement`. -/
structure Node extends graphElement
  deriving DecidableEq, Repr

/-- Go `struct Edge`, which embeds `graphElement`. -/
structure Edge extends graphElement where
  parent : Identifier
  child : Identifier
  deriving DecidableEq, Repr

/-- The dynamic types distinguished by the type switch of
`notifyMetadataUpdated`: the `interface{}` argument of `SetMetadata(s)`. -/
inductive Element where
  | node (n : Node)
  | edge (e : Edge)
  deriving DecidableEq, Repr

/-- How a run of a Go function can end: normally with a value, with the
run-time panic of a nil pointer dereference, not within the given number of
nested calls, or with the run-time panic of comparing two interface values of
one and the same uncomparable type. -/
inductive Run (α : Type) where
  | ok (a : α)
  | nilDeref
  | outOfFuel
  | comparePanic
  deriving DecidableEq, Repr

/-- Whether the `float64` of a bit pattern is a NaN: exponent all ones and a
fraction that is not zero. -/
def float64IsNaN (bits : Nat) : Bool :=
  (bits % 2 ^ 64 / 2 ^ 52) % 2 ^ 11 == 2047 && bits % 2 ^ 52 != 0

/-- Go's `==` on two `float64` given by their bit patterns: a NaN equals
nothing, the two zeros are equal, any other value equals itself only. -/
def float64Eq (a b : Nat) : Bool :=
  !float64IsNaN a && !float64IsNaN b &&
    (a % 2 ^ 64 == b % 2 ^ 64 || (a % 2 ^ 63 == 0 && b % 2 ^ 63 == 0))

/-- Go's `v != nv` on two interface values: values of different dynamic types
differ, values of one comparable type are compared, and comparing two values
of one uncomparable type panics. -/
def Value.notEqual : Value → Value → Run Bool
  | .str a, .str b => .ok (a != b)
  | .int a, .int b => .ok (a != b)
  | .bool a, .bool b => .ok (a != b)
  | .int64 a, .int64 b => .ok (a != b)
  | .float64 a, .float64 b => .ok (!float64Eq a b)
  | .uncomparable t _, .uncomparable u _ => if t = u then .comparePanic else .ok true
  | _, _ => .ok true

/-- Sequencing of two runs: the second starts from the value of the first, and
a panic or a lack of fuel in the first ends both. -/
def Run.bind {α β : Type} : Run α → (α → Run β) → Run β
  | .ok a, k => k a
  | .nilDeref, _ => .nilDeref
  | .outOfFuel, _ => .outOfFuel
  | .comparePanic, _ => .comparePanic

/-- Method `graphElement.matchFilters`, the filter being visited in the order
of its entries: every entry must be found in the element's metadata with a
value that `!=` does not tell from it; the comparison may panic. Called
through a nil `*Node` it panics, which the callers below render as
`Run.nilDeref`. -/
def graphElement.matchFilters (e : graphElement) : Metadatas → Run Bool
  | [] => .ok true
  | (k, v) :: rest =>
    match e.metadatas.lookup k with
    | none => .ok false
    | some nv =>
      (Value.notEqual v nv).bind (fun differ =>
        if differ then .ok false else graphElement.matchFilters e rest)

/-- Whether the dynamic type of a value is comparable. -/
def Value.comparable : Value → Bool
  | .uncomparable _ _ => false
  | _ => true

/-- The specification's "equal value" of two metadata values: the same dynamic
type and the same value, for `float64` in the sense of Go's `==`. It is stated
from the specification, for the comparison with `matchFilters`. -/
def Value.equal : Value → Value → Bool
  | .str a, .str b => a == b
  | .int a, .int b => a == b
  | .bool a, .bool b => a == b
  | .int64 a, .int64 b => a == b
  | .float64 a, .float64 b => float64Eq a b
  | .uncomparable t c, .uncomparable u d => t == u && c == d
  | _, _ => false

/-- The specification's "key present in the metadata with an equal value". -/
def Metadatas.holds (md : Metadatas) (k : String) (v : Value) : Bool :=
  match md.lookup k with
  | some nv => Value.equal v nv
  | none => false

/-! ## Backend interface -/

/-- Go `interface GraphBackend` over a store of type `σ`. Mutators return their
boolean result and the store afterwards. -/
structure GraphBackend (σ : Type) where
  AddNode : σ → Node → Bool × σ
  DelNode : σ → Node → Bool × σ
  GetNode : σ → Identifier → Option Node
  GetNodeEdges : σ → Node → List Edge
  AddEdge : σ → Edge → Bool × σ
  DelEdge : σ → Edge → Bool × σ
  GetEdge : σ → Identifier → Option Edge
  GetEdgeNodes : σ → Edge → Option Node × Option Node
  SetMetadata : σ → Element → String → Value → Bool × σ
  SetMetadatas : σ → Element → Metadatas → Bool × σ
  GetNodes : σ → List Node
  GetEdges : σ → List Edge

/-! ## Listeners and the graph -/

/-- A registered `GraphEventListener`, known by a name. -/
abbrev GraphEventListener := Nat

/-- The six callbacks of `GraphEventListener`, with their argument. -/
inductive Callback where
  | OnNodeUpdated (n : Node)
  | OnNodeAdded (n : Node)
  | OnNodeDeleted (n : Node)
  | OnEdgeUpdated (e : Edge)
  | OnEdgeAdded (e : Edge)
  | OnEdgeDeleted (e : Edge)
  deriving DecidableEq, Repr

/-- Go `struct Graph`: the backend store and the listeners (the lock and the
host name play no part here), together with the record of every callback made
so far (oldest first) and the number of identifiers drawn from `GenID`. -/
structure Graph (σ : Type) where
  backend : σ
  eventListeners : List GraphEventListener
  calls : List (GraphEventListener × Callback)
  drawn : Nat
  deriving DecidableEq

/-- The loop `for _, l := range g.eventListeners { l.On...(x) }`. -/
def Graph.notify {σ : Type} (c : Callback) (g : Graph σ) : Graph σ :=
  { g with calls := g.calls ++ g.eventListeners.map (fun l => (l, c)) }

/-- Method `Graph.NotifyNodeUpdated`. -/
def Graph.NotifyNodeUpdated {σ : Type} (n : Node) (g : Graph σ) : Graph σ :=
  g.notify (.OnNodeUpdated n)

/-- Method `Graph.NotifyNodeDeleted`. -/
def Graph.NotifyNodeDeleted {σ : Type} (n : Node) (g : Graph σ) : Graph σ :=
  g.notify (.OnNodeDeleted n)

/-- Method `Graph.NotifyNodeAdded`. -/
def Graph.NotifyNodeAdded {σ : Type} (n : Node) (g : Graph σ) : Graph σ :=
  g.notify (.OnNodeAdded n)

/-- Method `Graph.NotifyEdgeUpdated`. -/
def Graph.NotifyEdgeUpdated {σ : Type} (e : Edge) (g : Graph σ) : Graph σ :=
  g.notify (.OnEdgeUpdated e)

/-- Method `Graph.NotifyEdgeDeleted`. -/
def Graph.NotifyEdgeDeleted {σ : Type} (e : Edge) (g : Graph σ) : Graph σ :=
  g.notify (.OnEdgeDeleted e)

/-- Method `Graph.NotifyEdgeAdded`. -/
def Graph.NotifyEdgeAdded {σ : Type} (e : Edge) (g : Graph σ) : Graph σ :=
  g.notify (.OnEdgeAdded e)

/-- Method `Graph.AddEventListener`. -/
def Graph.AddEventListener {σ : Type} (l : GraphEventListener) (g : Graph σ) : Graph σ :=
  { g with eventListeners := g.eventListeners ++ [l] }

/-- Method `Graph.notifyMetadataUpdated`. -/
def Graph.notifyMetadataUpdated {σ : Type} (e : Element) (g : Graph σ) : Graph σ :=
  match e with
  | .node n => g.NotifyNodeUpdated n
  | .edge ed => g.NotifyEdgeUpdated ed

/-- Method `Graph.SetMetadatas` (no result). -/
def Graph.SetMetadatas {σ : Type} (B : GraphBackend σ) (e : Element) (m : Metadatas)
    (g : Graph σ) : Unit × Graph σ :=
  match B.SetMetadatas g.backend e m with
  | (false, b) => ((), { g with backend := b })
  | (true, b) => ((), Graph.notifyMetadataUpdated e { g with backend := b })

/-- Method `Graph.SetMetadata` (no result). -/
def Graph.SetMetadata {σ : Type} (B : GraphBackend σ) (e : Element) (k : String) (v : Value)
    (g : Graph σ) : Unit × Graph σ :=
  match B.SetMetadata g.backend e k v with
  | (false, b) => ((), { g with backend := b })
  | (true, b) => ((), Graph.notifyMetadataUpdated e { g with backend := b })

/-- Method `Graph.AddEdge`. -/
def Graph.AddEdge {σ : Type} (B : GraphBackend σ) (e : Edge) (g : Graph σ) : Bool × Graph σ :=
  match B.AddEdge g.backend e with
  | (false, b) => (false, { g with backend := b })
  | (true, b) => (true, Graph.NotifyEdgeAdded e { g with backend := b })

/-- Method `Graph.AddNode`. -/
def Graph.AddNode {σ : Type} (B : GraphBackend σ) (n : Node) (g : Graph σ) : Bool × Graph σ :=
  match B.AddNode g.backend n with
  | (false, b) => (false, { g with backend := b })
  | (true, b) => (true, Graph.NotifyNodeAdded n { g with backend := b })

/-- Method `Graph.DelEdge` (no result). -/
def Graph.DelEdge {σ : Type} (B : GraphBackend σ) (e : Edge) (g : Graph σ) : Unit × Graph σ :=
  match B.DelEdge g.backend e with
  | (true, b) => ((), Graph.NotifyEdgeDeleted e { g with backend := b })
  | (false, b) => ((), { g with backend := b })

/-- Method `Graph.DelNode` (no result): the edges reported for `n` before the loop are
deleted one by one, then the node. -/
def Graph.DelNode {σ : Type} (B : GraphBackend σ) (n : Node) (g : Graph σ) : Unit × Graph σ :=
  let g1 := (B.GetNodeEdges g.backend n).foldl (fun acc e => (Graph.DelEdge B e acc).2) g
  match B.DelNode g1.backend n with
  | (true, b) => ((), Graph.NotifyNodeDeleted n { g1 with backend := b })
  | (false, b) => ((), { g1 with backend := b })

/-- Package function `GenID`: the next identifier of the generator `gen`. -/
def GenID {σ : Type} (gen : Nat → Identifier) (g : Graph σ) : Identifier × Graph σ :=
  (gen g.drawn, { g with drawn := g.drawn + 1 })

/-- Method `Graph.NewNode`; a nil map `m` is replaced by an empty one. -/
def Graph.NewNode {σ : Type} (B : GraphBackend σ) (i : Identifier) (m : Option Metadatas)
    (g : Graph σ) : Option Node × Graph σ :=
  let n : Node := { ID := i, metadatas := m.getD [] }
  match Graph.AddNode B n g with
  | (false, g1) => (none, g1)
  | (true, g1) => (some n, g1)

/-- Method `Graph.NewEdge`; a nil map `m` is replaced by an empty one. -/
def Graph.NewEdge {σ : Type} (B : GraphBackend σ) (i : Identifier) (p c : Node)
    (m : Option Metadatas) (g : Graph σ) : Option Edge × Graph σ :=
  let e : Edge := { ID := i, metadatas := m.getD [], parent := p.ID, child := c.ID }
  match Graph.AddEdge B e g with
  | (false, g1) => (none, g1)
  | (true, g1) => (some e, g1)

/-- Method `Graph.Link` (no result). -/
def Graph.Link {σ : Type} (B : GraphBackend σ) (gen : Nat → Identifier) (n1 n2 : Node)
    (g : Graph σ) : Unit × Graph σ :=
  let r := GenID gen g
  ((), (Graph.NewEdge B r.1 n1 n2 none r.2).2)

/-- Method `Graph.AreLinked`. -/
def Graph.AreLinked {σ : Type} (B : GraphBackend σ) (g : Graph σ) (n1 n2 : Node) : Bool :=
  (B.GetNodeEdges g.backend n1).any (fun e =>
    match B.GetEdgeNodes g.backend e with
    | (some parent, some child) => child.ID == n2.ID || parent.ID == n2.ID
    | _ => false)

/-- Method `Graph.Unlink` (no result). -/
def Graph.Unlink {σ : Type} (B : GraphBackend σ) (n1 n2 : Node) (g : Graph σ) : Unit × Graph σ :=
  ((), (B.GetNodeEdges g.backend n1).foldl (fun acc e =>
    match B.GetEdgeNodes acc.backend e with
    | (some parent, some child) =>
      if child.ID = n2.ID ∨ parent.ID = n2.ID then (Graph.DelEdge B e acc).2 else acc
    | _ => acc) g)

/-- One iteration of the loop of `Graph.Replace`, on edge `e` of the old node. -/
def Graph.replaceStep {σ : Type} (B : GraphBackend σ) (gen : Nat → Identifier) (n : Node)
    (g : Graph σ) (e : Edge) : Graph σ :=
  match B.GetEdgeNodes g.backend e with
  | (some parent, some child) =>
    let g1 := (Graph.DelEdge B e g).2
    if parent.ID = n.ID then (Graph.Link B gen n child g1).2
    else (Graph.Link B gen parent n g1).2
  | _ => g

/-- Method `Graph.Replace`: returns `n`, whose metadata were overwritten by those of
`o` without a call to the backend. The argument `m` is not used by the source.
The source assigns through the pointer `n`, so a backend that keeps that very
pointer sees the new metadata as well; the store here keeps values, and the
copy of `n` it may hold is left as it was. -/
def Graph.Replace {σ : Type} (B : GraphBackend σ) (gen : Nat → Identifier) (o n : Node)
    (_m : Metadatas) (g : Graph σ) : Node × Graph σ :=
  let g1 := (B.GetNodeEdges g.backend o).foldl (Graph.replaceStep B gen n) g
  let n1 : Node := { n with metadatas := o.metadatas }
  let g2 := Graph.NotifyNodeUpdated n1 g1
  (n1, (Graph.DelNode B o g2).2)

/-- The loop of `Graph.LookupNodes` over the remaining nodes, `nodes` being the
slice built so far. -/
def Graph.lookupNodesLoop (m : Metadatas) : List Node → List Node → Run (List Node)
  | [], nodes => .ok nodes
  | n :: rest, nodes =>
    (n.tographElement.matchFilters m).bind (fun matched =>
      if matched then Graph.lookupNodesLoop m rest (nodes ++ [n])
      else Graph.lookupNodesLoop m rest nodes)

/-- Method `Graph.LookupNodes`. -/
def Graph.LookupNodes {σ : Type} (B : GraphBackend σ) (g : Graph σ) (m : Metadatas) :
    Run (List Node) :=
  Graph.lookupNodesLoop m (B.GetNodes g.backend) []

/-- Method `Graph.LookupFirstNode`; `none` is the nil result. -/
def Graph.LookupFirstNode {σ : Type} (B : GraphBackend σ) (g : Graph σ) (m : Metadatas) :
    Run (Option Node) :=
  (Graph.LookupNodes B g m).bind (fun nodes =>
    match nodes with
    | n :: _ => .ok (some n)
    | [] => .ok none)

/-- Method `Graph.LookupNodesFromKey`. -/
def Graph.LookupNodesFromKey {σ : Type} (B : GraphBackend σ) (g : Graph σ) (key : String) :
    List Node :=
  (B.GetNodes g.backend).filter (fun n => (n.metadatas.lookup key).isSome)

/-- The loop of `Graph.LookupParentNodes` over the remaining edges, `parents`
being the slice built so far. The condition is evaluated left to right:
`child != nil`, `child.ID == n.ID`, then `parent.matchFilters(f)`, which
dereferences `parent`. -/
def Graph.lookupParentNodesLoop {σ : Type} (B : GraphBackend σ) (g : Graph σ) (n : Node)
    (f : Metadatas) : List Edge → List Node → Run (List Node)
  | [], parents => .ok parents
  | e :: es, parents =>
    match B.GetEdgeNodes g.backend e with
    | (parent, some child) =>
      if child.ID = n.ID then
        match parent with
        | none => .nilDeref
        | some p =>
          (p.tographElement.matchFilters f).bind (fun matched =>
            if matched then Graph.lookupParentNodesLoop B g n f es (parents ++ [child])
            else Graph.lookupParentNodesLoop B g n f es parents)
      else Graph.lookupParentNodesLoop B g n f es parents
    | (_, none) => Graph.lookupParentNodesLoop B g n f es parents

/-- Method `Graph.LookupParentNodes`. -/
def Graph.LookupParentNodes {σ : Type} (B : GraphBackend σ) (g : Graph σ) (n : Node)
    (f : Metadatas) : Run (List Node) :=
  Graph.lookupParentNodesLoop B g n f (B.GetNodeEdges g.backend n) []

/-- The loop of `Graph.LookupChildren` over the remaining edges, `children`
being the slice built so far. The condition is evaluated left to right:
`parent != nil`, `parent.ID == n.ID`, then `child.matchFilters(f)`, which
dereferences `child`. -/
def Graph.lookupChildrenLoop {σ : Type} (B : GraphBackend σ) (g : Graph σ) (n : Node)
    (f : Metadatas) : List Edge → List Node → Run (List Node)
  | [], children => .ok children
  | e :: es, children =>
    match B.GetEdgeNodes g.backend e with
    | (some parent, child) =>
      if parent.ID = n.ID then
        match child with
        | none => .nilDeref
        | some c =>
          (c.tographElement.matchFilters f).bind (fun matched =>
            if matched then Graph.lookupChildrenLoop B g n f es (children ++ [c])
            else Graph.lookupChildrenLoop B g n f es children)
      else Graph.lookupChildrenLoop B g n f es children
    | (none, _) => Graph.lookupChildrenLoop B g n f es children

/-- Method `Graph.LookupChildren`. -/
def Graph.LookupChildren {σ : Type} (B : GraphBackend σ) (g : Graph σ) (n : Node)
    (f : Metadatas) : Run (List Node) :=
  Graph.lookupChildrenLoop B g n f (B.GetNodeEdges g.backend n) []

/-- First loop of `Graph.getAncestorsTo`: the parent of the first edge whose
child is `n` and whose parent matches `f`, if there is one. -/
def Graph.getAncestorsToScan {σ : Type} (B : GraphBackend σ) (g : Graph σ) (n : Node)
    (f : Metadatas) : List Edge → Run (Option Node)
  | [] => .ok none
  | e :: es =>
    match B.GetEdgeNodes g.backend e with
    | (parent, some child) =>
      if child.ID = n.ID then
        match parent with
        | none => .nilDeref
        | some p =>
          (p.tographElement.matchFilters f).bind (fun matched =>
            if matched then .ok (some p) else Graph.getAncestorsToScan B g n f es)
      else Graph.getAncestorsToScan B g n f es
    | (_, none) => Graph.getAncestorsToScan B g n f es

/-- Second loop of `Graph.getAncestorsTo`, `recurse` being the recursive call
`g.getAncestorsTo(parent, f, ancestors)`. A nil parent cannot reach this loop
(the first loop dereferences it on the same edge); it is counted as the panic. -/
def Graph.getAncestorsToClimb {σ : Type} (B : GraphBackend σ) (g : Graph σ) (n : Node)
    (recurse : Node → List Node → Run (Bool × List Node)) :
    List Edge → List Node → Run (Bool × List Node)
  | [], ancestors => .ok (false, ancestors)
  | e :: es, ancestors =>
    match B.GetEdgeNodes g.backend e with
    | (parent, some child) =>
      if child.ID = n.ID then
        match parent with
        | none => .nilDeref
        | some p =>
          match recurse p ancestors with
          | .ok (true, ancestors1) => .ok (true, ancestors1)
          | .ok (false, ancestors1) => Graph.getAncestorsToClimb B g n recurse es ancestors1
          | .nilDeref => .nilDeref
          | .outOfFuel => .outOfFuel
          | .comparePanic => .comparePanic
      else Graph.getAncestorsToClimb B g n recurse es ancestors
    | (_, none) => Graph.getAncestorsToClimb B g n recurse es ancestors

/-- Method `Graph.getAncestorsTo`, with at most `fuel` nested calls; the result is the
boolean and the slice `*ancestors` afterwards. -/
def Graph.getAncestorsTo {σ : Type} (B : GraphBackend σ) (g : Graph σ) (f : Metadatas) :
    Nat → Node → List Node → Run (Bool × List Node)
  | 0, _, _ => .outOfFuel
  | fuel + 1, n, ancestors =>
    let ancestors1 := ancestors ++ [n]
    let edges := B.GetNodeEdges g.backend n
    match Graph.getAncestorsToScan B g n f edges with
    | .ok (some parent) => .ok (true, ancestors1 ++ [parent])
    | .ok none =>
      Graph.getAncestorsToClimb B g n (Graph.getAncestorsTo B g f fuel) edges ancestors1
    | .nilDeref => .nilDeref
    | .outOfFuel => .outOfFuel
    | .comparePanic => .comparePanic

/-- Method `Graph.GetAncestorsTo`: the slice and the boolean. -/
def Graph.GetAncestorsTo {σ : Type} (B : GraphBackend σ) (g : Graph σ) (fuel : Nat) (n : Node)
    (f : Metadatas) : Run (List Node × Bool) :=
  match Graph.getAncestorsTo B g f fuel n [] with
  | .ok (ok, ancestors) => .ok (ancestors, ok)
  | .nilDeref => .nilDeref
  | .outOfFuel => .outOfFuel
  | .comparePanic => .comparePanic

/-- The loop of `Graph.delSubGraph` over the remaining edges, `recurse` being
the recursive call `g.delSubGraph(child, m)`; the state is the visited map and
the graph. The test `child.ID != n.ID` dereferences `child` unguarded. -/
def Graph.delSubGraphLoop {σ : Type} (B : GraphBackend σ) (n : Node)
    (recurse : Node → List Identifier → Graph σ → Run (List Identifier × Graph σ)) :
    List Edge → List Identifier → Graph σ → Run (List Identifier × Graph σ)
  | [], m, g => .ok (m, g)
  | e :: es, m, g =>
    match (B.GetEdgeNodes g.backend e).2 with
    | none => .nilDeref
    | some child =>
      if child.ID ≠ n.ID then
        match recurse child m g with
        | .ok (m1, g1) => Graph.delSubGraphLoop B n recurse es m1 (Graph.DelNode B child g1).2
        | .nilDeref => .nilDeref
        | .outOfFuel => .outOfFuel
        | .comparePanic => .comparePanic
      else Graph.delSubGraphLoop B n recurse es m g

/-- Method `Graph.delSubGraph`, with at most `fuel` nested calls; the map `m` is the
list of its keys. -/
def Graph.delSubGraph {σ : Type} (B : GraphBackend σ) :
    Nat → Node → List Identifier → Graph σ → Run (List Identifier × Graph σ)
  | 0, _, _, _ => .outOfFuel
  | fuel + 1, n, m, g =>
    if n.ID ∈ m then .ok (m, g)
    else
      Graph.delSubGraphLoop B n (Graph.delSubGraph B fuel) (B.GetNodeEdges g.backend n)
        (n.ID :: m) g

/-- Method `Graph.DelSubGraph` (no result). -/
def Graph.DelSubGraph {σ : Type} (B : GraphBackend σ) (fuel : Nat) (n : Node) (g : Graph σ) :
    Run (Unit × Graph σ) :=
  match Graph.delSubGraph B fuel n [] g with
  | .ok (_, g1) => .ok ((), g1)
  | .nilDeref => .nilDeref
  | .outOfFuel => .outOfFuel
  | .comparePanic => .comparePanic

/-- Method `Graph.GetNode`. -/
def Graph.GetNode {σ : Type} (B : GraphBackend σ) (g : Graph σ) (i : Identifier) : Option Node :=
  B.GetNode g.backend i

/-- Method `Graph.GetEdge`. -/
def Graph.GetEdge {σ : Type} (B : GraphBackend σ) (g : Graph σ) (i : Identifier) : Option Edge :=
  B.GetEdge g.backend i

/-- Method `Graph.GetNodes`. -/
def Graph.GetNodes {σ : Type} (B : GraphBackend σ) (g : Graph σ) : List Node :=
  B.GetNodes g.backend

/-- Method `Graph.GetEdges`. -/
def Graph.GetEdges {σ : Type} (B : GraphBackend σ) (g : Graph σ) : List Edge :=
  B.GetEdges g.backend

/-! ## In-memory backend -/

/-- Modelled from the spec: the in-memory `GraphBackend` implementation (the
repository's memory backend is not among the sources). It keeps the nodes and
the edges by identifier; adding a duplicate identifier is a no-op returning
false, deleting a missing identifier returns false, and an edge endpoint that
is not stored is reported as nil. -/
structure MemoryBackend where
  nodes : List Node
  edges : List Edge
  deriving DecidableEq, Repr

namespace MemoryBackend

/-- Modelled from the spec: whether a node with identifier `i` is stored. -/
def hasNode (m : MemoryBackend) (i : Identifier) : Bool := m.nodes.any (fun x => x.ID == i)

/-- Modelled from the spec: whether an edge with identifier `i` is stored. -/
def hasEdge (m : MemoryBackend) (i : Identifier) : Bool := m.edges.any (fun x => x.ID == i)

/-- Modelled from the spec: `AddNode` of the memory backend; a duplicate
identifier is a no-op returning false. -/
def AddNode (m : MemoryBackend) (n : Node) : Bool × MemoryBackend :=
  if m.hasNode n.ID then (false, m) else (true, { m with nodes := m.nodes ++ [n] })

/-- Modelled from the spec: `DelNode` of the memory backend; a missing identifier
returns false. -/
def DelNode (m : MemoryBackend) (n : Node) : Bool × MemoryBackend :=
  if m.hasNode n.ID then (true, { m with nodes := m.nodes.filter (fun x => x.ID != n.ID) })
  else (false, m)

/-- Modelled from the spec: `GetNode` of the memory backend; nil when missing. -/
def GetNode (m : MemoryBackend) (i : Identifier) : Option Node :=
  m.nodes.find? (fun x => x.ID == i)

/-- Modelled from the spec: `GetNodeEdges` of the memory backend, the stored
edges having `n` as parent or child. -/
def GetNodeEdges (m : MemoryBackend) (n : Node) : List Edge :=
  m.edges.filter (fun e => e.parent == n.ID || e.child == n.ID)

/-- Modelled from the spec: `AddEdge` of the memory backend; a duplicate
identifier is a no-op returning false. -/
def AddEdge (m : MemoryBackend) (e : Edge) : Bool × MemoryBackend :=
  if m.hasEdge e.ID then (false, m) else (true, { m with edges := m.edges ++ [e] })

/-- Modelled from the spec: `DelEdge` of the memory backend; a missing identifier
returns false. -/
def DelEdge (m : MemoryBackend) (e : Edge) : Bool × MemoryBackend :=
  if m.hasEdge e.ID then (true, { m with edges := m.edges.filter (fun x => x.ID != e.ID) })
  else (false, m)

/-- Modelled from the spec: `GetEdge` of the memory backend; nil when missing. -/
def GetEdge (m : MemoryBackend) (i : Identifier) : Option Edge :=
  m.edges.find? (fun x => x.ID == i)

/-- Modelled from the spec: `GetEdgeNodes` of the memory backend, the stored
parent and child; an endpoint that is not stored is nil. -/
def GetEdgeNodes (m : MemoryBackend) (e : Edge) : Option Node × Option Node :=
  (m.GetNode e.parent, m.GetNode e.child)

/-- Modelled from the spec: rewriting with `f` the metadata of the stored nodes
named `i`. -/
def rewriteNodes (i : Identifier) (f : Metadatas → Metadatas) (l : List Node) : List Node :=
  l.map (fun x => if x.ID == i then { x with metadatas := f x.metadatas } else x)

/-- Modelled from the spec: the same rewriting on edges. -/
def rewriteEdges (i : Identifier) (f : Metadatas → Metadatas) (l : List Edge) : List Edge :=
  l.map (fun x => if x.ID == i then { x with metadatas := f x.metadatas } else x)

/-- Modelled from the spec: the metadata of the stored element with the
identifier of `el` rewritten with `f`; false when it is not stored or nothing
changes. -/
def update (m : MemoryBackend) (el : Element) (f : Metadatas → Metadatas) : Bool × MemoryBackend :=
  match el with
  | .node n =>
    match m.GetNode n.ID with
    | none => (false, m)
    | some s =>
      if f s.metadatas = s.metadatas then (false, m)
      else (true, { m with nodes := rewriteNodes n.ID f m.nodes })
  | .edge e =>
    match m.GetEdge e.ID with
    | none => (false, m)
    | some s =>
      if f s.metadatas = s.metadatas then (false, m)
      else (true, { m with edges := rewriteEdges e.ID f m.edges })

/-- Modelled from the spec: `SetMetadata` of the memory backend, setting one key. -/
def SetMetadata (m : MemoryBackend) (el : Element) (k : String) (v : Value) :
    Bool × MemoryBackend :=
  m.update el (fun md => (k, v) :: md.filter (fun kv => kv.1 != k))

/-- Modelled from the spec: `SetMetadatas` of the memory backend, replacing the
whole map. -/
def SetMetadatas (m : MemoryBackend) (el : Element) (md : Metadatas) : Bool × MemoryBackend :=
  m.update el (fun _ => md)

end MemoryBackend

/-- Modelled from the spec: the in-memory store as a `GraphBackend`. -/
def memory : GraphBackend MemoryBackend where
  AddNode := MemoryBackend.AddNode
  DelNode := MemoryBackend.DelNode
  GetNode := MemoryBackend.GetNode
  GetNodeEdges := MemoryBackend.GetNodeEdges
  AddEdge := MemoryBackend.AddEdge
  DelEdge := MemoryBackend.DelEdge
  GetEdge := MemoryBackend.GetEdge
  GetEdgeNodes := MemoryBackend.GetEdgeNodes
  SetMetadata := MemoryBackend.SetMetadata
  SetMetadatas := MemoryBackend.SetMetadatas
  GetNodes := fun m => m.nodes
  GetEdges := fun m => m.edges

/-- Constructor `NewGraph`: no listener, nothing delivered yet. -/
def NewGraph {σ : Type} (b : σ) : Graph σ :=
  { backend := b, eventListeners := [], calls := [], drawn := 0 }

/-! ## Journal of committed mutations -/

/-- A backend mutation that returned true, with the element it was called on. -/
inductive Mutation where
  | AddNode (n : Node)
  | DelNode (n : Node)
  | AddEdge (e : Edge)
  | DelEdge (e : Edge)
  | SetMetadata (el : Element)
  | SetMetadatas (el : Element)
  deriving DecidableEq, Repr

/-- The callback that announces a mutation. -/
def Mutation.callback : Mutation → Callback
  | .AddNode n => .OnNodeAdded n
  | .DelNode n => .OnNodeDeleted n
  | .AddEdge e => .OnEdgeAdded e
  | .DelEdge e => .OnEdgeDeleted e
  | .SetMetadata (.node n) => .OnNodeUpdated n
  | .SetMetadata (.edge e) => .OnEdgeUpdated e
  | .SetMetadatas (.node n) => .OnNodeUpdated n
  | .SetMetadatas (.edge e) => .OnEdgeUpdated e

/-- Appends `m` to the journal when the mutation returned true. -/
def journal {σ : Type} (m : Mutation) (log : List Mutation) (r : Bool × σ) :
    Bool × (σ × List Mutation) :=
  match r with
  | (true, b) => (true, (b, log ++ [m]))
  | (false, b) => (false, (b, log))

/-- The backend `B` observed from outside: same behaviour, and every mutation
that returns true is appended to a journal kept next to the store. -/
def journaled {σ : Type} (B : GraphBackend σ) : GraphBackend (σ × List Mutation) where
  AddNode := fun s n => journal (.AddNode n) s.2 (B.AddNode s.1 n)
  DelNode := fun s n => journal (.DelNode n) s.2 (B.DelNode s.1 n)
  GetNode := fun s i => B.GetNode s.1 i
  GetNodeEdges := fun s n => B.GetNodeEdges s.1 n
  AddEdge := fun s e => journal (.AddEdge e) s.2 (B.AddEdge s.1 e)
  DelEdge := fun s e => journal (.DelEdge e) s.2 (B.DelEdge s.1 e)
  GetEdge := fun s i => B.GetEdge s.1 i
  GetEdgeNodes := fun s e => B.GetEdgeNodes s.1 e
  SetMetadata := fun s el k v => journal (.SetMetadata el) s.2 (B.SetMetadata s.1 el k v)
  SetMetadatas := fun s el m => journal (.SetMetadatas el) s.2 (B.SetMetadatas s.1 el m)
  GetNodes := fun s => B.GetNodes s.1
  GetEdges := fun s => B.GetEdges s.1

/-- Between `g` and `g1` the callbacks made are exactly those announcing the
mutations journaled in between: one callback per listener and per mutation, in
the order of the mutations. -/
def Graph.Mirrors {σ : Type} (g g1 : Graph (σ × List Mutation)) : Prop :=
  g1.eventListeners = g.eventListeners ∧
  ∃ ms : List Mutation, g1.backend.2 = g.backend.2 ++ ms ∧
    g1.calls = g.calls ++ ms.flatMap (fun m => g.eventListeners.map (fun l => (l, m.callback)))

/-! ## Sample graphs -/

/-- An identifier generator standing for `uuid.NewV4`. -/
def uuid (k : Nat) : Identifier := "uuid-" ++ toString k

/-- Node `n1(TID=a)`. -/
def n1 : Node := { ID := "n1", metadatas := [("TID", .str "a")] }

/-- Node `n2(TID=b)`. -/
def n2 : Node := { ID := "n2", metadatas := [("TID", .str "b")] }

/-- A node that is not stored in the sample graph. -/
def n3 : Node := { ID := "n3", metadatas := [("TID", .str "c")] }

/-- Edge `n1 -> n2` with `RelationType = layer2`. -/
def e12 : Edge :=
  { ID := "e12", metadatas := [("RelationType", .str "layer2")], parent := "n1", child := "n2" }

/-- An edge that is not stored in the sample graph. -/
def e21 : Edge := { ID := "e21", metadatas := [], parent := "n2", child := "n1" }

/-- The graph of nodes `n1`, `n2` and edge `n1 -> n2`, with one listener. -/
def sampleGraph : Graph MemoryBackend :=
  (NewGraph { nodes := [n1, n2], edges := [e12] }).AddEventListener 1

/-- The same nodes without any edge, over a journaled store. -/
def replaceGraph : Graph (MemoryBackend × List Mutation) :=
  (NewGraph (({ nodes := [n1, n2], edges := [] } : MemoryBackend), [])).AddEventListener 1

/-- A node holding the slice of its addresses under `IPV4`. -/
def ipNode : Node :=
  { ID := "ip", metadatas := [("IPV4", .uncomparable "[]string" "[10.0.0.1]")] }

/-- The graph of the nodes `n1` and `ip`. -/
def ipGraph : Graph MemoryBackend := NewGraph { nodes := [n1, ipNode], edges := [] }

/-! ## Ancestor lists -/

/-- Node `p` is the parent endpoint of an edge reported for `a` whose child
endpoint has the identifier of `a`. -/
def Graph.isParentOf {σ : Type} (B : GraphBackend σ) (g : Graph σ) (a p : Node) : Bool :=
  (B.GetNodeEdges g.backend a).any (fun e =>
    match B.GetEdgeNodes g.backend e with
    | (some q, some c) => c.ID == a.ID && q == p
    | _ => false)

/-- Every element of `ext` is related by `R` to an element of `base` or to an
element of `ext` before it. -/
def Grown (R : Node → Node → Bool) : List Node → List Node → Prop
  | _, [] => True
  | base, x :: ext => (∃ a ∈ base, R a x = true) ∧ Grown R (base ++ [x]) ext

/-- A host node, the only one with `Type = host`. -/
def host : Node := { ID := "host", metadatas := [("Type", .str "host")] }

/-- A bridge, child of nothing. -/
def br0 : Node := { ID := "br0", metadatas := [("Type", .str "bridge")] }

/-- A namespace, child of the host. -/
def ns0 : Node := { ID := "ns0", metadatas := [("Type", .str "netns")] }

/-- An interface with two parents: the bridge and the namespace. -/
def eth0 : Node := { ID := "eth0", metadatas := [("Type", .str "veth")] }

/-- The graph `br0 -> eth0`, `ns0 -> eth0`, `host -> ns0`. -/
def twoParents : Graph MemoryBackend :=
  NewGraph
    { nodes := [host, br0, ns0, eth0],
      edges := [{ ID := "e1", metadatas := [], parent := "br0", child := "eth0" },
                { ID := "e2", metadatas := [], parent := "ns0", child := "eth0" },
                { ID := "e3", metadatas := [], parent := "host", child := "ns0" }] }

/-- The graph of the two-node cycle `n1 -> n2 -> n1`. -/
def cycleGraph : Graph MemoryBackend :=
  NewGraph { nodes := [n1, n2], edges := [e12, e21] }

/-- The graph of the node `n1` with the edges `n1 -> ghost` and `ghost -> n1`,
whose endpoint `ghost` is not stored. -/
def danglingGraph : Graph MemoryBackend :=
  NewGraph
    { nodes := [n1],
      edges := [{ ID := "d1", metadatas := [], parent := "n1", child := "ghost" },
                { ID := "d2", metadatas := [], parent := "ghost", child := "n1" }] }

/-- What a call of `getAncestorsTo` on `q` promises about the slice. -/
def AncestorsSpec {σ : Type} (B : GraphBackend σ) (g : Graph σ) (f : Metadatas)
    (recurse : Node → List Node → Run (Bool × List Node)) : Prop :=
  ∀ (q : Node) (anc : List Node) (b : Bool) (anc' : List Node),
    recurse q anc = .ok (b, anc') →
    ∃ ext, anc' = anc ++ q :: ext ∧ Grown (Graph.isParentOf B g) [q] ext ∧
      (b = true → ∃ init last, ext = init ++ [last] ∧
        last.tographElement.matchFilters f = .ok true)

/-! ## Flows, filters and search queries (`flow/traversal/traversal.go`)

The packages `flow`, `filters`, `common`, `config`, `storage`, `topology` and
`topology/graph/traversal` are not among the sources; what `traversal.go` takes
from them is modelled below from the specification, or passed as a parameter.
-/

/-- Go `error` values met in `flow/traversal`: a message built by `errors.New`
or `fmt.Errorf` (the text before the first verb), and the three package
variables `storage.NoStorageConfigured`, `traversal.ExecutionError` and
`common.ErrFieldNotFound`. -/
inductive Error where
  | text (msg : String)
  | NoStorageConfigured
  | ExecutionError
  | ErrFieldNotFound
  deriving DecidableEq, Repr

deriving instance DecidableEq for Except

/-- Modelled from the spec: one of the nested `Link`/`Network`/`Transport`
mappings of a flow, with its `.A` and `.B` endpoint fields. -/
structure FlowLayer where
  A : String := ""
  B : String := ""
  deriving DecidableEq, Repr

/-- Modelled from the spec: the counters of a flow, packets and bytes per
direction. -/
structure FlowMetric where
  ABPackets : Int := 0
  ABBytes : Int := 0
  BAPackets : Int := 0
  BABytes : Int := 0
  deriving DecidableEq, Repr

/-- Modelled from the spec: the flow record (`flow.Flow`). A layer the flow does
not have is `none`. -/
structure Flow where
  UUID : String := ""
  NodeTID : String := ""
  ANodeTID : String := ""
  BNodeTID : String := ""
  Start : Int := 0
  Last : Int := 0
  Metric : FlowMetric := {}
  LastUpdateStart : Int := 0
  LastUpdateLast : Int := 0
  LastUpdateMetric : FlowMetric := {}
  Link : Option FlowLayer := none
  Network : Option FlowLayer := none
  Transport : Option FlowLayer := none
  deriving DecidableEq, Repr

/-- Modelled from the spec: the field of a layer named by the last segment of a
dotted path; a missing layer or an unknown name is `ErrFieldNotFound`. -/
def FlowLayer.field (l : Option FlowLayer) (name : String) : Except Error String :=
  match l with
  | none => .error .ErrFieldNotFound
  | some x =>
    if name = "A" then .ok x.A
    else if name = "B" then .ok x.B
    else .error .ErrFieldNotFound

/-- Modelled from the spec: the counter of a metric named by the last segment of
a dotted path. -/
def FlowMetric.field (m : FlowMetric) (name : String) : Except Error Int :=
  if name = "ABPackets" then .ok m.ABPackets
  else if name = "ABBytes" then .ok m.ABBytes
  else if name = "BAPackets" then .ok m.BAPackets
  else if name = "BABytes" then .ok m.BABytes
  else .error .ErrFieldNotFound

/-- Modelled from the spec: `Flow.GetFieldString(path)`, dot notation into the
nested mappings; a missing field is `ErrFieldNotFound`. -/
def Flow.GetFieldString (f : Flow) (path : String) : Except Error String :=
  if path = "UUID" then .ok f.UUID
  else if path = "NodeTID" then .ok f.NodeTID
  else if path = "ANodeTID" then .ok f.ANodeTID
  else if path = "BNodeTID" then .ok f.BNodeTID
  else if path = "Link.A" then FlowLayer.field f.Link "A"
  else if path = "Link.B" then FlowLayer.field f.Link "B"
  else if path = "Network.A" then FlowLayer.field f.Network "A"
  else if path = "Network.B" then FlowLayer.field f.Network "B"
  else if path = "Transport.A" then FlowLayer.field f.Transport "A"
  else if path = "Transport.B" then FlowLayer.field f.Transport "B"
  else .error .ErrFieldNotFound

/-- Modelled from the spec: `Flow.GetFieldInt64(path)`, dot notation into the
nested mappings; a missing field is `ErrFieldNotFound`. -/
def Flow.GetFieldInt64 (f : Flow) (path : String) : Except Error Int :=
  if path = "Start" then .ok f.Start
  else if path = "Last" then .ok f.Last
  else if path = "LastUpdateStart" then .ok f.LastUpdateStart
  else if path = "LastUpdateLast" then .ok f.LastUpdateLast
  else if path = "Metric.ABPackets" then f.Metric.field "ABPackets"
  else if path = "Metric.ABBytes" then f.Metric.field "ABBytes"
  else if path = "Metric.BAPackets" then f.Metric.field "BAPackets"
  else if path = "Metric.BABytes" then f.Metric.field "BABytes"
  else if path = "LastUpdateMetric.ABPackets" then f.LastUpdateMetric.field "ABPackets"
  else if path = "LastUpdateMetric.ABBytes" then f.LastUpdateMetric.field "ABBytes"
  else if path = "LastUpdateMetric.BAPackets" then f.LastUpdateMetric.field "BAPackets"
  else if path = "LastUpdateMetric.BABytes" then f.LastUpdateMetric.field "BABytes"
  else .error .ErrFieldNotFound

/-- Modelled from the spec: `flow.FlowSet`, an ordered collection of flows. -/
structure FlowSet where
  Flows : List Flow := []
  deriving DecidableEq, Repr

/-- Modelled from the spec: `FlowSet.Slice(from, to)`, the half-open window of
the positions `from` to `to - 1`. -/
def FlowSet.Slice (fs : FlowSet) (lo hi : Int) : FlowSet :=
  { Flows := (fs.Flows.take hi.toNat).drop lo.toNat }

/-- Go `filters.Range`, two `int64`. -/
structure Range where
  From : Int := 0
  To : Int := 0
  deriving DecidableEq, Repr

/-- Go `common.TimeSlice`, two `int64`. -/
structure TimeSlice where
  Start : Int
  Last : Int
  deriving DecidableEq, Repr

/-- Modelled from the spec: a `*filters.Filter` as the tree its constructors
build. `nil` is the nil pointer; `TermString` and `TermInt64` are
`NewTermStringFilter` and `NewTermInt64Filter`; `And` and `Or` are
`NewAndFilter` and `NewOrFilter` with their operands as given; `ActiveIn` is
`NewFilterActiveIn(range, prefix)`. -/
inductive Filter where
  | nil
  | TermString (key value : String)
  | TermInt64 (key : String) (value : Int)
  | And (operands : List Filter)
  | Or (operands : List Filter)
  | ActiveIn (r : Range) (pfx : String)
  deriving Repr

mutual
/-- Modelled from the spec: whether a flow satisfies a filter. A nil filter
constrains nothing; a term holds when the field exists with that value; `And`
needs every operand and `Or` some operand; `ActiveIn(range, prefix)` holds when
the flow's interval `[prefix+Start, prefix+Last]` meets the range, that is
`Start <= To` and `Last >= From`. -/
def Filter.Eval : Filter → Flow → Bool
  | .nil, _ => true
  | .TermString k v, fl => decide (fl.GetFieldString k = .ok v)
  | .TermInt64 k v, fl => decide (fl.GetFieldInt64 k = .ok v)
  | .And fs, fl => Filter.EvalAll fs fl
  | .Or fs, fl => Filter.EvalAny fs fl
  | .ActiveIn r pfx, fl =>
    match fl.GetFieldInt64 (pfx ++ "Start"), fl.GetFieldInt64 (pfx ++ "Last") with
    | .ok start, .ok last => decide (start ≤ r.To) && decide (r.From ≤ last)
    | _, _ => false
/-- Modelled from the spec: every filter of the list holds. -/
def Filter.EvalAll : List Filter → Flow → Bool
  | [], _ => true
  | f :: fs, fl => f.Eval fl && Filter.EvalAll fs fl
/-- Modelled from the spec: some filter of the list holds. -/
def Filter.EvalAny : List Filter → Flow → Bool
  | [], _ => false
  | f :: fs, fl => f.Eval fl || Filter.EvalAny fs fl
end

mutual
/-- Decidable equality of filters, constructor by constructor. -/
def Filter.decEq : (a b : Filter) → Decidable (a = b)
  | .nil, .nil => isTrue rfl
  | .nil, .TermString k2 v2 => isFalse (fun h => Filter.noConfusion h)
  | .nil, .TermInt64 k2 v2 => isFalse (fun h => Filter.noConfusion h)
  | .nil, .And fs2 => isFalse (fun h => Filter.noConfusion h)
  | .nil, .Or fs2 => isFalse (fun h => Filter.noConfusion h)
  | .nil, .ActiveIn r2 p2 => isFalse (fun h => Filter.noConfusion h)
  | .TermString k1 v1, .nil => isFalse (fun h => Filter.noConfusion h)
  | .TermString k1 v1, .TermString k2 v2 =>
    if h1 : k1 = k2 then
      if h2 : v1 = v2 then isTrue (by rw [h1, h2])
      else isFalse (fun e => h2 (Filter.TermString.inj e).2)
    else isFalse (fun e => h1 (Filter.TermString.inj e).1)
  | .TermString k1 v1, .TermInt64 k2 v2 => isFalse (fun h => Filter.noConfusion h)
  | .TermString k1 v1, .And fs2 => isFalse (fun h => Filter.noConfusion h)
  | .TermString k1 v1, .Or fs2 => isFalse (fun h => Filter.noConfusion h)
  | .TermString k1 v1, .ActiveIn r2 p2 => isFalse (fun h => Filter.noConfusion h)
  | .TermInt64 k1 v1, .nil => isFalse (fun h => Filter.noConfusion h)
  | .TermInt64 k1 v1, .TermString k2 v2 => isFalse (fun h => Filter.noConfusion h)
  | .TermInt64 k1 v1, .TermInt64 k2 v2 =>
    if h1 : k1 = k2 then
      if h2 : v1 = v2 then isTrue (by rw [h1, h2])
      else isFalse (fun e => h2 (Filter.TermInt64.inj e).2)
    else isFalse (fun e => h1 (Filter.TermInt64.inj e).1)
  | .TermInt64 k1 v1, .And fs2 => isFalse (fun h => Filter.noConfusion h)
  | .TermInt64 k1 v1, .Or fs2 => isFalse (fun h => Filter.noConfusion h)
  | .TermInt64 k1 v1, .ActiveIn r2 p2 => isFalse (fun h => Filter.noConfusion h)
  | .And fs1, .nil => isFalse (fun h => Filter.noConfusion h)
  | .And fs1, .TermString k2 v2 => isFalse (fun h => Filter.noConfusion h)
  | .And fs1, .TermInt64 k2 v2 => isFalse (fun h => Filter.noConfusion h)
  | .And fs1, .And fs2 =>
    match Filter.decEqList fs1 fs2 with
    | isTrue h => isTrue (congrArg Filter.And h)
    | isFalse h => isFalse (fun e => h (Filter.And.inj e))
  | .And fs1, .Or fs2 => isFalse (fun h => Filter.noConfusion h)
  | .And fs1, .ActiveIn r2 p2 => isFalse (fun h => Filter.noConfusion h)
  | .Or fs1, .nil => isFalse (fun h => Filter.noConfusion h)
  | .Or fs1, .TermString k2 v2 => isFalse (fun h => Filter.noConfusion h)
  | .Or fs1, .TermInt64 k2 v2 => isFalse (fun h => Filter.noConfusion h)
  | .Or fs1, .And fs2 => isFalse (fun h => Filter.noConfusion h)
  | .Or fs1, .Or fs2 =>
    match Filter.decEqList fs1 fs2 with
    | isTrue h => isTrue (congrArg Filter.Or h)
    | isFalse h => isFalse (fun e => h (Filter.Or.inj e))
  | .Or fs1, .ActiveIn r2 p2 => isFalse (fun h => Filter.noConfusion h)
  | .ActiveIn r1 p1, .nil => isFalse (fun h => Filter.noConfusion h)
  | .ActiveIn r1 p1, .TermString k2 v2 => isFalse (fun h => Filter.noConfusion h)
  | .ActiveIn r1 p1, .TermInt64 k2 v2 => isFalse (fun h => Filter.noConfusion h)
  | .ActiveIn r1 p1, .And fs2 => isFalse (fun h => Filter.noConfusion h)
  | .ActiveIn r1 p1, .Or fs2 => isFalse (fun h => Filter.noConfusion h)
  | .ActiveIn r1 p1, .ActiveIn r2 p2 =>
    if h1 : r1 = r2 then
      if h2 : p1 = p2 then isTrue (by rw [h1, h2])
      else isFalse (fun e => h2 (Filter.ActiveIn.inj e).2)
    else isFalse (fun e => h1 (Filter.ActiveIn.inj e).1)
/-- Decidable equality of lists of filters. -/
def Filter.decEqList : (as bs : List Filter) → Decidable (as = bs)
  | [], [] => isTrue rfl
  | [], _ :: _ => isFalse (fun h => List.noConfusion h)
  | _ :: _, [] => isFalse (fun h => List.noConfusion h)
  | a :: as, b :: bs =>
    match Filter.decEq a b with
    | isFalse h => isFalse (fun e => h (List.cons.inj e).1)
    | isTrue h1 =>
      match Filter.decEqList as bs with
      | isTrue h2 => isTrue (by rw [h1, h2])
      | isFalse h => isFalse (fun e => h (List.cons.inj e).2)
end

instance : DecidableEq Filter := Filter.decEq

/-- Go `filters.SearchQuery`; `Filter` may be the nil filter and
`PaginationRange` the nil range. The field `Sort` is written `Sort_`. -/
structure SearchQuery where
  Filter : Filter := .nil
  PaginationRange : Option Range := none
  Dedup : Bool := false
  DedupBy : String := ""
  Sort_ : Bool := false
  SortBy : String := ""
  SortOrder : String := ""
  deriving DecidableEq, Repr

/-- Go `traversal.GremlinTraversalContext`: the parameters of the step and the
pagination range `StepContext.PaginationRange`, nil or a pair of `int64`. -/
structure GremlinTraversalContext where
  Params : List Value := []
  PaginationRange : Option (Int × Int) := none
  deriving DecidableEq, Repr

/-- The steps `FlowGremlinTraversalStep.Reduce` tells apart by their dynamic
type: `GremlinTraversalStepHas`, `...Dedup`, `...Sort` (written `Sort_`),
`...Metrics`, and any other step. -/
inductive GremlinTraversalStep where
  | Has (Params : List Value)
  | Dedup (Params : List Value)
  | Sort_ (Params : List Value)
  | Metrics
  | Other (name : String)
  deriving DecidableEq, Repr

/-- What `traversal.go` calls in packages that are not among the sources:
`traversal.ParamToFilter`, `traversal.SliceToMetadata`,
`common.IsCaptureAllowed`, the configured `flow.expire`
(`config.GetConfig().GetInt64`), `flow.NewFilterForNodes`,
`topology.BuildHostNodeTIDMap`, `traversal.ParseSortParameter` (its three
results), `common.SortAscending` and `GremlinTraversalContext.ReduceRange` (its
result and the context afterwards). -/
structure Packages where
  ParamToFilter : String → Value → Except Error Filter
  SliceToMetadata : List Value → Except Error Metadatas
  IsCaptureAllowed : String → Bool
  flowExpire : Int
  NewFilterForNodes : List Node → Filter
  BuildHostNodeTIDMap : List Node → List (String × List String)
  ParseSortParameter : List Value → String × String × Option Error
  SortAscending : String
  ReduceRange : GremlinTraversalContext → GremlinTraversalStep → Bool × GremlinTraversalContext

/-- Constant `defaultSortBy`. -/
def defaultSortBy : String := "Last"

/-- An `int64` result: the integer brought back into `[-2^63, 2^63)`. -/
def wrapInt64 (x : Int) : Int := (x + 2 ^ 63) % 2 ^ 64 - 2 ^ 63

/-- Go `common.TimedMetric`, a metric over a time slice. -/
structure TimedMetric where
  TimeSlice : TimeSlice
  Metric : FlowMetric
  deriving DecidableEq, Repr

/-- Go `interface storage.Storage`, as far as `traversal.go` calls it; each
method answers with its value or its error. -/
structure Storage where
  SearchFlows : SearchQuery → Except Error FlowSet
  SearchMetrics : SearchQuery → Filter → Except Error (List (String × List TimedMetric))

/-- Go `flow.TableClient`, as far as `traversal.go` calls it; each method
answers with its value or its error. -/
structure TableClient where
  LookupFlows : SearchQuery → Except Error FlowSet
  LookupFlowsByNodes : List (String × List String) → SearchQuery → Except Error FlowSet

/-- A request sent to the flow storage or to the table client. -/
inductive FlowCall where
  | SearchFlows (q : SearchQuery)
  | LookupFlows (q : SearchQuery)
  | LookupFlowsByNodes (hnmap : List (String × List String)) (q : SearchQuery)
  deriving DecidableEq, Repr

/-- Go `traversal.GraphTraversal`: the graph, with the time slice that
`Graph.GetContext()` returns (nil when the context carries none). -/
structure GraphTraversal (σ : Type) where
  Graph : Graph σ
  TimeSlice : Option TimeSlice := none
  deriving DecidableEq

/-- Go `traversal.GraphTraversalV` as `NewGraphTraversalV` builds it: the
traversal (a pointer, possibly nil), the nodes and the error. -/
structure GraphTraversalV (σ : Type) where
  GraphTraversal : Option (GraphTraversal σ)
  nodes : List Node
  error : Option Error := none
  deriving DecidableEq

/-- Go `traversal.GraphTraversalShortestPath`: the traversal and the nodes that
`GetNodes()` returns. -/
structure GraphTraversalShortestPath (σ : Type) where
  GraphTraversal : Option (GraphTraversal σ)
  nodes : List Node
  deriving DecidableEq

/-- The upstream steps `FlowGremlinTraversalStep.Exec` tells apart by their
dynamic type, and any other step. -/
inductive GraphTraversalStep (σ : Type) where
  | GraphTraversal (tv : Skydive.GraphTraversal σ)
  | GraphTraversalV (tv : Skydive.GraphTraversalV σ)
  | GraphTraversalShortestPath (tv : Skydive.GraphTraversalShortestPath σ)
  | Other (name : String)

/-- Go `struct FlowGremlinTraversalStep`. -/
structure FlowGremlinTraversalStep where
  TableClient : TableClient
  Storage : Option Storage := none
  context : GremlinTraversalContext := {}
  hasParams : List Value := []
  metricsNextStep : Bool := false
  dedup : Bool := false
  dedupBy : String := ""
  sort : Bool := false
  sortBy : String := ""
  sortOrder : String := ""

/-- Go `struct FlowTraversalStep`; the pointers `GraphTraversal` and `flowset`
and the interface values `Storage` and `error` may be nil. -/
structure FlowTraversalStep (σ : Type) where
  GraphTraversal : Option (GraphTraversal σ) := none
  Storage : Option Storage := none
  flowset : Option FlowSet := none
  flowSearchQuery : SearchQuery := {}
  error : Option Error := none

/-- Modelled from the spec: `Node.GetFieldString(name)`, the string stored
under a metadata key, or the empty string and an error. -/
def Node.GetFieldString (n : Node) (name : String) : String × Option Error :=
  match n.metadatas.lookup name with
  | some (.str s) => (s, none)
  | _ => ("", some .ErrFieldNotFound)

/-- The map assignment `m[k] = v`. -/
def Metadatas.set (m : Metadatas) (k : String) (v : Value) : Metadatas :=
  (k, v) :: m.filter (fun kv => kv.1 != k)

/-- The loop of `paramsToFilter` over the remaining parameters, `andFilters`
being the slice built so far. The length test before the loop leaves an even
number of parameters, so the single-parameter rest does not occur. -/
def paramsToFilterLoop (D : Packages) : List Value → List Filter → Except Error (List Filter)
  | [], andFilters => .ok andFilters
  | [_], andFilters => .ok andFilters
  | p :: q :: rest, andFilters =>
    match p with
    | .str k =>
      match q with
      | .str v =>
        if k = "Network" ∨ k = "Link" ∨ k = "Transport" then
          paramsToFilterLoop D rest (andFilters ++
            [Filter.Or [Filter.TermString (k ++ ".A") v, Filter.TermString (k ++ ".B") v]])
        else
          match D.ParamToFilter k q with
          | .error err => .error err
          | .ok f => paramsToFilterLoop D rest (andFilters ++ [f])
      | _ =>
        match D.ParamToFilter k q with
        | .error err => .error err
        | .ok f => paramsToFilterLoop D rest (andFilters ++ [f])
    | _ => .error (.text "keys should be of string type")

/-- Function `paramsToFilter`. -/
def paramsToFilter (D : Packages) (params : List Value) : Except Error Filter :=
  if params.length < 2 then
    .error (.text "At least two parameters must be provided")
  else if params.length % 2 ≠ 0 then
    .error (.text "slice must be defined by pair k,v: ")
  else
    match paramsToFilterLoop D params [] with
    | .error err => .error err
    | .ok andFilters => .ok (Filter.And andFilters)

/-- Method `FlowGremlinTraversalStep.makeSearchQuery`. -/
def FlowGremlinTraversalStep.makeSearchQuery (D : Packages) (s : FlowGremlinTraversalStep) :
    Except Error SearchQuery :=
  match (if s.hasParams.length > 0 then paramsToFilter D s.hasParams else .ok Filter.nil) with
  | .error err => .error err
  | .ok paramsFilter =>
    let interval : Option Range :=
      match s.context.PaginationRange with
      | some r => some { From := 0, To := r.2 }
      | none => none
    .ok { Filter := paramsFilter,
          PaginationRange := interval,
          Dedup := s.dedup,
          DedupBy := s.dedupBy,
          Sort_ := s.sort,
          SortBy := s.sortBy,
          SortOrder := s.sortOrder }

/-- Function `captureAllowedNodes`. -/
def captureAllowedNodes (D : Packages) (nodes : List Node) : List Node :=
  nodes.filter (fun n => (n.GetFieldString "Type").1 != "" &&
    D.IsCaptureAllowed (n.GetFieldString "Type").1)

/-- Method `FlowGremlinTraversalStep.addTimeFilter`: the query afterwards. The
subtraction and the product by 1000 are `int64` operations. -/
def FlowGremlinTraversalStep.addTimeFilter (D : Packages) (fsq : SearchQuery)
    (timeContext : TimeSlice) : SearchQuery :=
  let tr : Range :=
    { From := wrapInt64 (timeContext.Start - wrapInt64 (D.flowExpire * 1000)),
      To := timeContext.Last }
  let timeFilter := Filter.ActiveIn tr ""
  { fsq with Filter := Filter.And [fsq.Filter, timeFilter] }

/-- The part of `FlowGremlinTraversalStep.Exec` after the type switch (from
`if context.TimeSlice != nil`), for the traversal and the capture-allowed
nodes the switch produced: the result, and the requests sent on the way. -/
def FlowGremlinTraversalStep.execRetrieve {σ : Type} (D : Packages)
    (s : FlowGremlinTraversalStep) (flowSearchQuery : SearchQuery)
    (graphTraversal : GraphTraversal σ) (nodes : List Node) :
    Except Error (FlowTraversalStep σ) × List FlowCall :=
  let finish : SearchQuery → FlowSet → FlowTraversalStep σ := fun q flowset =>
    { GraphTraversal := some graphTraversal,
      Storage := s.Storage,
      flowset := some (match s.context.PaginationRange with
        | some r => flowset.Slice r.1 r.2
        | none => flowset),
      flowSearchQuery := q }
  match graphTraversal.TimeSlice with
  | some timeSlice =>
    match s.Storage with
    | none => (.error .NoStorageConfigured, [])
    | some storage =>
      let q1 := FlowGremlinTraversalStep.addTimeFilter D flowSearchQuery timeSlice
      let q2 : SearchQuery :=
        if nodes.length ≠ 0 then
          { q1 with Filter := Filter.And [q1.Filter, D.NewFilterForNodes nodes] }
        else q1
      if s.metricsNextStep then
        (.ok { GraphTraversal := some graphTraversal, Storage := s.Storage,
               flowSearchQuery := q2 }, [])
      else
        match storage.SearchFlows q2 with
        | .error err => (.error err, [.SearchFlows q2])
        | .ok flowset => (.ok (finish q2 flowset), [.SearchFlows q2])
  | none =>
    if nodes.length ≠ 0 then
      let hnmap := D.BuildHostNodeTIDMap nodes
      match s.TableClient.LookupFlowsByNodes hnmap flowSearchQuery with
      | .error err => (.error err, [.LookupFlowsByNodes hnmap flowSearchQuery])
      | .ok flowset =>
        (.ok (finish flowSearchQuery flowset), [.LookupFlowsByNodes hnmap flowSearchQuery])
    else
      match s.TableClient.LookupFlows flowSearchQuery with
      | .error err => (.error err, [.LookupFlows flowSearchQuery])
      | .ok flowset => (.ok (finish flowSearchQuery flowset), [.LookupFlows flowSearchQuery])

/-- Method `FlowGremlinTraversalStep.Exec`: the step or the error returned,
and the requests sent to the storage and to the table client. Locking a nil
`GraphTraversal` is the nil dereference. -/
def FlowGremlinTraversalStep.Exec {σ : Type} (D : Packages) (s : FlowGremlinTraversalStep)
    (last : GraphTraversalStep σ) : Run (Except Error (FlowTraversalStep σ) × List FlowCall) :=
  match FlowGremlinTraversalStep.makeSearchQuery D s with
  | .error err => .ok (.error err, [])
  | .ok flowSearchQuery =>
    match last with
    | .GraphTraversal tv =>
      .ok (FlowGremlinTraversalStep.execRetrieve D s flowSearchQuery tv [])
    | .GraphTraversalV tv =>
      match tv.GraphTraversal with
      | none => .nilDeref
      | some graphTraversal =>
        let nodes := captureAllowedNodes D tv.nodes
        if nodes.length = 0 then
          .ok (.ok { GraphTraversal := some graphTraversal, Storage := s.Storage,
                     flowset := some {}, flowSearchQuery := flowSearchQuery }, [])
        else .ok (FlowGremlinTraversalStep.execRetrieve D s flowSearchQuery graphTraversal nodes)
    | .GraphTraversalShortestPath tv =>
      match tv.GraphTraversal with
      | none => .nilDeref
      | some graphTraversal =>
        let nodes := captureAllowedNodes D tv.nodes
        if nodes.length = 0 then
          .ok (.ok { GraphTraversal := some graphTraversal, Storage := s.Storage,
                     flowset := some {}, flowSearchQuery := flowSearchQuery }, [])
        else .ok (FlowGremlinTraversalStep.execRetrieve D s flowSearchQuery graphTraversal nodes)
    | .Other _ => .ok (.error .ExecutionError, [])

/-- Method `FlowGremlinTraversalStep.Reduce`: the receiver afterwards, and
whether the receiver (true) or `next` (false) is returned. `none` is the panic
of the unchecked assertion `dedupStep.Params[0].(string)`. -/
def FlowGremlinTraversalStep.Reduce (D : Packages) (s : FlowGremlinTraversalStep)
    (next : GremlinTraversalStep) : Option (FlowGremlinTraversalStep × Bool) :=
  match next with
  | .Has params => some ({ s with hasParams := s.hasParams ++ params }, true)
  | .Dedup params =>
    match params with
    | [] => some ({ s with dedup := true }, true)
    | .str k :: _ => some ({ s with dedup := true, dedupBy := k }, true)
    | _ :: _ => none
  | .Sort_ params =>
    let s1 := { s with sort := true, sortBy := defaultSortBy, sortOrder := D.SortAscending }
    if params.length > 0 then
      match D.ParseSortParameter params with
      | (order, sortBy, some _) => some ({ s1 with sortOrder := order, sortBy := sortBy }, false)
      | (order, sortBy, none) => some ({ s1 with sortOrder := order, sortBy := sortBy }, true)
    else some (s1, true)
  | .Metrics =>
    let s1 := { s with metricsNextStep := true }
    match D.ReduceRange s1.context .Metrics with
    | (true, c) => some ({ s1 with context := c }, true)
    | (false, c) => some ({ s1 with context := c }, false)
  | .Other name =>
    match D.ReduceRange s.context (.Other name) with
    | (true, c) => some ({ s with context := c }, true)
    | (false, c) => some ({ s with context := c }, false)

/-- The state of the loops of the node steps: the filter map with the `TID` set
last, and the nodes appended so far. -/
abbrev TIDState : Type := Metadatas × List Node

/-- The block `m["TID"] = tid; if node := f.GraphTraversal.Graph.LookupFirstNode(m);
node != nil { nodes = append(nodes, node) }` of the node steps, on the map and
the slice built so far. -/
def lookupTID {σ : Type} (B : GraphBackend σ) (g : Graph σ) (tid : String)
    (st : TIDState) : Run TIDState :=
  let m := Metadatas.set st.1 "TID" (.str tid)
  (Graph.LookupFirstNode B g m).bind (fun found =>
    match found with
    | some node => .ok (m, st.2 ++ [node])
    | none => .ok (m, st.2))

/-- The same block under the guard `tid != "" && tid != "*"`. -/
def lookupKnownTID {σ : Type} (B : GraphBackend σ) (g : Graph σ) (tid : String)
    (st : TIDState) : Run TIDState :=
  if tid ≠ "" ∧ tid ≠ "*" then lookupTID B g tid st else .ok st

/-- Method `FlowTraversalStep.Out`. -/
def FlowTraversalStep.Out {σ : Type} (B : GraphBackend σ) (D : Packages)
    (f : FlowTraversalStep σ) (s : List Value) : Run (GraphTraversalV σ) :=
  match f.error with
  | some err => .ok { GraphTraversal := f.GraphTraversal, nodes := [], error := some err }
  | none =>
    match D.SliceToMetadata s with
    | .error err => .ok { GraphTraversal := f.GraphTraversal, nodes := [], error := some err }
    | .ok m =>
      match f.GraphTraversal, f.flowset with
      | some gt, some flowset =>
        (flowset.Flows.foldl
          (fun (st : Run TIDState) flow => st.bind (lookupKnownTID B gt.Graph flow.BNodeTID))
          (.ok (m, []))).bind
          (fun st => .ok { GraphTraversal := some gt, nodes := st.2 })
      | _, _ => .nilDeref

/-- Method `FlowTraversalStep.In`. -/
def FlowTraversalStep.In {σ : Type} (B : GraphBackend σ) (D : Packages)
    (f : FlowTraversalStep σ) (s : List Value) : Run (GraphTraversalV σ) :=
  match f.error with
  | some err => .ok { GraphTraversal := f.GraphTraversal, nodes := [], error := some err }
  | none =>
    match D.SliceToMetadata s with
    | .error err => .ok { GraphTraversal := f.GraphTraversal, nodes := [], error := some err }
    | .ok m =>
      match f.GraphTraversal, f.flowset with
      | some gt, some flowset =>
        (flowset.Flows.foldl
          (fun (st : Run TIDState) flow => st.bind (lookupKnownTID B gt.Graph flow.ANodeTID))
          (.ok (m, []))).bind
          (fun st => .ok { GraphTraversal := some gt, nodes := st.2 })
      | _, _ => .nilDeref

/-- Method `FlowTraversalStep.Both`. -/
def FlowTraversalStep.Both {σ : Type} (B : GraphBackend σ) (D : Packages)
    (f : FlowTraversalStep σ) (s : List Value) : Run (GraphTraversalV σ) :=
  match f.error with
  | some err => .ok { GraphTraversal := f.GraphTraversal, nodes := [], error := some err }
  | none =>
    match D.SliceToMetadata s with
    | .error err => .ok { GraphTraversal := f.GraphTraversal, nodes := [], error := some err }
    | .ok m =>
      match f.GraphTraversal, f.flowset with
      | some gt, some flowset =>
        (flowset.Flows.foldl
          (fun (st : Run TIDState) flow =>
            (st.bind (lookupKnownTID B gt.Graph flow.ANodeTID)).bind
              (lookupKnownTID B gt.Graph flow.BNodeTID))
          (.ok (m, []))).bind
          (fun st => .ok { GraphTraversal := some gt, nodes := st.2 })
      | _, _ => .nilDeref

/-- Method `FlowTraversalStep.Nodes`. -/
def FlowTraversalStep.Nodes {σ : Type} (B : GraphBackend σ) (D : Packages)
    (f : FlowTraversalStep σ) (s : List Value) : Run (GraphTraversalV σ) :=
  match f.error with
  | some err => .ok { GraphTraversal := f.GraphTraversal, nodes := [], error := some err }
  | none =>
    match D.SliceToMetadata s with
    | .error err => .ok { GraphTraversal := f.GraphTraversal, nodes := [], error := some err }
    | .ok m =>
      match f.GraphTraversal, f.flowset with
      | some gt, some flowset =>
        (flowset.Flows.foldl
          (fun (st : Run TIDState) flow =>
            ((st.bind (lookupKnownTID B gt.Graph flow.NodeTID)).bind
              (lookupKnownTID B gt.Graph flow.ANodeTID)).bind
              (lookupKnownTID B gt.Graph flow.BNodeTID))
          (.ok (m, []))).bind
          (fun st => .ok { GraphTraversal := some gt, nodes := st.2 })
      | _, _ => .nilDeref

/-- Method `FlowTraversalStep.Hops`. -/
def FlowTraversalStep.Hops {σ : Type} (B : GraphBackend σ) (D : Packages)
    (f : FlowTraversalStep σ) (s : List Value) : Run (GraphTraversalV σ) :=
  match f.error with
  | some err => .ok { GraphTraversal := f.GraphTraversal, nodes := [], error := some err }
  | none =>
    match D.SliceToMetadata s with
    | .error err => .ok { GraphTraversal := f.GraphTraversal, nodes := [], error := some err }
    | .ok m =>
      match f.GraphTraversal, f.flowset with
      | some gt, some flowset =>
        (flowset.Flows.foldl
          (fun (st : Run TIDState) fl => st.bind (lookupTID B gt.Graph fl.NodeTID))
          (.ok (m, []))).bind
          (fun st => .ok { GraphTraversal := some gt, nodes := st.2 })
      | _, _ => .nilDeref

/-- Method `FlowTraversalStep.CaptureNode`. -/
def FlowTraversalStep.CaptureNode {σ : Type} (B : GraphBackend σ) (D : Packages)
    (f : FlowTraversalStep σ) (s : List Value) : Run (GraphTraversalV σ) :=
  match f.error with
  | some err => .ok { GraphTraversal := f.GraphTraversal, nodes := [], error := some err }
  | none =>
    match D.SliceToMetadata s with
    | .error err => .ok { GraphTraversal := f.GraphTraversal, nodes := [], error := some err }
    | .ok m =>
      match f.GraphTraversal, f.flowset with
      | some gt, some flowset =>
        (flowset.Flows.foldl
          (fun (st : Run TIDState) fl => st.bind (lookupTID B gt.Graph fl.NodeTID))
          (.ok (m, []))).bind
          (fun st => .ok { GraphTraversal := some gt, nodes := st.2 })
      | _, _ => .nilDeref

/-! ## Sample packages, flows and steps -/

/-- Modelled from the spec: a generic parameter-to-filter translation
(`traversal.ParamToFilter`), the term filter `key == value` for a string or an
integer value. -/
def termParamToFilter (k : String) (v : Value) : Except Error Filter :=
  match v with
  | .str s => .ok (.TermString k s)
  | .int i => .ok (.TermInt64 k i)
  | _ => .error (.text "unsupported value type")

/-- Modelled from the spec: `traversal.SliceToMetadata`, the map of the pairs
`key, value`; an odd number of parameters or a key that is not a string is an
error. -/
def sliceToMetadata : List Value → Except Error Metadatas
  | [] => .ok []
  | [_] => .error (.text "slice must be defined by pair k,v")
  | .str k :: v :: rest =>
    match sliceToMetadata rest with
    | .ok m => .ok (Metadatas.set m k v)
    | .error err => .error err
  | _ :: _ :: _ => .error (.text "keys should be of string type")

/-- Modelled from the spec: the capture-allowed node types. -/
def isCaptureAllowed (tp : String) : Bool :=
  tp ∈ ["ovsbridge", "veth", "device", "internal", "tun", "bridge", "netns"]

/-- Modelled from the spec: packages for the examples, with `flow.expire`
configured to 30000; the node filter is `NodeTID == TID` for some node. -/
def samplePackages : Packages where
  ParamToFilter := termParamToFilter
  SliceToMetadata := sliceToMetadata
  IsCaptureAllowed := isCaptureAllowed
  flowExpire := 30000
  NewFilterForNodes := fun nodes =>
    .Or (nodes.map (fun n => .TermString "NodeTID" (n.GetFieldString "TID").1))
  BuildHostNodeTIDMap := fun nodes => [("localhost", nodes.map (fun n => (n.GetFieldString "TID").1))]
  ParseSortParameter := fun _ => ("ASC", "Last", none)
  SortAscending := "ASC"
  ReduceRange := fun c _ => (false, c)

/-- A flow source with nothing to return. -/
def emptyTableClient : TableClient where
  LookupFlows := fun _ => .ok {}
  LookupFlowsByNodes := fun _ _ => .ok {}

/-- A storage with nothing to return. -/
def emptyStorage : Storage where
  SearchFlows := fun _ => .ok {}
  SearchMetrics := fun _ _ => .ok []

/-- The graph of the nodes `n1(TID=a)`, `n2(TID=b)`, `n3(TID=c)`. -/
def tidGraph : Graph MemoryBackend :=
  NewGraph { nodes := [n1, n2, n3], edges := [] }

/-- A node whose `TID` metadata is `*`. -/
def starNode : Node := { ID := "star", metadatas := [("TID", .str "*")] }

/-- The graph of `n1(TID=a)` and of the node with `TID = *`. -/
def starGraph : Graph MemoryBackend :=
  NewGraph { nodes := [n1, starNode], edges := [] }

/-- Flow `F1{NodeTID a, ANodeTID a, BNodeTID b, Last 10}`. -/
def flowF1 : Flow := { UUID := "f1", NodeTID := "a", ANodeTID := "a", BNodeTID := "b", Last := 10 }

/-- Flow `F2{NodeTID a, BNodeTID c, Last 20}`. -/
def flowF2 : Flow := { UUID := "f2", NodeTID := "a", BNodeTID := "c", Last := 20 }

/-- A flow captured on `a` whose endpoint A is unknown (`*`). -/
def flowUnknownA : Flow := { UUID := "f3", NodeTID := "a", ANodeTID := "*" }

/-- A flow whose capture node is unknown (`*`). -/
def flowUnknownNode : Flow := { UUID := "f4", NodeTID := "*" }

/-- A flow step over graph `g` holding the flows `flows`. -/
def flowStepOn (g : Graph MemoryBackend) (flows : List Flow) : FlowTraversalStep MemoryBackend :=
  { GraphTraversal := some { Graph := g }, flowset := some { Flows := flows } }

/-- The nodes resolved from a list of TIDs: for each TID in turn the first
graph node matching the filter `m` with `TID` set to it, when there is one. -/
def resolveTIDs {σ : Type} (B : GraphBackend σ) (g : Graph σ) (m : Metadatas)
    (tids : List String) : List Node :=
  tids.filterMap (fun t =>
    match Graph.LookupFirstNode B g (Metadatas.set m "TID" (.str t)) with
    | .ok found => found
    | _ => none)

/-- What one iteration of the loop of `paramsToFilter` makes of the pair
`p, q`: the filter appended, or the error returned. -/
def pairFilter (D : Packages) (p q : Value) : Except Error Filter :=
  match p with
  | .str k =>
    match q with
    | .str v =>
      if k = "Network" ∨ k = "Link" ∨ k = "Transport" then
        .ok (Filter.Or [Filter.TermString (k ++ ".A") v, Filter.TermString (k ++ ".B") v])
      else D.ParamToFilter k q
    | _ => D.ParamToFilter k q
  | _ => .error (.text "keys should be of string type")

/-- A flow between `10.0.0.2` (side A) and `10.0.0.1` (side B). -/
def flowToOne : Flow := { UUID := "f5", NodeTID := "a", Network := some { A := "10.0.0.2", B := "10.0.0.1" } }

/-- The answer of the flow source of step `s` to a request. -/
def FlowCall.answer (s : FlowGremlinTraversalStep) : FlowCall → Except Error FlowSet
  | .SearchFlows q =>
    match s.Storage with
    | some storage => storage.SearchFlows q
    | none => .error .NoStorageConfigured
  | .LookupFlows q => s.TableClient.LookupFlows q
  | .LookupFlowsByNodes hnmap q => s.TableClient.LookupFlowsByNodes hnmap q

/-- The search query carried by a request. -/
def FlowCall.query : FlowCall → SearchQuery
  | .SearchFlows q => q
  | .LookupFlows q => q
  | .LookupFlowsByNodes _ q => q

/-- The packages of the examples with `flow.expire` configured to 600. -/
def packagesExpire600 : Packages := { samplePackages with flowExpire := 600 }

/-- A flow that lived from 99450000 to 99500000. -/
def flowOld : Flow := { UUID := "f6", NodeTID := "a", Start := 99450000, Last := 99500000 }

/-- A node of type `veth`, on which capture is allowed. -/
def vethNode : Node := { ID := "v1", metadatas := [("TID", .str "a"), ("Type", .str "veth")] }

/-- The graph traversal over the graph of `n1`, `n2`, `n3`, whose context
carries the time slice `[1000, 2000]`. -/
def slicedTraversal : GraphTraversal MemoryBackend :=
  { Graph := tidGraph, TimeSlice := some { Start := 1000, Last := 2000 } }

/-- A table client holding four flows. -/
def fourFlowsClient : TableClient where
  LookupFlows := fun _ => .ok { Flows := [flowF1, flowF2, flowUnknownA, flowToOne] }
  LookupFlowsByNodes := fun _ _ => .ok { Flows := [flowF1, flowF2, flowUnknownA, flowToOne] }

/-- A `Flows` step without storage adapter. -/
def stepNoStorage : FlowGremlinTraversalStep := { TableClient := emptyTableClient }

/-- A `Flows` step without storage adapter whose `Has` parameters are a single
value. -/
def stepBadParams : FlowGremlinTraversalStep :=
  { TableClient := emptyTableClient, hasParams := [.str "UUID"] }

/-- A `Flows` step with a storage adapter. -/
def stepWithStorage : FlowGremlinTraversalStep :=
  { TableClient := emptyTableClient, Storage := some emptyStorage }

/-- A `Flows` step with a storage adapter, followed by a `Metrics` step. -/
def stepBeforeMetrics : FlowGremlinTraversalStep :=
  { TableClient := emptyTableClient, Storage := some emptyStorage, metricsNextStep := true }

/-- A `Flows` step on the four-flow client with the pagination range `[1, 3)`. -/
def stepPaginated : FlowGremlinTraversalStep :=
  { TableClient := fourFlowsClient, context := { PaginationRange := some (1, 3) } }

/-- An upstream vertex collection holding `n1` only, a node without `Type`, on
the time-sliced traversal. -/
def upstreamNoCapture : GraphTraversalStep MemoryBackend :=
  .GraphTraversalV { GraphTraversal := some slicedTraversal, nodes := [n1] }

/-- An upstream vertex collection holding a `veth` node, on the time-sliced
traversal. -/
def upstreamVeth : GraphTraversalStep MemoryBackend :=
  .GraphTraversalV { GraphTraversal := some slicedTraversal, nodes := [vethNode] }

/-- The query built for the `veth` node under the time slice `[1000, 2000]` with
`flow.expire = 30000`: time filter, then node filter. -/
def slicedVethQuery : SearchQuery :=
  { Filter := .And [.And [.nil, .ActiveIn { From := -29999000, To := 2000 } ""],
                    .Or [.TermString "NodeTID" "a"]] }

/-- The query of the step paginated by `[1, 3)`: it asks for the range
`[0, 3)`. -/
def paginatedQuery : SearchQuery := { PaginationRange := some { From := 0, To := 3 } }

/-! ## The other steps of `FlowTraversalStep` (`flow/traversal/traversal.go`) -/

/-- What the steps below call on flows and filters, in code that is not among
the sources: `FlowSet.Dedup(key)` (the set afterwards, or the error),
`FlowSet.Sort(order, sortBy)` (the set afterwards, written `Sort_`),
`Flow.GetFields()`, `flow.NewFilterForFlowSet` and
`filters.NewFilterIncludedIn`. -/
structure FlowPackage where
  Dedup : FlowSet → String → Except Error FlowSet
  Sort_ : FlowSet → String → String → FlowSet
  GetFields : Flow → List Value
  NewFilterForFlowSet : FlowSet → Filter
  NewFilterIncludedIn : Range → String → Filter

/-- Modelled from the spec: `FlowSet.Filter(filter)`, a new set of the flows
that satisfy the filter, in their order. -/
def FlowSet.Filter (fs : FlowSet) (filter : Skydive.Filter) : FlowSet :=
  { Flows := fs.Flows.filter (fun fl => filter.Eval fl) }

/-- The `interface{}` value of a `GraphTraversalValue` as the steps build it:
nil, an `int`, a slice of field values, or the `float64` that `Sum`
accumulates, kept as the `int64` terms added to zero, in the order they were
added. -/
inductive TraversalValue where
  | nil
  | int (i : Int)
  | float64Sum (terms : List Int)
  | slice (vs : List Value)
  deriving DecidableEq, Repr

/-- Go `traversal.GraphTraversalValue` as `NewGraphTraversalValue` builds it:
the traversal (a pointer, possibly nil), the value and the error. -/
structure GraphTraversalValue (σ : Type) where
  GraphTraversal : Option (GraphTraversal σ)
  value : TraversalValue
  error : Option Error := none
  deriving DecidableEq

/-- Go `traversal.MetricsTraversalStep` as `NewMetricsTraversalStep` builds it:
the traversal (a pointer, possibly nil), the map from flow UUID to its samples,
kept as the list of its entries (empty for the nil map), and the error. -/
structure MetricsTraversalStep (σ : Type) where
  GraphTraversal : Option (GraphTraversal σ)
  metrics : List (String × List TimedMetric)
  error : Option Error := none
  deriving DecidableEq

/-- Method `FlowTraversalStep.Count`. -/
def FlowTraversalStep.Count {σ : Type} (f : FlowTraversalStep σ) (_s : List Value) :
    Run (GraphTraversalValue σ) :=
  match f.error with
  | some err => .ok { GraphTraversal := f.GraphTraversal, value := .int 0, error := some err }
  | none =>
    match f.flowset with
    | some flowset =>
      .ok { GraphTraversal := f.GraphTraversal, value := .int flowset.Flows.length }
    | none => .nilDeref

/-- Method `FlowTraversalStep.Has`. -/
def FlowTraversalStep.Has {σ : Type} (D : Packages) (f : FlowTraversalStep σ)
    (s : List Value) : Run (FlowTraversalStep σ) :=
  match f.error with
  | some _ => .ok f
  | none =>
    match paramsToFilter D s with
    | .error err => .ok { error := some err }
    | .ok filter =>
      match f.flowset with
      | some flowset =>
        .ok { GraphTraversal := f.GraphTraversal, Storage := f.Storage,
              flowset := some (flowset.Filter filter) }
      | none => .nilDeref

/-- Method `FlowTraversalStep.Dedup`; `FlowSet.Dedup` works in place, on the
set the returned step shares with the receiver. -/
def FlowTraversalStep.Dedup {σ : Type} (P : FlowPackage) (f : FlowTraversalStep σ)
    (keys : List Value) : Run (FlowTraversalStep σ) :=
  match f.error with
  | some _ => .ok f
  | none =>
    let key : Except Error String :=
      match keys with
      | [] => .ok ""
      | .str k :: _ => .ok k
      | _ :: _ => .error (.text "Dedup parameter has to be a string key")
    match key with
    | .error err => .ok { error := some err }
    | .ok key =>
      match f.flowset with
      | none => .nilDeref
      | some flowset =>
        match P.Dedup flowset key with
        | .error err => .ok { error := some err }
        | .ok deduped =>
          .ok { GraphTraversal := f.GraphTraversal, Storage := f.Storage,
                flowset := some deduped }

/-- Method `FlowTraversalStep.Sort` (written `Sort_`); `FlowSet.Sort` works in
place, on the set the returned step shares with the receiver. -/
def FlowTraversalStep.Sort_ {σ : Type} (D : Packages) (P : FlowPackage)
    (f : FlowTraversalStep σ) (keys : List Value) : Run (FlowTraversalStep σ) :=
  match f.error with
  | some _ => .ok f
  | none =>
    match D.ParseSortParameter keys with
    | (_, _, some err) => .ok { error := some err }
    | (order, sortBy, none) =>
      let sortBy := if sortBy = "" then defaultSortBy else sortBy
      match f.flowset with
      | none => .nilDeref
      | some flowset =>
        .ok { GraphTraversal := f.GraphTraversal, Storage := f.Storage,
              flowset := some (P.Sort_ flowset order sortBy) }

/-- The first element of `strings.Split(key, ".")`: the text before the first
dot. -/
def splitHead (key : String) : String :=
  String.mk (key.data.takeWhile (fun c => c != '.'))

/-- The loop of `Sum` on the flows left and the terms added to `s` so far: the
value and the error handed to `NewGraphTraversalValue`. -/
def sumLoop (key : String) : List Flow → List Int → TraversalValue × Option Error
  | [], s => (.float64Sum s, none)
  | fl :: rest, s =>
    match fl.GetFieldInt64 key with
    | .ok v => sumLoop key rest (s ++ [v])
    | .error err => (.float64Sum s, some err)

/-- Method `FlowTraversalStep.Sum`. -/
def FlowTraversalStep.Sum {σ : Type} (f : FlowTraversalStep σ) (keys : List Value) :
    Run (GraphTraversalValue σ) :=
  match f.error with
  | some err => .ok { GraphTraversal := f.GraphTraversal, value := .nil, error := some err }
  | none =>
    match keys with
    | [.str key] =>
      if splitHead key ≠ "Metric" ∧ splitHead key ≠ "LastUpdateMetric" then
        .ok { GraphTraversal := f.GraphTraversal, value := .nil,
              error := some (.text "Sum accepts only sub fields of Metric and LastUpadteMetric") }
      else
        match f.flowset with
        | none => .nilDeref
        | some flowset =>
          .ok { GraphTraversal := f.GraphTraversal,
                value := (sumLoop key flowset.Flows []).1,
                error := (sumLoop key flowset.Flows []).2 }
    | [_] =>
      .ok { GraphTraversal := f.GraphTraversal, value := .nil,
            error := some (.text "Sum parameter has to be a string key") }
    | _ =>
      .ok { GraphTraversal := f.GraphTraversal, value := .nil,
            error := some (.text "Sum requires 1 parameter") }

/-- Method `FlowTraversalStep.propertyInt64Values`. -/
def FlowTraversalStep.propertyInt64Values {σ : Type} (f : FlowTraversalStep σ)
    (field : String) : Run (GraphTraversalValue σ) :=
  match f.flowset with
  | none => .nilDeref
  | some flowset =>
    .ok { GraphTraversal := f.GraphTraversal,
          value := .slice (flowset.Flows.filterMap (fun fl =>
            match fl.GetFieldInt64 field with
            | .ok v => some (.int v)
            | .error _ => none)) }

/-- Method `FlowTraversalStep.propertyStringValues`. -/
def FlowTraversalStep.propertyStringValues {σ : Type} (f : FlowTraversalStep σ)
    (field : String) : Run (GraphTraversalValue σ) :=
  match f.flowset with
  | none => .nilDeref
  | some flowset =>
    .ok { GraphTraversal := f.GraphTraversal,
          value := .slice (flowset.Flows.filterMap (fun fl =>
            match fl.GetFieldString field with
            | .ok v => some (.str v)
            | .error _ => none)) }

/-- Method `FlowTraversalStep.PropertyValues`. `none` is the panic of the
unchecked `keys[0].(string)`, on no parameter or on a first parameter that is
not a string. -/
def FlowTraversalStep.PropertyValues {σ : Type} (f : FlowTraversalStep σ)
    (keys : List Value) : Option (Run (GraphTraversalValue σ)) :=
  match f.error with
  | some err =>
    some (.ok { GraphTraversal := f.GraphTraversal, value := .nil, error := some err })
  | none =>
    match keys with
    | .str key :: _ =>
      match f.flowset with
      | none => some .nilDeref
      | some flowset =>
        match flowset.Flows with
        | first :: _ =>
          match first.GetFieldInt64 key with
          | .ok _ => some (f.propertyInt64Values key)
          | .error _ => some (f.propertyStringValues key)
        | [] =>
          some (.ok { GraphTraversal := f.GraphTraversal, value := .nil,
                      error := some .ErrFieldNotFound })
    | _ => none

/-- Method `FlowTraversalStep.PropertyKeys`. -/
def FlowTraversalStep.PropertyKeys {σ : Type} (P : FlowPackage) (f : FlowTraversalStep σ)
    (_keys : List Value) : Run (GraphTraversalValue σ) :=
  match f.error with
  | some err => .ok { GraphTraversal := f.GraphTraversal, value := .nil, error := some err }
  | none =>
    match f.flowset with
    | none => .nilDeref
    | some flowset =>
      match flowset.Flows with
      | first :: _ => .ok { GraphTraversal := f.GraphTraversal, value := .slice (P.GetFields first) }
      | [] => .ok { GraphTraversal := f.GraphTraversal, value := .slice [] }

/-- The statement `m[k] = append(m[k], x)` on a map kept as the list of its
entries, a new key going last. -/
def appendAt {α : Type} (m : List (String × List α)) (k : String) (x : α) :
    List (String × List α) :=
  match m with
  | [] => [(k, [x])]
  | (k1, xs) :: rest =>
    if k1 = k then (k1, xs ++ [x]) :: rest else (k1, xs) :: appendAt rest k x

/-- The sample the live branch of `Metrics` builds for one flow. -/
def liveMetric (flow : Flow) : TimedMetric :=
  if flow.LastUpdateStart ≠ 0 ∨ flow.LastUpdateLast ≠ 0 then
    { TimeSlice := { Start := flow.LastUpdateStart, Last := flow.LastUpdateLast },
      Metric := flow.LastUpdateMetric }
  else
    { TimeSlice := { Start := flow.Start, Last := flow.Last }, Metric := flow.Metric }

/-- Method `FlowTraversalStep.Metrics`: the step returned, and the receiver's
`flowSearchQuery` afterwards. -/
def FlowTraversalStep.Metrics {σ : Type} (D : Packages) (P : FlowPackage)
    (f : FlowTraversalStep σ) : Run (MetricsTraversalStep σ × SearchQuery) :=
  match f.error with
  | some err => .ok ({ GraphTraversal := none, metrics := [], error := some err }, f.flowSearchQuery)
  | none =>
    match f.GraphTraversal with
    | none => .nilDeref
    | some gt =>
      match gt.TimeSlice with
      | some ts =>
        let filtered : Option SearchQuery :=
          match f.flowset with
          | some flowset =>
            some { f.flowSearchQuery with
                   Filter := .And [f.flowSearchQuery.Filter, P.NewFilterForFlowSet flowset] }
          | none => if f.flowSearchQuery.Filter = .nil then none else some f.flowSearchQuery
        match filtered with
        | none =>
          .ok ({ GraphTraversal := none, metrics := [],
                 error := some (.text "Unable to filter flows") }, f.flowSearchQuery)
        | some q =>
          let fr : Range := { To := ts.Last }
          let fr : Range := if ts.Start ≠ ts.Last then { fr with From := ts.Start } else fr
          let metricFilter := P.NewFilterIncludedIn fr ""
          let q1 : SearchQuery :=
            { q with Sort_ := true, SortBy := defaultSortBy, SortOrder := D.SortAscending }
          match f.Storage with
          | none => .nilDeref
          | some storage =>
            match storage.SearchMetrics q1 metricFilter with
            | .error _ => .ok ({ GraphTraversal := none, metrics := [], error := f.error }, q1)
            | .ok flowMetrics =>
              .ok ({ GraphTraversal := some gt, metrics := flowMetrics, error := none }, q1)
      | none =>
        match f.flowset with
        | none => .nilDeref
        | some flowset =>
          .ok ({ GraphTraversal := some gt,
                 metrics := flowset.Flows.foldl
                   (fun flowMetrics flow => appendAt flowMetrics flow.UUID (liveMetric flow)) [],
                 error := none }, f.flowSearchQuery)

/-- Method `FlowTraversalStep.Error`. -/
def FlowTraversalStep.Error {σ : Type} (f : FlowTraversalStep σ) : Option Skydive.Error :=
  f.error

/-! ## Resources in the configuration store (`api/handler.go`) -/

/-- Go `etcd.Node` of the etcd client: key, directory flag, value and child
nodes. -/
inductive EtcdNode where
  | mk (Key : String) (Dir : Bool) (Value : String) (Nodes : List EtcdNode)

/-- Field `Key` of an `etcd.Node`. -/
def EtcdNode.Key : EtcdNode → String
  | .mk k _ _ _ => k

/-- Field `Dir` of an `etcd.Node`. -/
def EtcdNode.Dir : EtcdNode → Bool
  | .mk _ d _ _ => d

/-- Field `Value` of an `etcd.Node`. -/
def EtcdNode.Value : EtcdNode → String
  | .mk _ _ v _ => v

/-- Field `Nodes` of an `etcd.Node`. -/
def EtcdNode.Nodes : EtcdNode → List EtcdNode
  | .mk _ _ _ ns => ns

/-- Go `etcd.Response`, as far as the handler reads it; `PrevNode` may be
nil. -/
structure EtcdResponse where
  Action : String
  Node : EtcdNode
  PrevNode : Option EtcdNode := none

/-- Go `struct BasicAPIHandler` over resources of type `ρ`, by what it calls:
`ResourceHandler.Name()` and `ResourceHandler.New()`, `Resource.ID()`,
`json.Unmarshal(b, resource)` (the resource afterwards and the error), and
`EtcdKeyAPI.Get` with the recursive option (the node of the response, or the
error). -/
structure BasicAPIHandler (ρ : Type) where
  Name : String
  New : ρ
  ID : ρ → String
  jsonUnmarshal : String → ρ → ρ × Option Error
  Get : String → Except Error EtcdNode

/-- A call of the `WatcherCallback`: action, id and resource. -/
abbrev WatcherCall (ρ : Type) : Type := String × String × ρ

/-- The statement `m[k] = x` on a map kept as the list of its entries, a new
key going last. -/
def mapStore {α : Type} (m : List (String × α)) (k : String) (x : α) : List (String × α) :=
  match m with
  | [] => [(k, x)]
  | (k1, x1) :: rest => if k1 = k then (k, x) :: rest else (k1, x1) :: mapStore rest k x

/-- Go `strings.TrimPrefix`. -/
def trimPrefix (s pre : String) : String :=
  if pre.data.isPrefixOf s.data then String.mk (s.data.drop pre.data.length) else s

/-- The path `fmt.Sprintf("/%s/", h.ResourceHandler.Name())`. -/
def BasicAPIHandler.etcdPath {ρ : Type} (h : BasicAPIHandler ρ) : String :=
  "/" ++ h.Name ++ "/"

/-- Method `BasicAPIHandler.Unmarshal`. -/
def BasicAPIHandler.Unmarshal {ρ : Type} (h : BasicAPIHandler ρ) (b : String) :
    ρ × Option Error :=
  h.jsonUnmarshal b h.New

mutual
/-- Method `BasicAPIHandler.collectNodes`: the map `flatten` afterwards. -/
def BasicAPIHandler.collectNodes {ρ : Type} (h : BasicAPIHandler ρ)
    (flatten : List (String × ρ)) : List EtcdNode → List (String × ρ)
  | [] => flatten
  | node :: nodes => h.collectNodes (h.collectNode flatten node) nodes
/-- The body of the loop of `collectNodes` on one node. -/
def BasicAPIHandler.collectNode {ρ : Type} (h : BasicAPIHandler ρ)
    (flatten : List (String × ρ)) : EtcdNode → List (String × ρ)
  | .mk _ dir value nodes =>
    if dir then h.collectNodes flatten nodes
    else
      match h.Unmarshal value with
      | (_, some _) => flatten
      | (resource, none) => mapStore flatten (h.ID resource) resource
end

/-- Method `BasicAPIHandler.Index`. -/
def BasicAPIHandler.Index {ρ : Type} (h : BasicAPIHandler ρ) : List (String × ρ) :=
  match h.Get h.etcdPath with
  | .ok node => h.collectNodes [] node.Nodes
  | .error _ => []

/-- One round of the loop of `AsyncWatch` on a result of `watcher.Next`: the
call of the callback `f` it makes, if any. `nilDeref` is the dereference of a
nil `resp.PrevNode`. -/
def BasicAPIHandler.watchRound {ρ : Type} (h : BasicAPIHandler ρ)
    (next : Except Error EtcdResponse) : Run (Option (WatcherCall ρ)) :=
  match next with
  | .error _ => .ok none
  | .ok resp =>
    if resp.Node.Dir then .ok none
    else
      let id := trimPrefix resp.Node.Key h.etcdPath
      let resource := h.New
      if resp.Action = "expire" ∨ resp.Action = "delete" then
        match resp.PrevNode with
        | none => .nilDeref
        | some prev => .ok (some (resp.Action, id, (h.jsonUnmarshal prev.Value resource).1))
      else .ok (some (resp.Action, id, (h.jsonUnmarshal resp.Node.Value resource).1))

/-- The loop of `AsyncWatch` over the results `watcher.Next` gives while the
watcher runs, after the calls already made. -/
def BasicAPIHandler.watchLoop {ρ : Type} (h : BasicAPIHandler ρ) :
    List (Except Error EtcdResponse) → List (WatcherCall ρ) → Run (List (WatcherCall ρ))
  | [], calls => .ok calls
  | next :: rest, calls =>
    match h.watchRound next with
    | .ok none => h.watchLoop rest calls
    | .ok (some call) => h.watchLoop rest (calls ++ [call])
    | .nilDeref => .nilDeref
    | .outOfFuel => .outOfFuel
    | .comparePanic => .comparePanic

/-- Method `BasicAPIHandler.AsyncWatch`: the calls of the callback, first the
`init` calls over the index, then those of the watch loop over the results
`watcher.Next` gives while the watcher runs. -/
def BasicAPIHandler.AsyncWatch {ρ : Type} (h : BasicAPIHandler ρ)
    (nexts : List (Except Error EtcdResponse)) : Run (List (WatcherCall ρ)) :=
  h.watchLoop nexts (h.Index.map (fun entry => ("init", entry.1, entry.2)))

/-! ## The OpenContrail probe (`topology/probes/opencontrail.go`) -/

/-- Go `struct OpenContrailProbe`, the fields the node handlers keep: the
vrouter host node `vHost` (a pointer, possibly nil) and the nodes waiting for
it. -/
structure OpenContrailProbe where
  vHost : Option Node := none
  pendingLinks : List Node := []
  deriving DecidableEq, Repr

/-- Method `OpenContrailProbe.OnNodeDeleted`: the probe afterwards. `nilDeref`
is the read of `mapper.vHost.ID` through a nil `vHost`. -/
def OpenContrailProbe.OnNodeDeleted (mapper : OpenContrailProbe) (n : Node) :
    Run OpenContrailProbe :=
  let name := (n.GetFieldString "Name").1
  if name = "" then .ok mapper
  else
    match mapper.vHost with
    | none => .nilDeref
    | some vHost => if n.ID = vHost.ID then .ok { mapper with vHost := none } else .ok mapper

/-! ## Samples for the steps, the handler, the probe and the graph -/

/-- A flow package whose members do nothing; it serves the examples in which
none of them decides the result. -/
def idleFlowPackage : FlowPackage where
  Dedup := fun fs _ => .ok fs
  Sort_ := fun fs _ _ => fs
  GetFields := fun _ => []
  NewFilterForFlowSet := fun _ => .nil
  NewFilterIncludedIn := fun _ _ => .nil

/-- A flow step holding two flows and the error of an earlier step. -/
def erroredStep : FlowTraversalStep MemoryBackend :=
  { flowStepOn tidGraph [flowF1, flowF2] with error := some (.text "keys should be of string type") }

/-- A storage whose searches fail. -/
def failingStorage : Storage where
  SearchFlows := fun _ => .error (.text "connection refused")
  SearchMetrics := fun _ _ => .error (.text "connection refused")

/-- A flow step without error on the time-sliced traversal, holding one flow,
over the failing storage. -/
def slicedFailingStep : FlowTraversalStep MemoryBackend :=
  { GraphTraversal := some slicedTraversal, Storage := some failingStorage,
    flowset := some { Flows := [flowF1] } }

/-- A flow with the UUID of `flowF1` that the update ticker has seen: its
update window is `[40, 50]`. -/
def flowUpdated : Flow :=
  { UUID := "f1", NodeTID := "a", Start := 5, Last := 50,
    Metric := { ABPackets := 9, ABBytes := 900 },
    LastUpdateStart := 40, LastUpdateLast := 50,
    LastUpdateMetric := { ABPackets := 2, ABBytes := 200 } }

/-- A flow not updated yet, with cumulative counters. -/
def flowFresh : Flow :=
  { UUID := "f7", NodeTID := "a", Start := 10, Last := 20,
    Metric := { ABPackets := 3, ABBytes := 300 } }

/-- Go `struct Capture`, as far as the handler reads it: a resource with its
`UUID`, which `ID()` returns. -/
structure Capture where
  UUID : String := ""
  deriving DecidableEq, Repr

/-- The JSON text of a capture with the given UUID. -/
def captureJSON (id : String) : String := "\x7b\"UUID\":\"" ++ id ++ "\"\x7d"

/-- Modelled from the spec: decoding the JSON value of a capture; a text that
is not the encoding of a capture is a decode failure and leaves the resource as
it was. -/
def decodeCapture (b : String) (r : Capture) : Capture × Option Error :=
  let pre := "\x7b\"UUID\":\"".data
  let suf := "\"\x7d".data
  let body := b.data.drop pre.length
  if pre.isPrefixOf b.data ∧ suf.isSuffixOf body then
    ({ UUID := String.mk (body.take (body.length - suf.length)) }, none)
  else (r, some (.text "invalid character"))

/-- The store under `/capture/`: an entry that is not JSON, then the capture
`c2`. -/
def captureStore : EtcdNode :=
  .mk "/capture" true "" [.mk "/capture/c1" false "not json" [],
                           .mk "/capture/c2" false (captureJSON "c2") []]

/-- The capture handler over the sample store. -/
def captureHandler : BasicAPIHandler Capture where
  Name := "capture"
  New := {}
  ID := fun c => c.UUID
  jsonUnmarshal := decodeCapture
  Get := fun _ => .ok captureStore

/-- A node named `tap0`. -/
def tapNode : Node := { ID := "tap0", metadatas := [("Name", .str "tap0")] }

/-- The node to replace, with its metadata. -/
def oldNode : Node := { ID := "o", metadatas := [("Name", .str "eth0")] }

/-- The replacing node. -/
def newNode : Node := { ID := "n", metadatas := [] }

/-- A parent of the node to replace. -/
def parentNode : Node := { ID := "p", metadatas := [] }

/-- A child of the node to replace. -/
def childNode : Node := { ID := "c", metadatas := [] }

/-- The edge `p -> o`. -/
def edgePO : Edge := { ID := "e1", metadatas := [], parent := "p", child := "o" }

/-- The edge `o -> c`. -/
def edgeOC : Edge := { ID := "e2", metadatas := [], parent := "o", child := "c" }

/-- The graph of the nodes `p`, `o`, `n`, `c` with the edges `p -> o` and
`o -> c`, watched by listener 1. -/
def replaceEdgesGraph : Graph MemoryBackend :=
  (NewGraph { nodes := [parentNode, oldNode, newNode, childNode],
              edges := [edgePO, edgeOC] }).AddEventListener 1

/-- The cycle `n1 -> n2 -> n1`, the edge into `n1` stored first, watched by
listener 1. -/
def cycleIntoFirst : Graph MemoryBackend :=
  (NewGraph { nodes := [n1, n2], edges := [e21, e12] }).AddEventListener 1

/-- The value of a field of a flow, whichever its type: the `int64` that
`GetFieldInt64` finds, else the string that `GetFieldString` finds, else
nothing. It states which flows have the field, for the comparison with
`PropertyValues`. -/
def Flow.fieldValue (fl : Flow) (key : String) : Option Value :=
  match fl.GetFieldInt64 key with
  | .ok v => some (.int v)
  | .error _ =>
    match fl.GetFieldString key with
    | .ok v => some (.str v)
    | .error _ => none

/-! ## Theorems -/


/-! ### Lemmas on the in-memory backend -/

theorem memory_hasNode_after_add (m : MemoryBackend) (n : Node) :
    MemoryBackend.hasNode { m with nodes := m.nodes ++ [n] } n.ID = true := by
  simp [MemoryBackend.hasNode]

theorem memory_DelEdge_stored (g : Graph MemoryBackend) (e : Edge)
    (h : e ∈ g.backend.edges) :
    (Graph.DelEdge memory e g).2 =
      { g with backend := { g.backend with edges := g.backend.edges.filter (fun x => x.ID != e.ID) },
               calls := g.calls ++ g.eventListeners.map (fun l => (l, Callback.OnEdgeDeleted e)) } := by
  have hh : g.backend.hasEdge e.ID = true := by
    simp only [MemoryBackend.hasEdge, List.any_eq_true]
    exact ⟨e, h, by simp⟩
  simp [Graph.DelEdge, memory, MemoryBackend.DelEdge, hh, Graph.NotifyEdgeDeleted, Graph.notify]

theorem memory_DelEdge_fold (es : List Edge) :
    ∀ (g : Graph MemoryBackend), (es.map (fun x => x.ID)).Nodup → (∀ e ∈ es, e ∈ g.backend.edges) →
    es.foldl (fun acc e => (Graph.DelEdge memory e acc).2) g =
      { g with backend := { g.backend with
                 edges := g.backend.edges.filter (fun x => decide (x.ID ∉ es.map (fun y => y.ID))) },
               calls := g.calls ++ es.flatMap
                 (fun e => g.eventListeners.map (fun l => (l, Callback.OnEdgeDeleted e))) } := by
  induction es with
  | nil => intro g _ _; simp
  | cons e es ih =>
    intro g hnd hmem
    have hnd' := List.nodup_cons.mp hnd
    rw [List.foldl_cons, memory_DelEdge_stored g e (hmem e (List.mem_cons_self _ _)), ih _ hnd'.2]
    · simp only [List.filter_filter, List.flatMap_cons, List.append_assoc, List.map_cons,
        List.mem_cons, not_or]
      congr 2
      apply List.filter_congr
      intro x _
      by_cases h1 : x.ID = e.ID <;> by_cases h2 : x.ID ∈ List.map (fun y => y.ID) es <;>
        simp [h1, h2]
    · intro e' he'
      simp only [List.mem_filter]
      refine ⟨hmem e' (List.mem_cons_of_mem _ he'), ?_⟩
      have : e'.ID ≠ e.ID := by
        intro heq
        apply hnd'.1
        exact List.mem_map.mpr ⟨e', he', heq⟩
      simpa using this

theorem memory_GetNodeEdges_nodup (m : MemoryBackend) (n : Node)
    (hu : (m.edges.map (fun x => x.ID)).Nodup) :
    ((m.GetNodeEdges n).map (fun x => x.ID)).Nodup :=
  List.Nodup.sublist (List.Sublist.map _ (List.filter_sublist _)) hu

/-- What `Graph.DelNode` does over the in-memory backend when edge identifiers
are unique. -/
theorem memory_DelNode (g : Graph MemoryBackend) (n : Node)
    (hu : (g.backend.edges.map (fun x => x.ID)).Nodup) :
    (Graph.DelNode memory n g).2 =
      (if g.backend.hasNode n.ID then
        { backend := { nodes := g.backend.nodes.filter (fun x => x.ID != n.ID),
                       edges := g.backend.edges.filter
                         (fun x => decide (x.ID ∉ (g.backend.GetNodeEdges n).map (fun y => y.ID))) },
          eventListeners := g.eventListeners,
          calls := (g.calls ++ (g.backend.GetNodeEdges n).flatMap
                (fun e => g.eventListeners.map (fun l => (l, Callback.OnEdgeDeleted e))))
              ++ g.eventListeners.map (fun l => (l, Callback.OnNodeDeleted n)),
          drawn := g.drawn }
      else
        { backend := { nodes := g.backend.nodes,
                       edges := g.backend.edges.filter
                         (fun x => decide (x.ID ∉ (g.backend.GetNodeEdges n).map (fun y => y.ID))) },
          eventListeners := g.eventListeners,
          calls := g.calls ++ (g.backend.GetNodeEdges n).flatMap
                (fun e => g.eventListeners.map (fun l => (l, Callback.OnEdgeDeleted e))),
          drawn := g.drawn }) := by
  have hfold := memory_DelEdge_fold (g.backend.GetNodeEdges n) g
    (memory_GetNodeEdges_nodup g.backend n hu)
    (fun e he => (List.mem_filter.mp he).1)
  have hB : memory.GetNodeEdges g.backend n = g.backend.GetNodeEdges n := rfl
  unfold Graph.DelNode
  simp only [hB, hfold]
  by_cases h : g.backend.hasNode n.ID = true
  · have h2 : (g.backend.nodes.any fun x => x.ID == n.ID) = true := h
    simp only [memory, MemoryBackend.DelNode, MemoryBackend.hasNode, h2, if_true,
      Graph.NotifyNodeDeleted, Graph.notify]
  · have h1 : g.backend.hasNode n.ID = false := by simpa using h
    have h2 : (g.backend.nodes.any fun x => x.ID == n.ID) = false := h1
    simp only [memory, MemoryBackend.DelNode, MemoryBackend.hasNode, h2, if_false]
    simp

/-! ### C1 -/

/-- C1: over the in-memory backend, `AddNode` of a node whose identifier is
already stored (resp. `AddEdge` of such an edge) returns false and leaves the
whole graph unchanged: store, listeners and the record of callbacks; and for a
node whose identifier is not stored, `AddNode` twice returns true then false
and makes exactly one `OnNodeAdded` call per listener. -/
theorem AddNode_AddEdge_duplicate (g : Graph MemoryBackend) (n : Node) (e : Edge) (n' : Node) :
    (g.backend.hasNode n.ID = true → Graph.AddNode memory n g = (false, g)) ∧
    (g.backend.hasEdge e.ID = true → Graph.AddEdge memory e g = (false, g)) ∧
    (g.backend.hasNode n'.ID = false →
      (Graph.AddNode memory n' g).1 = true ∧
      (Graph.AddNode memory n' (Graph.AddNode memory n' g).2).1 = false ∧
      (Graph.AddNode memory n' (Graph.AddNode memory n' g).2).2.calls
        = g.calls ++ g.eventListeners.map (fun l => (l, Callback.OnNodeAdded n'))) := by
  refine ⟨?_, ?_, ?_⟩
  · intro h
    simp [Graph.AddNode, memory, MemoryBackend.AddNode, h]
  · intro h
    simp [Graph.AddEdge, memory, MemoryBackend.AddEdge, h]
  · intro h
    have h2 := memory_hasNode_after_add g.backend n'
    simp [Graph.AddNode, memory, MemoryBackend.AddNode, h, h2, Graph.NotifyNodeAdded, Graph.notify]

/-- The sample graph rejects `n1` and `e12` again, and accepts `n3` once. -/
theorem AddNode_AddEdge_duplicate_witness :
    Graph.AddNode memory n1 sampleGraph = (false, sampleGraph) ∧
    Graph.AddEdge memory e12 sampleGraph = (false, sampleGraph) ∧
    ((Graph.AddNode memory n3 sampleGraph).1 = true ∧
      (Graph.AddNode memory n3 (Graph.AddNode memory n3 sampleGraph).2).1 = false ∧
      (Graph.AddNode memory n3 (Graph.AddNode memory n3 sampleGraph).2).2.calls
        = sampleGraph.calls ++
          sampleGraph.eventListeners.map (fun l => (l, Callback.OnNodeAdded n3))) :=
  ⟨(AddNode_AddEdge_duplicate sampleGraph n1 e12 n3).1 (by decide),
   (AddNode_AddEdge_duplicate sampleGraph n1 e12 n3).2.1 (by decide),
   (AddNode_AddEdge_duplicate sampleGraph n1 e12 n3).2.2 (by decide)⟩

/-! ### C2 -/

/-- C2: over the in-memory backend with unique edge identifiers, `DelNode` of
a stored node `n` makes, for every listener, the `OnEdgeDeleted` call of every
edge reported for `n`, all of them before the single `OnNodeDeleted(n)`;
afterwards no edge is reported for `n` and `n` is not stored. -/
theorem DelNode_deletes_edges_first (g : Graph MemoryBackend) (n : Node)
    (hn : g.backend.hasNode n.ID = true)
    (hu : (g.backend.edges.map (fun x => x.ID)).Nodup) :
    (Graph.DelNode memory n g).2.calls =
      g.calls
        ++ (memory.GetNodeEdges g.backend n).flatMap
            (fun e => g.eventListeners.map (fun l => (l, Callback.OnEdgeDeleted e)))
        ++ g.eventListeners.map (fun l => (l, Callback.OnNodeDeleted n)) ∧
    memory.GetNodeEdges (Graph.DelNode memory n g).2.backend n = [] ∧
    (Graph.DelNode memory n g).2.backend.hasNode n.ID = false := by
  rw [memory_DelNode g n hu, if_pos hn]
  refine ⟨rfl, ?_, ?_⟩
  · simp only [memory, MemoryBackend.GetNodeEdges, List.filter_filter, List.filter_eq_nil_iff]
    intro x hx
    simp only [Bool.and_eq_true, decide_eq_true_eq, not_and]
    intro hinc hnot
    apply hnot
    exact List.mem_map.mpr ⟨x, List.mem_filter.mpr ⟨hx, hinc⟩, rfl⟩
  · simp [MemoryBackend.hasNode]

/-- Scenario "Graph basics": `DelNode(n1)` announces `EdgeDeleted(e12)` and then
`NodeDeleted(n1)`. -/
theorem DelNode_deletes_edges_first_witness :
    (Graph.DelNode memory n1 sampleGraph).2.calls =
      [(1, Callback.OnEdgeDeleted e12), (1, Callback.OnNodeDeleted n1)] ∧
    memory.GetNodeEdges (Graph.DelNode memory n1 sampleGraph).2.backend n1 = [] ∧
    (Graph.DelNode memory n1 sampleGraph).2.backend.hasNode n1.ID = false :=
  DelNode_deletes_edges_first sampleGraph n1 (by decide) (by decide)

/-! ### C3 -/

theorem mirrors_refl {σ : Type} (g : Graph (σ × List Mutation)) : Graph.Mirrors g g :=
  ⟨rfl, [], by simp, by simp⟩

theorem mirrors_trans {σ : Type} {g g1 g2 : Graph (σ × List Mutation)}
    (h1 : Graph.Mirrors g g1) (h2 : Graph.Mirrors g1 g2) : Graph.Mirrors g g2 := by
  obtain ⟨hl1, ms1, hb1, hc1⟩ := h1
  obtain ⟨hl2, ms2, hb2, hc2⟩ := h2
  refine ⟨hl2.trans hl1, ms1 ++ ms2, ?_, ?_⟩
  · rw [hb2, hb1, List.append_assoc]
  · rw [hc2, hc1, hl1, List.flatMap_append, List.append_assoc]

/-- One journaled mutation followed by its notification when it returned true. -/
theorem mirrors_step {σ : Type} (g : Graph (σ × List Mutation)) (m : Mutation)
    (r : Bool × σ) :
    Graph.Mirrors g
      (match journal m g.backend.2 r with
       | (true, b) => Graph.notify m.callback { g with backend := b }
       | (false, b) => { g with backend := b }) := by
  rcases r with ⟨_ | _, b⟩
  · exact ⟨rfl, [], by simp [journal], by simp [journal]⟩
  · exact ⟨rfl, [m], by simp [journal, Graph.notify], by simp [journal, Graph.notify]⟩

/-- A loop whose every iteration mirrors, mirrors. -/
theorem mirrors_foldl {σ α : Type}
    (step : Graph (σ × List Mutation) → α → Graph (σ × List Mutation))
    (hstep : ∀ g a, Graph.Mirrors g (step g a)) (l : List α) :
    ∀ g, Graph.Mirrors g (l.foldl step g) := by
  induction l with
  | nil => intro g; exact mirrors_refl g
  | cons a l ih => intro g; exact mirrors_trans (hstep g a) (ih _)

theorem AddNode_mirrors {σ : Type} (B : GraphBackend σ) (g : Graph (σ × List Mutation))
    (n : Node) : Graph.Mirrors g (Graph.AddNode (journaled B) n g).2 := by
  have h := mirrors_step g (.AddNode n) (B.AddNode g.backend.1 n)
  rcases hr : B.AddNode g.backend.1 n with ⟨_ | _, b⟩ <;>
    simpa [hr, Graph.AddNode, journaled, journal, Graph.NotifyNodeAdded, Mutation.callback] using h

theorem AddEdge_mirrors {σ : Type} (B : GraphBackend σ) (g : Graph (σ × List Mutation))
    (e : Edge) : Graph.Mirrors g (Graph.AddEdge (journaled B) e g).2 := by
  have h := mirrors_step g (.AddEdge e) (B.AddEdge g.backend.1 e)
  rcases hr : B.AddEdge g.backend.1 e with ⟨_ | _, b⟩ <;>
    simpa [hr, Graph.AddEdge, journaled, journal, Graph.NotifyEdgeAdded, Mutation.callback] using h

theorem DelEdge_mirrors {σ : Type} (B : GraphBackend σ) (g : Graph (σ × List Mutation))
    (e : Edge) : Graph.Mirrors g (Graph.DelEdge (journaled B) e g).2 := by
  have h := mirrors_step g (.DelEdge e) (B.DelEdge g.backend.1 e)
  rcases hr : B.DelEdge g.backend.1 e with ⟨_ | _, b⟩ <;>
    simpa [hr, Graph.DelEdge, journaled, journal, Graph.NotifyEdgeDeleted, Mutation.callback] using h

theorem SetMetadata_mirrors {σ : Type} (B : GraphBackend σ)
    (g : Graph (σ × List Mutation)) (el : Element) (k : String) (v : Value) :
    Graph.Mirrors g (Graph.SetMetadata (journaled B) el k v g).2 := by
  have h := mirrors_step g (.SetMetadata el) (B.SetMetadata g.backend.1 el k v)
  rcases hr : B.SetMetadata g.backend.1 el k v with ⟨_ | _, b⟩ <;> cases el <;>
    simpa [hr, Graph.SetMetadata, journaled, journal, Graph.notifyMetadataUpdated,
      Graph.NotifyNodeUpdated, Graph.NotifyEdgeUpdated, Mutation.callback] using h

theorem SetMetadatas_mirrors {σ : Type} (B : GraphBackend σ)
    (g : Graph (σ × List Mutation)) (el : Element) (m : Metadatas) :
    Graph.Mirrors g (Graph.SetMetadatas (journaled B) el m g).2 := by
  have h := mirrors_step g (.SetMetadatas el) (B.SetMetadatas g.backend.1 el m)
  rcases hr : B.SetMetadatas g.backend.1 el m with ⟨_ | _, b⟩ <;> cases el <;>
    simpa [hr, Graph.SetMetadatas, journaled, journal, Graph.notifyMetadataUpdated,
      Graph.NotifyNodeUpdated, Graph.NotifyEdgeUpdated, Mutation.callback] using h

theorem DelNode_mirrors {σ : Type} (B : GraphBackend σ) (g : Graph (σ × List Mutation))
    (n : Node) : Graph.Mirrors g (Graph.DelNode (journaled B) n g).2 := by
  have hloop := mirrors_foldl (fun acc e => (Graph.DelEdge (journaled B) e acc).2)
    (fun g e => DelEdge_mirrors B g e) ((journaled B).GetNodeEdges g.backend n) g
  unfold Graph.DelNode
  simp only []
  generalize List.foldl (fun acc e => (Graph.DelEdge (journaled B) e acc).2) g
    ((journaled B).GetNodeEdges g.backend n) = g1 at hloop ⊢
  refine mirrors_trans hloop ?_
  have h := mirrors_step g1 (.DelNode n) (B.DelNode g1.backend.1 n)
  rcases hr : B.DelNode g1.backend.1 n with ⟨_ | _, b⟩ <;>
    simpa [hr, journaled, journal, Graph.NotifyNodeDeleted, Mutation.callback] using h

theorem Link_mirrors {σ : Type} (B : GraphBackend σ) (gen : Nat → Identifier)
    (g : Graph (σ × List Mutation)) (a b : Node) :
    Graph.Mirrors g (Graph.Link (journaled B) gen a b g).2 := by
  have h0 : Graph.Mirrors g (GenID gen g).2 := ⟨rfl, [], by simp [GenID], by simp [GenID]⟩
  refine mirrors_trans h0 ?_
  have h := AddEdge_mirrors B (GenID gen g).2
    { ID := (GenID gen g).1, metadatas := (none : Option Metadatas).getD [],
      parent := a.ID, child := b.ID }
  unfold Graph.Link Graph.NewEdge
  simp only []
  split <;> simp_all

theorem replaceStep_mirrors {σ : Type} (B : GraphBackend σ) (gen : Nat → Identifier)
    (n : Node) (g : Graph (σ × List Mutation)) (e : Edge) :
    Graph.Mirrors g (Graph.replaceStep (journaled B) gen n g e) := by
  unfold Graph.replaceStep
  split
  · simp only []
    split
    · exact mirrors_trans (DelEdge_mirrors B g e) (Link_mirrors B gen _ _ _)
    · exact mirrors_trans (DelEdge_mirrors B g e) (Link_mirrors B gen _ _ _)
  · exact mirrors_refl g

/-- C3, as the code has it: over any backend, between the start and the end of
`AddNode`, `AddEdge`, `DelEdge`, `DelNode`, `SetMetadata` and `SetMetadatas`
the callbacks made are, listener by listener, exactly one per backend mutation
that returned true, of the same element and in the same order; `Replace` makes
in addition one `OnNodeUpdated` call per listener for the new node, between the
mutations of its loop and those of its final `DelNode`, which corresponds to no
backend mutation. -/
theorem events_mirror_mutations {σ : Type} (B : GraphBackend σ) (gen : Nat → Identifier)
    (g : Graph (σ × List Mutation)) (n o : Node) (e : Edge) (el : Element) (k : String)
    (v : Value) (m : Metadatas) :
    Graph.Mirrors g (Graph.AddNode (journaled B) n g).2 ∧
    Graph.Mirrors g (Graph.AddEdge (journaled B) e g).2 ∧
    Graph.Mirrors g (Graph.DelEdge (journaled B) e g).2 ∧
    Graph.Mirrors g (Graph.DelNode (journaled B) n g).2 ∧
    Graph.Mirrors g (Graph.SetMetadata (journaled B) el k v g).2 ∧
    Graph.Mirrors g (Graph.SetMetadatas (journaled B) el m g).2 ∧
    (∃ ms1 ms2 : List Mutation,
      (Graph.Replace (journaled B) gen o n m g).2.backend.2 = g.backend.2 ++ ms1 ++ ms2 ∧
      (Graph.Replace (journaled B) gen o n m g).2.calls =
        g.calls ++ ms1.flatMap (fun x => g.eventListeners.map (fun l => (l, x.callback)))
          ++ g.eventListeners.map
              (fun l => (l, Callback.OnNodeUpdated { n with metadatas := o.metadatas }))
          ++ ms2.flatMap (fun x => g.eventListeners.map (fun l => (l, x.callback)))) := by
  refine ⟨AddNode_mirrors B g n, AddEdge_mirrors B g e, DelEdge_mirrors B g e,
    DelNode_mirrors B g n, SetMetadata_mirrors B g el k v,
    SetMetadatas_mirrors B g el m, ?_⟩
  obtain ⟨hl1, ms1, hb1, hc1⟩ := mirrors_foldl (Graph.replaceStep (journaled B) gen n)
    (replaceStep_mirrors B gen n) ((journaled B).GetNodeEdges g.backend o) g
  obtain ⟨-, ms2, hb2, hc2⟩ := DelNode_mirrors B (Graph.NotifyNodeUpdated
    { n with metadatas := o.metadatas }
    (((journaled B).GetNodeEdges g.backend o).foldl (Graph.replaceStep (journaled B) gen n) g)) o
  refine ⟨ms1, ms2, ?_, ?_⟩
  · unfold Graph.Replace
    simp only []
    rw [hb2]
    simp [Graph.NotifyNodeUpdated, Graph.notify, hb1]
  · unfold Graph.Replace
    simp only []
    rw [hc2]
    simp [Graph.NotifyNodeUpdated, Graph.notify, hc1, hl1]

/-- C3 fails for `Replace`: replacing the stored node `n1` by `n2` in a graph
without edges commits one backend mutation (`DelNode(n1)`) but makes two
callbacks, `OnNodeUpdated` then `OnNodeDeleted`; the callbacks do not mirror the
committed mutations. -/
theorem Replace_event_without_mutation :
    (Graph.Replace (journaled memory) uuid n1 n2 [] replaceGraph).2.backend.2
        = [Mutation.DelNode n1] ∧
    (Graph.Replace (journaled memory) uuid n1 n2 [] replaceGraph).2.calls
        = [(1, Callback.OnNodeUpdated { ID := "n2", metadatas := [("TID", .str "a")] }),
           (1, Callback.OnNodeDeleted n1)] ∧
    ¬ Graph.Mirrors replaceGraph
        (Graph.Replace (journaled memory) uuid n1 n2 [] replaceGraph).2 := by
  have e1 : (Graph.Replace (journaled memory) uuid n1 n2 [] replaceGraph).2.backend.2
        = [Mutation.DelNode n1] := by decide
  have e2 : (Graph.Replace (journaled memory) uuid n1 n2 [] replaceGraph).2.calls
        = [(1, Callback.OnNodeUpdated { ID := "n2", metadatas := [("TID", .str "a")] }),
           (1, Callback.OnNodeDeleted n1)] := by decide
  refine ⟨e1, e2, ?_⟩
  rintro ⟨-, ms, hb, hc⟩
  rw [e1] at hb
  rw [e2] at hc
  have hms : ms = [Mutation.DelNode n1] := by
    simpa [replaceGraph, NewGraph, Graph.AddEventListener] using hb.symm
  subst hms
  revert hc
  decide

/-! ### C4 -/

/-- On a value of a comparable type `!=` answers, with the negation of the
specification's equality. -/
theorem notEqual_comparable (v nv : Value) (hv : v.comparable = true) :
    Value.notEqual v nv = .ok (!Value.equal v nv) := by
  cases v <;> cases nv <;> simp [Value.notEqual, Value.equal, Value.comparable, bne] at hv ⊢

/-- On values that are no `float64`, the specification's equality is identity. -/
theorem equal_iff_eq (v nv : Value) (hv : ∀ b, v ≠ .float64 b) :
    Value.equal v nv = true ↔ v = nv := by
  cases v <;> cases nv <;> simp [Value.equal] at hv ⊢

/-- Method `matchFilters` on a filter whose values are of comparable types. -/
theorem matchFilters_comparable (e : graphElement) (f : Metadatas)
    (hcmp : ∀ kv ∈ f, kv.2.comparable = true) :
    e.matchFilters f = .ok (f.all (fun kv => e.metadatas.holds kv.1 kv.2)) := by
  induction f with
  | nil => rfl
  | cons kv rest ih =>
    obtain ⟨k, v⟩ := kv
    have hv := hcmp (k, v) (List.mem_cons_self _ _)
    have hrest := ih (fun kv hkv => hcmp kv (List.mem_cons_of_mem _ hkv))
    unfold graphElement.matchFilters
    cases hl : e.metadatas.lookup k with
    | none => simp [Metadatas.holds, hl]
    | some nv =>
      simp only [notEqual_comparable v nv hv, Run.bind, List.all_cons, Metadatas.holds, hl]
      cases Value.equal v nv
      · simp
      · simpa using hrest

/-- The loop of `LookupNodes` with a test that answers on every node. -/
theorem lookupNodesLoop_ok (m : Metadatas) (p : Node → Bool) (l : List Node)
    (hp : ∀ n ∈ l, n.tographElement.matchFilters m = .ok (p n)) :
    ∀ acc, Graph.lookupNodesLoop m l acc = .ok (acc ++ l.filter p) := by
  induction l with
  | nil => intro acc; simp [Graph.lookupNodesLoop]
  | cons n l ih =>
    intro acc
    have hn := hp n (List.mem_cons_self _ _)
    have hl := ih (fun x hx => hp x (List.mem_cons_of_mem _ hx))
    unfold Graph.lookupNodesLoop
    rw [hn]
    cases hpn : p n
    · simp [Run.bind, hl, List.filter_cons, hpn]
    · simp [Run.bind, hl, List.filter_cons, hpn]

/-- Method `LookupNodes` on a filter whose values are of comparable types. -/
theorem LookupNodes_comparable {σ : Type} (B : GraphBackend σ) (g : Graph σ) (f : Metadatas)
    (hcmp : ∀ kv ∈ f, kv.2.comparable = true) :
    Graph.LookupNodes B g f = .ok ((B.GetNodes g.backend).filter
      (fun n => f.all (fun kv => n.metadatas.holds kv.1 kv.2))) := by
  unfold Graph.LookupNodes
  rw [lookupNodesLoop_ok f (fun n => f.all (fun kv => n.metadatas.holds kv.1 kv.2)) _
    (fun n _ => matchFilters_comparable n.tographElement f hcmp)]
  simp

/-- Method `LookupFirstNode` on a filter whose values are of comparable
types. -/
theorem LookupFirstNode_comparable {σ : Type} (B : GraphBackend σ) (g : Graph σ)
    (f : Metadatas) (hcmp : ∀ kv ∈ f, kv.2.comparable = true) :
    Graph.LookupFirstNode B g f = .ok ((B.GetNodes g.backend).find?
      (fun n => f.all (fun kv => n.metadatas.holds kv.1 kv.2))) := by
  unfold Graph.LookupFirstNode
  rw [LookupNodes_comparable B g f hcmp]
  simp only [Run.bind]
  generalize (fun n : Node => f.all (fun kv => n.metadatas.holds kv.1 kv.2)) = p
  induction B.GetNodes g.backend with
  | nil => rfl
  | cons a l ih =>
    by_cases ha : p a = true
    · simp [List.filter_cons, List.find?_cons, ha]
    · simp only [List.filter_cons, List.find?_cons, ha]
      simpa using ih

/-- C4, as the code has it: for a filter `f` whose values are of comparable
dynamic types, `matchFilters(f)` answers, and it is true exactly when every
entry of `f` is found in the element's metadata with an equal value, that is
with the same dynamic type and a value that Go's `==` accepts (for values that
are no `float64`: with the very same value), so the empty filter matches every
element; `LookupNodes(f)` is the list of the backend's nodes satisfying this,
in the backend's order, and `LookupFirstNode(f)` is the first such node, or nil
when there is none. -/
theorem LookupNodes_matchFilters {σ : Type} (B : GraphBackend σ) (g : Graph σ)
    (e : graphElement) (f : Metadatas)
    (hcmp : ∀ kv ∈ f, kv.2.comparable = true) :
    e.matchFilters f = .ok (f.all (fun kv => e.metadatas.holds kv.1 kv.2)) ∧
    ((∀ kv ∈ f, ∀ b, kv.2 ≠ .float64 b) →
      (e.matchFilters f = .ok true ↔ ∀ k v, (k, v) ∈ f → e.metadatas.lookup k = some v)) ∧
    e.matchFilters [] = .ok true ∧
    Graph.LookupNodes B g f = .ok ((B.GetNodes g.backend).filter
      (fun n => f.all (fun kv => n.metadatas.holds kv.1 kv.2))) ∧
    Graph.LookupFirstNode B g f = .ok ((B.GetNodes g.backend).find?
      (fun n => f.all (fun kv => n.metadatas.holds kv.1 kv.2))) := by
  refine ⟨matchFilters_comparable e f hcmp, ?_, rfl, LookupNodes_comparable B g f hcmp,
    LookupFirstNode_comparable B g f hcmp⟩
  · intro hfl
    rw [matchFilters_comparable e f hcmp]
    simp only [Run.ok.injEq, List.all_eq_true]
    constructor
    · intro h k v hkv
      have hh := h (k, v) hkv
      simp only [Metadatas.holds] at hh
      cases hl : e.metadatas.lookup k with
      | none => rw [hl] at hh; cases hh
      | some nv =>
        rw [hl] at hh
        rw [(equal_iff_eq v nv (hfl (k, v) hkv)).mp hh]
    · intro h kv hkv
      have hl := h kv.1 kv.2 hkv
      simp only [Metadatas.holds, hl]
      exact (equal_iff_eq kv.2 kv.2 (hfl kv hkv)).mpr rfl

/-- A typed filter on the graph of `n1`, `n2`, `n3`: the string `a` is found
under `TID` on `n1` only, and the `int64` 1 is not equal to the `int` 1. -/
theorem LookupNodes_matchFilters_witness :
    Graph.LookupNodes memory tidGraph [("TID", .str "a")] = .ok [n1] ∧
    Graph.LookupFirstNode memory tidGraph [("TID", .str "z")] = .ok none ∧
    graphElement.matchFilters { ID := "x", metadatas := [("N", .int 1)] } [("N", .int64 1)] =
      .ok false :=
  have h := LookupNodes_matchFilters memory tidGraph n1.tographElement [("TID", .str "a")]
    (by decide)
  have h1 := LookupNodes_matchFilters memory tidGraph
    { ID := "x", metadatas := [("N", .int 1)] } [("TID", .str "z")] (by decide)
  have h2 := LookupNodes_matchFilters memory tidGraph
    { ID := "x", metadatas := [("N", .int 1)] } [("N", .int64 1)] (by decide)
  ⟨h.2.2.2.1.trans (by decide), h1.2.2.2.2.trans (by decide), h2.1.trans (by decide)⟩

/-- C4 fails as stated on values of a type that is not comparable: the node
`ip` holds a slice of strings under `IPV4` and the filter asks for that very
slice, so every key of the filter is present with an equal value, yet
`matchFilters`, `LookupNodes` and `LookupFirstNode` do not answer: the
comparison `v != nv` panics. -/
theorem matchFilters_panics_on_slices :
    ipNode.metadatas.holds "IPV4" (.uncomparable "[]string" "[10.0.0.1]") = true ∧
    ipNode.tographElement.matchFilters [("IPV4", .uncomparable "[]string" "[10.0.0.1]")] =
      .comparePanic ∧
    Graph.LookupNodes memory ipGraph [("IPV4", .uncomparable "[]string" "[10.0.0.1]")] =
      .comparePanic ∧
    Graph.LookupFirstNode memory ipGraph [("IPV4", .uncomparable "[]string" "[10.0.0.1]")] =
      .comparePanic := by
  decide

/-! ### C5 -/

theorem lookupChildrenLoop_ok {σ : Type} (B : GraphBackend σ) (g : Graph σ) (n : Node)
    (f : Metadatas) (hcmp : ∀ kv ∈ f, kv.2.comparable = true) (es : List Edge) :
    ∀ (acc : List Node),
    (∀ e ∈ es, (B.GetEdgeNodes g.backend e).1.map (fun p => p.ID) = some n.ID →
      (B.GetEdgeNodes g.backend e).2.isSome = true) →
    Graph.lookupChildrenLoop B g n f es acc = .ok (acc ++ es.filterMap (fun e =>
      match B.GetEdgeNodes g.backend e with
      | (some p, some c) =>
        if p.ID = n.ID ∧ c.tographElement.matchFilters f = .ok true then some c else none
      | _ => none)) := by
  induction es with
  | nil => intro acc _; simp [Graph.lookupChildrenLoop]
  | cons e es ih =>
    intro acc h
    have he := h e (List.mem_cons_self _ _)
    have hes : ∀ e' ∈ es, (B.GetEdgeNodes g.backend e').1.map (fun p => p.ID) = some n.ID →
        (B.GetEdgeNodes g.backend e').2.isSome = true :=
      fun e' he' => h e' (List.mem_cons_of_mem _ he')
    unfold Graph.lookupChildrenLoop
    rcases hen : B.GetEdgeNodes g.backend e with ⟨_ | p, _ | c⟩
    · simp [ih acc hes, hen]
    · simp [ih acc hes, hen]
    · by_cases hp : p.ID = n.ID
      · simp [hen, hp] at he
      · simp [ih acc hes, hen, hp]
    · by_cases hp : p.ID = n.ID
      · have hm := matchFilters_comparable c.tographElement f hcmp
        cases hb : f.all (fun kv => c.metadatas.holds kv.1 kv.2)
        · rw [hb] at hm
          simp [ih acc hes, hen, hp, hm, Run.bind]
        · rw [hb] at hm
          simp [ih _ hes, hen, hp, hm, Run.bind]
      · simp [ih acc hes, hen, hp]

/-- C5: when every edge reported for `n` whose parent endpoint is `n` has a
child endpoint, and the values of the filter are of comparable types (the
panic of `matchFilters` on the others is stated under C4), `LookupChildren(n,
f)` returns the child endpoints of the edges reported for `n` whose parent is
`n` and whose child matches `f`, one entry per such edge, in the order of the
edges. -/
theorem LookupChildren_children {σ : Type} (B : GraphBackend σ) (g : Graph σ) (n : Node)
    (f : Metadatas) (hcmp : ∀ kv ∈ f, kv.2.comparable = true)
    (hchild : ∀ e ∈ B.GetNodeEdges g.backend n,
      (B.GetEdgeNodes g.backend e).1.map (fun p => p.ID) = some n.ID →
      (B.GetEdgeNodes g.backend e).2.isSome = true) :
    Graph.LookupChildren B g n f = .ok ((B.GetNodeEdges g.backend n).filterMap (fun e =>
      match B.GetEdgeNodes g.backend e with
      | (some p, some c) =>
        if p.ID = n.ID ∧ c.tographElement.matchFilters f = .ok true then some c else none
      | _ => none)) := by
  unfold Graph.LookupChildren
  rw [lookupChildrenLoop_ok B g n f hcmp _ [] hchild]
  simp

/-- Scenario "Graph basics": with the single edge `n1 -> n2`,
`LookupChildren(n1, {})` is `[n2]` and `LookupChildren(n2, {})` is empty. -/
theorem LookupChildren_children_witness :
    Graph.LookupChildren memory sampleGraph n1 [] = .ok [n2] ∧
    Graph.LookupChildren memory sampleGraph n2 [] = .ok [] :=
  ⟨LookupChildren_children memory sampleGraph n1 [] (by decide) (by decide),
   LookupChildren_children memory sampleGraph n2 [] (by decide) (by decide)⟩

/-! ### C6 -/

/-- C6 fails on the code: with the single edge `n1 -> n2`,
`LookupParentNodes(n2, {})` returns `[n2]`, the child endpoint, and not the
parent `[n1]`. -/
theorem LookupParentNodes_returns_child :
    Graph.LookupParentNodes memory sampleGraph n2 [] = .ok [n2] ∧
    Graph.LookupParentNodes memory sampleGraph n2 [] ≠ .ok [n1] := by
  decide

/-! ### C7 -/

theorem grown_mono (R : Node → Node → Bool) (ext : List Node) :
    ∀ (base base' : List Node), (∀ a ∈ base, a ∈ base') → Grown R base ext → Grown R base' ext := by
  induction ext with
  | nil => intro _ _ _ _; trivial
  | cons x ext ih =>
    intro base base' hsub h
    obtain ⟨⟨a, ha, hR⟩, hrest⟩ := h
    refine ⟨⟨a, hsub a ha, hR⟩, ih _ _ ?_ hrest⟩
    intro b hb
    rcases List.mem_append.mp hb with hb | hb
    · exact List.mem_append_left _ (hsub b hb)
    · exact List.mem_append_right _ hb

theorem grown_append (R : Node → Node → Bool) (e1 : List Node) :
    ∀ (base e2 : List Node), Grown R base e1 → Grown R (base ++ e1) e2 →
      Grown R base (e1 ++ e2) := by
  induction e1 with
  | nil => intro base e2 _ h; simpa using h
  | cons x e1 ih =>
    intro base e2 h1 h2
    obtain ⟨hx, hrest⟩ := h1
    refine ⟨hx, ih _ _ hrest ?_⟩
    simpa using h2

theorem grown_split (R : Node → Node → Bool) (pre : List Node) :
    ∀ (base : List Node) (x : Node) (post : List Node), Grown R base (pre ++ x :: post) →
      ∃ a ∈ base ++ pre, R a x = true := by
  induction pre with
  | nil =>
    intro base x post h
    obtain ⟨⟨a, ha, hR⟩, _⟩ := h
    exact ⟨a, by simpa using ha, hR⟩
  | cons y pre ih =>
    intro base x post h
    obtain ⟨_, hrest⟩ := h
    obtain ⟨a, ha, hR⟩ := ih _ x post hrest
    exact ⟨a, by simpa using ha, hR⟩

/-- What the first loop of `getAncestorsTo` finds. -/
theorem getAncestorsToScan_some {σ : Type} (B : GraphBackend σ) (g : Graph σ) (n : Node)
    (f : Metadatas) (p : Node) (es : List Edge) :
    Graph.getAncestorsToScan B g n f es = .ok (some p) →
    p.tographElement.matchFilters f = .ok true ∧
    ∃ e ∈ es, ∃ c : Node, B.GetEdgeNodes g.backend e = (some p, some c) ∧ c.ID = n.ID := by
  induction es with
  | nil => intro h; simp [Graph.getAncestorsToScan] at h
  | cons e es ih =>
    intro h
    unfold Graph.getAncestorsToScan at h
    have lift : (p.tographElement.matchFilters f = .ok true ∧
        ∃ e' ∈ es, ∃ c : Node, B.GetEdgeNodes g.backend e' = (some p, some c) ∧ c.ID = n.ID) →
        (p.tographElement.matchFilters f = .ok true ∧
        ∃ e' ∈ e :: es, ∃ c : Node, B.GetEdgeNodes g.backend e' = (some p, some c) ∧ c.ID = n.ID) :=
      fun ⟨h1, e', he', hc⟩ => ⟨h1, e', List.mem_cons_of_mem _ he', hc⟩
    rcases hen : B.GetEdgeNodes g.backend e with ⟨q, _ | c⟩
    · rw [hen] at h; exact lift (ih h)
    · rw [hen] at h
      simp only [] at h
      by_cases hc : c.ID = n.ID
      · rw [if_pos hc] at h
        cases q with
        | none => simp at h
        | some q =>
          simp only [] at h
          rcases hm : q.tographElement.matchFilters f with ⟨_ | _⟩ | _ | _ | _
          · rw [hm] at h
            simp only [Run.bind, Bool.false_eq_true, if_false] at h
            exact lift (ih h)
          · rw [hm] at h
            simp only [Run.bind, if_true, Run.ok.injEq, Option.some.injEq] at h
            subst h
            exact ⟨hm, e, List.mem_cons_self _ _, c, hen, hc⟩
          · rw [hm] at h; simp [Run.bind] at h
          · rw [hm] at h; simp [Run.bind] at h
          · rw [hm] at h; simp [Run.bind] at h
      · rw [if_neg hc] at h; exact lift (ih h)

theorem isParentOf_of_edge {σ : Type} (B : GraphBackend σ) (g : Graph σ) (n p c : Node)
    (e : Edge) (he : e ∈ B.GetNodeEdges g.backend n)
    (hen : B.GetEdgeNodes g.backend e = (some p, some c)) (hc : c.ID = n.ID) :
    Graph.isParentOf B g n p = true := by
  unfold Graph.isParentOf
  rw [List.any_eq_true]
  exact ⟨e, he, by simp [hen, hc]⟩

theorem getAncestorsToClimb_spec {σ : Type} (B : GraphBackend σ) (g : Graph σ) (n : Node)
    (f : Metadatas) (recurse : Node → List Node → Run (Bool × List Node))
    (hrec : AncestorsSpec B g f recurse) (es : List Edge) :
    ∀ (anc : List Node) (b : Bool) (anc' : List Node),
    (∀ e ∈ es, e ∈ B.GetNodeEdges g.backend n) →
    Graph.getAncestorsToClimb B g n recurse es anc = .ok (b, anc') →
    ∃ ext, anc' = anc ++ ext ∧ Grown (Graph.isParentOf B g) [n] ext ∧
      (b = true → ∃ init last, ext = init ++ [last] ∧
        last.tographElement.matchFilters f = .ok true) := by
  induction es with
  | nil =>
    intro anc b anc' _ h
    simp only [Graph.getAncestorsToClimb, Run.ok.injEq, Prod.mk.injEq] at h
    obtain ⟨hb, ha⟩ := h
    subst hb ha
    exact ⟨[], by simp, trivial, by simp⟩
  | cons e es ih =>
    intro anc b anc' hsub h
    have hsub' : ∀ e' ∈ es, e' ∈ B.GetNodeEdges g.backend n :=
      fun e' he' => hsub e' (List.mem_cons_of_mem _ he')
    unfold Graph.getAncestorsToClimb at h
    rcases hen : B.GetEdgeNodes g.backend e with ⟨q, _ | c⟩
    · rw [hen] at h; exact ih anc b anc' hsub' h
    · rw [hen] at h
      simp only [] at h
      by_cases hc : c.ID = n.ID
      · rw [if_pos hc] at h
        cases q with
        | none => simp at h
        | some q =>
          simp only [] at h
          have hpar : Graph.isParentOf B g n q = true :=
            isParentOf_of_edge B g n q c e (hsub e (List.mem_cons_self _ _)) hen hc
          rcases hr : recurse q anc with ⟨⟨_ | _, anc1⟩⟩ | _ | _ | _
          · -- the call returned false: the loop goes on with the longer slice
            rw [hr] at h
            simp only [] at h
            obtain ⟨ext1, hanc1, hg1, -⟩ := hrec q anc false anc1 hr
            obtain ⟨ext2, hanc2, hg2, hlast⟩ := ih anc1 b anc' hsub' h
            refine ⟨(q :: ext1) ++ ext2, ?_, ?_, ?_⟩
            · rw [hanc2, hanc1]; simp
            · apply grown_append
              · exact ⟨⟨n, List.mem_singleton_self n, hpar⟩,
                  grown_mono _ _ _ _ (fun a ha => List.mem_append_right _ ha) hg1⟩
              · exact grown_mono _ _ _ _ (fun a ha => List.mem_append_left _ ha) hg2
            · intro hb
              obtain ⟨init, last, he2, hm⟩ := hlast hb
              exact ⟨(q :: ext1) ++ init, last, by rw [he2]; simp, hm⟩
          · rw [hr] at h
            simp only [Run.ok.injEq, Prod.mk.injEq] at h
            obtain ⟨hb, ha⟩ := h
            subst hb ha
            obtain ⟨ext1, hanc1, hg1, hlast⟩ := hrec q anc true anc1 hr
            refine ⟨q :: ext1, hanc1, ?_, ?_⟩
            · exact ⟨⟨n, List.mem_singleton_self n, hpar⟩,
                grown_mono _ _ _ _ (fun a ha => List.mem_append_right _ ha) hg1⟩
            · intro _
              obtain ⟨init, last, he2, hm⟩ := hlast rfl
              exact ⟨q :: init, last, by rw [he2]; simp, hm⟩
          · rw [hr] at h; simp at h
          · rw [hr] at h; simp at h
          · rw [hr] at h; simp at h
      · rw [if_neg hc] at h; exact ih anc b anc' hsub' h

theorem getAncestorsTo_spec {σ : Type} (B : GraphBackend σ) (g : Graph σ) (f : Metadatas)
    (fuel : Nat) : AncestorsSpec B g f (Graph.getAncestorsTo B g f fuel) := by
  induction fuel with
  | zero => intro q anc b anc' h; simp [Graph.getAncestorsTo] at h
  | succ fuel ih =>
    intro q anc b anc' h
    unfold Graph.getAncestorsTo at h
    simp only [] at h
    rcases hs : Graph.getAncestorsToScan B g q f (B.GetNodeEdges g.backend q) with
      ⟨_ | p⟩ | _ | _ | _
    · rw [hs] at h
      simp only [] at h
      obtain ⟨ext, hanc, hg, hlast⟩ := getAncestorsToClimb_spec B g q f _ ih _ _ _ _
        (fun e he => he) h
      exact ⟨ext, by rw [hanc]; simp, hg, hlast⟩
    · rw [hs] at h
      simp only [Run.ok.injEq, Prod.mk.injEq] at h
      obtain ⟨hb, ha⟩ := h
      subst hb ha
      obtain ⟨hm, e, he, c, hen, hc⟩ := getAncestorsToScan_some B g q f p _ hs
      refine ⟨[p], by simp, ⟨⟨q, List.mem_singleton_self q, ?_⟩, trivial⟩, fun _ => ⟨[], p, rfl, hm⟩⟩
      exact isParentOf_of_edge B g q p c e he hen hc
    · rw [hs] at h; simp at h
    · rw [hs] at h; simp at h
    · rw [hs] at h; simp at h

/-- C7, as the code has it: whenever `GetAncestorsTo(n, f)` returns
`(list, true)`, the first element of the list is `n`, its last element matches
`f`, and every element after the first is the parent endpoint of an edge whose
child is some element before it in the list (not always the one just before,
since the nodes of abandoned branches stay in the list). -/
theorem GetAncestorsTo_found {σ : Type} (B : GraphBackend σ) (g : Graph σ) (fuel : Nat)
    (n : Node) (f : Metadatas) (l : List Node)
    (h : Graph.GetAncestorsTo B g fuel n f = .ok (l, true)) :
    l.head? = some n ∧
    (∃ last, l.getLast? = some last ∧ last.tographElement.matchFilters f = .ok true) ∧
    ∀ pre x post, l = pre ++ x :: post → pre ≠ [] →
      ∃ a ∈ pre, Graph.isParentOf B g a x = true := by
  unfold Graph.GetAncestorsTo at h
  rcases hr : Graph.getAncestorsTo B g f fuel n [] with ⟨⟨b, anc⟩⟩ | _ | _ | _
  · rw [hr] at h
    simp only [Run.ok.injEq, Prod.mk.injEq] at h
    obtain ⟨hl, hb⟩ := h
    subst hl hb
    obtain ⟨ext, hanc, hg, hlast⟩ := getAncestorsTo_spec B g f fuel n [] true anc hr
    obtain ⟨init, last, hext, hm⟩ := hlast rfl
    simp only [List.nil_append] at hanc
    subst hanc
    refine ⟨rfl, ⟨last, ?_, hm⟩, ?_⟩
    · rw [hext, ← List.cons_append, List.getLast?_append]
      simp
    · intro pre x post hsplit hne
      cases pre with
      | nil => exact absurd rfl hne
      | cons y pre =>
        simp only [List.cons_append, List.cons.injEq] at hsplit
        obtain ⟨hy, hrest⟩ := hsplit
        subst hy
        rw [hrest] at hg
        exact grown_split _ pre [n] x post hg
  · rw [hr] at h; simp at h
  · rw [hr] at h; simp at h
  · rw [hr] at h; simp at h

/-- From `eth0` towards a host: the list found is `eth0, br0, ns0, host`. -/
theorem GetAncestorsTo_found_witness :
    [eth0, br0, ns0, host].head? = some eth0 ∧
    (∃ last, [eth0, br0, ns0, host].getLast? = some last ∧
      last.tographElement.matchFilters [("Type", .str "host")] = .ok true) ∧
    ∀ pre x post, [eth0, br0, ns0, host] = pre ++ x :: post → pre ≠ [] →
      ∃ a ∈ pre, Graph.isParentOf memory twoParents a x = true :=
  GetAncestorsTo_found memory twoParents 3 eth0 [("Type", .str "host")]
    [eth0, br0, ns0, host] (by decide)

/-- C7 fails as stated: from `eth0`, whose first parent `br0` has no parent,
`GetAncestorsTo` returns `(eth0, br0, ns0, host)` with true; `ns0` comes just
after `br0` without being a parent of `br0`, so the list is not a path. -/
theorem GetAncestorsTo_not_a_path :
    Graph.GetAncestorsTo memory twoParents 3 eth0 [("Type", .str "host")]
      = .ok ([eth0, br0, ns0, host], true) ∧
    Graph.isParentOf memory twoParents br0 ns0 = false ∧
    ¬ List.Chain' (fun a b => Graph.isParentOf memory twoParents a b = true)
        [eth0, br0, ns0, host] := by
  refine ⟨by decide, by decide, ?_⟩
  intro h
  have h2 := (List.chain'_cons.mp (List.chain'_cons.mp h).2).1
  revert h2
  decide

/-! ### C8 -/

theorem getAncestorsTo_cycle (fuel : Nat) :
    ∀ anc : List Node,
      Graph.getAncestorsTo memory cycleGraph [("Type", .str "host")] fuel n1 anc = .outOfFuel ∧
      Graph.getAncestorsTo memory cycleGraph [("Type", .str "host")] fuel n2 anc = .outOfFuel := by
  induction fuel with
  | zero => intro anc; exact ⟨rfl, rfl⟩
  | succ fuel ih =>
    intro anc
    have s1 : Graph.getAncestorsToScan memory cycleGraph n1 [("Type", .str "host")]
        (memory.GetNodeEdges cycleGraph.backend n1) = .ok none := by decide
    have s2 : Graph.getAncestorsToScan memory cycleGraph n2 [("Type", .str "host")]
        (memory.GetNodeEdges cycleGraph.backend n2) = .ok none := by decide
    have e1 : memory.GetNodeEdges cycleGraph.backend n1 = [e12, e21] := by decide
    have e2 : memory.GetNodeEdges cycleGraph.backend n2 = [e12, e21] := by decide
    have g12 : memory.GetEdgeNodes cycleGraph.backend e12 = (some n1, some n2) := by decide
    have g21 : memory.GetEdgeNodes cycleGraph.backend e21 = (some n2, some n1) := by decide
    have d12 : n2.ID ≠ n1.ID := by decide
    have d21 : n1.ID ≠ n2.ID := by decide
    constructor
    · unfold Graph.getAncestorsTo
      simp only [s1]
      rw [e1]
      simp only [Graph.getAncestorsToClimb, g12, g21, d12, if_false, if_true, (ih _).2]
    · unfold Graph.getAncestorsTo
      simp only [s2]
      rw [e2]
      simp only [Graph.getAncestorsToClimb, g12, g21, d21, if_false, if_true, (ih _).1]

/-- C8 fails on the code: on the cycle `n1 -> n2 -> n1` with no node matching
the filter, `GetAncestorsTo` does not return, whatever the number of nested
calls allowed; no visited set bounds the recursion. -/
theorem GetAncestorsTo_cycle_diverges (fuel : Nat) :
    Graph.GetAncestorsTo memory cycleGraph fuel n1 [("Type", .str "host")] = .outOfFuel := by
  unfold Graph.GetAncestorsTo
  rw [(getAncestorsTo_cycle fuel []).1]

/-! ### C9 -/

/-- C9 fails on the code: with the edges `n1 -> ghost` and `ghost -> n1` whose
endpoint `ghost` is nil, `LookupChildren`, `LookupParentNodes`,
`GetAncestorsTo` and `DelSubGraph` on `n1` all dereference the nil endpoint. -/
theorem readers_dereference_nil_endpoint :
    Graph.LookupChildren memory danglingGraph n1 [("TID", .str "a")] = .nilDeref ∧
    Graph.LookupParentNodes memory danglingGraph n1 [("TID", .str "a")] = .nilDeref ∧
    Graph.GetAncestorsTo memory danglingGraph 1 n1 [("TID", .str "a")] = .nilDeref ∧
    Graph.DelSubGraph memory 1 n1 danglingGraph = .nilDeref := by
  decide

/-! ### C10 -/

/-- The edge-deleting loop of `DelNode` over the in-memory backend keeps the
stored nodes and the listeners, and only makes `OnEdgeDeleted` calls. -/
theorem memory_DelEdge_fold_nodes (es : List Edge) :
    ∀ (g : Graph MemoryBackend),
      (es.foldl (fun acc e => (Graph.DelEdge memory e acc).2) g).backend.nodes = g.backend.nodes ∧
      (es.foldl (fun acc e => (Graph.DelEdge memory e acc).2) g).eventListeners
        = g.eventListeners ∧
      ∃ extra, (es.foldl (fun acc e => (Graph.DelEdge memory e acc).2) g).calls = g.calls ++ extra ∧
        ∀ x ∈ extra, ∃ e, x.2 = Callback.OnEdgeDeleted e := by
  induction es with
  | nil => intro g; exact ⟨rfl, rfl, [], by simp, by simp⟩
  | cons e es ih =>
    intro g
    obtain ⟨hn, hl, extra, hc, hx⟩ := ih (Graph.DelEdge memory e g).2
    rw [List.foldl_cons]
    by_cases h : g.backend.hasEdge e.ID = true
    · have hd : (Graph.DelEdge memory e g).2 =
          Graph.NotifyEdgeDeleted e { g with backend :=
            { g.backend with edges := g.backend.edges.filter (fun x => x.ID != e.ID) } } := by
        simp [Graph.DelEdge, memory, MemoryBackend.DelEdge, h]
      refine ⟨by rw [hn, hd]; rfl, by rw [hl, hd]; rfl,
        g.eventListeners.map (fun l => (l, Callback.OnEdgeDeleted e)) ++ extra, ?_, ?_⟩
      · rw [hc, hd]
        simp [Graph.NotifyEdgeDeleted, Graph.notify]
      · intro x hxm
        rcases List.mem_append.mp hxm with hxm | hxm
        · obtain ⟨l, -, hl'⟩ := List.mem_map.mp hxm
          exact ⟨e, by rw [← hl']⟩
        · exact hx x hxm
    · have hd : (Graph.DelEdge memory e g).2 = g := by
        simp [Graph.DelEdge, memory, MemoryBackend.DelEdge, h]
      rw [hd] at hn hl hc ⊢
      exact ⟨hn, hl, extra, hc, hx⟩

/-- C10, as the code has it: `Graph.DelEdge` and `Graph.DelNode` have no
result. Over the in-memory backend, when the identifier of `e` is not stored
the backend's `DelEdge` returns false and `Graph.DelEdge` changes nothing and
calls no listener; when the identifier of `n` is not stored the backend's
`DelNode` returns false, the stored nodes are unchanged and the only callbacks
`Graph.DelNode` makes are `OnEdgeDeleted` ones, none is `OnNodeDeleted`. -/
theorem DelNode_DelEdge_missing (g : Graph MemoryBackend) (n : Node) (e : Edge) :
    (g.backend.hasEdge e.ID = false →
      (memory.DelEdge g.backend e).1 = false ∧ (Graph.DelEdge memory e g).2 = g) ∧
    (g.backend.hasNode n.ID = false →
      (memory.DelNode g.backend n).1 = false ∧
      (Graph.DelNode memory n g).2.backend.nodes = g.backend.nodes ∧
      ∃ extra, (Graph.DelNode memory n g).2.calls = g.calls ++ extra ∧
        ∀ x ∈ extra, (∃ e', x.2 = Callback.OnEdgeDeleted e') ∧
          ∀ n', x.2 ≠ Callback.OnNodeDeleted n') := by
  constructor
  · intro h
    simp [Graph.DelEdge, memory, MemoryBackend.DelEdge, h]
  · intro h
    obtain ⟨hn, -, extra, hc, hx⟩ :=
      memory_DelEdge_fold_nodes (memory.GetNodeEdges g.backend n) g
    have h2 : MemoryBackend.hasNode
        ((memory.GetNodeEdges g.backend n).foldl
          (fun acc e => (Graph.DelEdge memory e acc).2) g).backend n.ID = false := by
      unfold MemoryBackend.hasNode
      rw [hn]
      exact h
    have hres : (Graph.DelNode memory n g).2 =
        (memory.GetNodeEdges g.backend n).foldl (fun acc e => (Graph.DelEdge memory e acc).2) g := by
      unfold Graph.DelNode
      simp only []
      have : memory.DelNode ((memory.GetNodeEdges g.backend n).foldl
          (fun acc e => (Graph.DelEdge memory e acc).2) g).backend n =
          (false, ((memory.GetNodeEdges g.backend n).foldl
          (fun acc e => (Graph.DelEdge memory e acc).2) g).backend) := by
        show MemoryBackend.DelNode _ n = _
        unfold MemoryBackend.DelNode
        rw [h2]
        rfl
      rw [this]
    refine ⟨by simp [memory, MemoryBackend.DelNode, h], by rw [hres, hn], extra,
      by rw [hres, hc], ?_⟩
    intro x hxm
    obtain ⟨e', he'⟩ := hx x hxm
    exact ⟨⟨e', he'⟩, fun n' hn' => by rw [he'] at hn'; cases hn'⟩

/-- Deleting the missing `e21` and the missing `n3` from the sample graph. -/
theorem DelNode_DelEdge_missing_witness :
    ((memory.DelEdge sampleGraph.backend e21).1 = false ∧
      (Graph.DelEdge memory e21 sampleGraph).2 = sampleGraph) ∧
    ((memory.DelNode sampleGraph.backend n3).1 = false ∧
      (Graph.DelNode memory n3 sampleGraph).2.backend.nodes = sampleGraph.backend.nodes ∧
      ∃ extra, (Graph.DelNode memory n3 sampleGraph).2.calls = sampleGraph.calls ++ extra ∧
        ∀ x ∈ extra, (∃ e', x.2 = Callback.OnEdgeDeleted e') ∧
          ∀ n', x.2 ≠ Callback.OnNodeDeleted n') :=
  ⟨(DelNode_DelEdge_missing sampleGraph n3 e21).1 (by decide),
   (DelNode_DelEdge_missing sampleGraph n3 e21).2 (by decide)⟩

/-- C10 fails as stated: `Graph.DelNode` and `Graph.DelEdge` return no boolean.
On the sample graph the backend returns false for the missing `n3` and `e21`
and true for the stored `n1` and `e12`, yet the result of the `Graph`
operation is the same empty value in both cases. -/
theorem DelNode_DelEdge_return_nothing :
    (memory.DelNode sampleGraph.backend n3).1 = false ∧
    (memory.DelNode sampleGraph.backend n1).1 = true ∧
    (Graph.DelNode memory n3 sampleGraph).1 = () ∧
    (Graph.DelNode memory n3 sampleGraph).1 = (Graph.DelNode memory n1 sampleGraph).1 ∧
    (memory.DelEdge sampleGraph.backend e21).1 = false ∧
    (memory.DelEdge sampleGraph.backend e12).1 = true ∧
    (Graph.DelEdge memory e21 sampleGraph).1 = () ∧
    (Graph.DelEdge memory e21 sampleGraph).1 = (Graph.DelEdge memory e12 sampleGraph).1 := by
  decide

/-! ### C11 -/

theorem AddEventListener_foldl {σ : Type} (ls : List GraphEventListener) :
    ∀ g : Graph σ,
      (ls.foldl (fun acc l => acc.AddEventListener l) g).eventListeners = g.eventListeners ++ ls ∧
      (ls.foldl (fun acc l => acc.AddEventListener l) g).calls = g.calls ∧
      (ls.foldl (fun acc l => acc.AddEventListener l) g).backend = g.backend := by
  induction ls with
  | nil => intro g; simp
  | cons l ls ih =>
    intro g
    obtain ⟨h1, h2, h3⟩ := ih (g.AddEventListener l)
    simp only [List.foldl_cons]
    rw [h1, h2, h3]
    simp [Graph.AddEventListener]

/-- C11: after `AddEventListener` has registered `l1, ..., lk` in that order on
a new graph, the listeners are `l1, ..., lk`, and each of the six `Notify`
operations makes the matching callback once on each of them, in registration
order and with the element it was given. -/
theorem Notify_registration_order {σ : Type} (b : σ) (ls : List GraphEventListener)
    (n : Node) (e : Edge) :
    (ls.foldl (fun acc l => acc.AddEventListener l) (NewGraph b)).eventListeners = ls ∧
    (Graph.NotifyNodeAdded n (ls.foldl (fun acc l => acc.AddEventListener l) (NewGraph b))).calls
      = ls.map (fun l => (l, Callback.OnNodeAdded n)) ∧
    (Graph.NotifyNodeUpdated n (ls.foldl (fun acc l => acc.AddEventListener l) (NewGraph b))).calls
      = ls.map (fun l => (l, Callback.OnNodeUpdated n)) ∧
    (Graph.NotifyNodeDeleted n (ls.foldl (fun acc l => acc.AddEventListener l) (NewGraph b))).calls
      = ls.map (fun l => (l, Callback.OnNodeDeleted n)) ∧
    (Graph.NotifyEdgeAdded e (ls.foldl (fun acc l => acc.AddEventListener l) (NewGraph b))).calls
      = ls.map (fun l => (l, Callback.OnEdgeAdded e)) ∧
    (Graph.NotifyEdgeUpdated e (ls.foldl (fun acc l => acc.AddEventListener l) (NewGraph b))).calls
      = ls.map (fun l => (l, Callback.OnEdgeUpdated e)) ∧
    (Graph.NotifyEdgeDeleted e (ls.foldl (fun acc l => acc.AddEventListener l) (NewGraph b))).calls
      = ls.map (fun l => (l, Callback.OnEdgeDeleted e)) := by
  obtain ⟨h1, h2, -⟩ := AddEventListener_foldl ls (NewGraph b)
  simp only [NewGraph, List.nil_append] at h1 h2
  simp [Graph.NotifyNodeAdded, Graph.NotifyNodeUpdated, Graph.NotifyNodeDeleted,
    Graph.NotifyEdgeAdded, Graph.NotifyEdgeUpdated, Graph.NotifyEdgeDeleted, Graph.notify,
    h1, h2, NewGraph]

/-! ### C18 -/

/-- C18 fails on the code for `Hops` and `CaptureNode`: on a graph holding a
node whose `TID` is `*`, a flow whose `NodeTID` is `*` makes both look that TID
up and return the node, whereas `Nodes`, which guards the TID, returns
nothing. -/
theorem Hops_looks_up_unknown_TID :
    FlowTraversalStep.Hops memory samplePackages (flowStepOn starGraph [flowUnknownNode]) []
      = .ok { GraphTraversal := some { Graph := starGraph }, nodes := [starNode] } ∧
    FlowTraversalStep.CaptureNode memory samplePackages
        (flowStepOn starGraph [flowUnknownNode]) []
      = .ok { GraphTraversal := some { Graph := starGraph }, nodes := [starNode] } ∧
    FlowTraversalStep.Nodes memory samplePackages (flowStepOn starGraph [flowUnknownNode]) []
      = .ok { GraphTraversal := some { Graph := starGraph }, nodes := [] } := by
  decide

/-! ### C19 -/

theorem Metadatas_set_set (m : Metadatas) (k : String) (v w : Value) :
    Metadatas.set (Metadatas.set m k v) k w = Metadatas.set m k w := by
  simp [Metadatas.set, List.filter_cons, List.filter_filter]

/-- The filter with its `TID` key set to a string keeps values of comparable
types. -/
theorem set_TID_comparable (m : Metadatas) (t : String)
    (hcmp : ∀ kv ∈ m, kv.2.comparable = true) :
    ∀ kv ∈ Metadatas.set m "TID" (.str t), kv.2.comparable = true := by
  intro kv hkv
  rcases List.mem_cons.mp hkv with h | h
  · rw [h]; rfl
  · exact hcmp kv (List.mem_filter.mp h).1

/-- One guarded lookup, on a map that is the filter `m` up to its `TID` key. -/
theorem lookupKnownTID_resolves {σ : Type} (B : GraphBackend σ) (g : Graph σ) (m : Metadatas)
    (hcmp : ∀ kv ∈ m, kv.2.comparable = true)
    (t : String) (st : Metadatas × List Node)
    (hst : st.1 = m ∨ ∃ v, st.1 = Metadatas.set m "TID" v) :
    ∃ st1, lookupKnownTID B g t st = .ok st1 ∧
      (st1.1 = m ∨ ∃ v, st1.1 = Metadatas.set m "TID" v) ∧
      st1.2 = st.2 ++ resolveTIDs B g m ([t].filter (fun x => decide (x ≠ "" ∧ x ≠ "*"))) := by
  unfold lookupKnownTID
  by_cases ht : t ≠ "" ∧ t ≠ "*"
  · have hset : Metadatas.set st.1 "TID" (.str t) = Metadatas.set m "TID" (.str t) := by
      rcases hst with h | ⟨v, h⟩
      · rw [h]
      · rw [h, Metadatas_set_set]
    rw [if_pos ht]
    unfold lookupTID
    simp only [hset]
    have hl := LookupFirstNode_comparable B g _ (set_TID_comparable m t hcmp)
    rw [hl]
    cases hf : (B.GetNodes g.backend).find?
        (fun n => (Metadatas.set m "TID" (.str t)).all
          (fun kv => n.metadatas.holds kv.1 kv.2)) with
    | none =>
      rw [hf] at hl
      refine ⟨_, rfl, Or.inr ⟨_, rfl⟩, ?_⟩
      simp [resolveTIDs, List.filter_cons, ht, hl]
    | some node =>
      rw [hf] at hl
      refine ⟨_, rfl, Or.inr ⟨_, rfl⟩, ?_⟩
      simp [resolveTIDs, List.filter_cons, ht, hl]
  · rw [if_neg ht]
    refine ⟨st, rfl, hst, ?_⟩
    simp [resolveTIDs, List.filter_cons, ht]

/-- The loop of `Nodes` over the flows. -/
theorem Nodes_loop_resolves {σ : Type} (B : GraphBackend σ) (g : Graph σ) (m : Metadatas)
    (hcmp : ∀ kv ∈ m, kv.2.comparable = true) (flows : List Flow) :
    ∀ st : Metadatas × List Node, (st.1 = m ∨ ∃ v, st.1 = Metadatas.set m "TID" v) →
    ∃ st1, flows.foldl (fun (st : Run (Metadatas × List Node)) flow =>
        ((st.bind (lookupKnownTID B g flow.NodeTID)).bind
          (lookupKnownTID B g flow.ANodeTID)).bind
          (lookupKnownTID B g flow.BNodeTID)) (.ok st) = .ok st1 ∧
      st1.2 = st.2 ++ flows.flatMap (fun fl => resolveTIDs B g m
        ([fl.NodeTID, fl.ANodeTID, fl.BNodeTID].filter (fun x => decide (x ≠ "" ∧ x ≠ "*")))) := by
  induction flows with
  | nil => intro st _; exact ⟨st, rfl, by simp⟩
  | cons fl flows ih =>
    intro st hst
    obtain ⟨st1, r1, h1, e1⟩ := lookupKnownTID_resolves B g m hcmp fl.NodeTID st hst
    obtain ⟨st2, r2, h2, e2⟩ := lookupKnownTID_resolves B g m hcmp fl.ANodeTID st1 h1
    obtain ⟨st3, r3, h3, e3⟩ := lookupKnownTID_resolves B g m hcmp fl.BNodeTID st2 h2
    obtain ⟨st4, r4, e4⟩ := ih st3 h3
    refine ⟨st4, ?_, ?_⟩
    · rw [List.foldl_cons]
      simp only [Run.bind, r1, r2, r3]
      exact r4
    · rw [e4, e3, e2, e1]
      simp only [List.flatMap_cons, List.append_assoc, List.append_cancel_left_eq]
      rw [← List.append_assoc, ← List.append_assoc]
      congr 1
      simp only [resolveTIDs, ← List.filterMap_append, ← List.filter_append]
      rfl

/-- C19, as the code has it: for a flow step without error that holds a
traversal and a flow set, and a filter whose values are of comparable types
(the panic of `matchFilters` on the others is stated under C4),
`Nodes(filter)` returns, flow by flow in flow order, for `t = NodeTID`, then
`ANodeTID`, then `BNodeTID`, leaving out `t` when it is empty or `*`, the first
graph node matching the filter with `TID` set to `t`, when there is one;
duplicates are kept. -/
theorem Nodes_resolves_known_TIDs {σ : Type} (B : GraphBackend σ) (D : Packages)
    (f : FlowTraversalStep σ) (s : List Value) (m : Metadatas) (gt : GraphTraversal σ)
    (flowset : FlowSet)
    (herr : f.error = none) (hm : D.SliceToMetadata s = .ok m)
    (hcmp : ∀ kv ∈ m, kv.2.comparable = true)
    (hgt : f.GraphTraversal = some gt) (hfs : f.flowset = some flowset) :
    FlowTraversalStep.Nodes B D f s =
      .ok { GraphTraversal := some gt,
            nodes := flowset.Flows.flatMap (fun fl => resolveTIDs B gt.Graph m
              ([fl.NodeTID, fl.ANodeTID, fl.BNodeTID].filter
                (fun x => decide (x ≠ "" ∧ x ≠ "*")))),
            error := none } := by
  unfold FlowTraversalStep.Nodes
  rw [herr, hm, hgt, hfs]
  simp only []
  obtain ⟨st1, r1, e1⟩ := Nodes_loop_resolves B gt.Graph m hcmp flowset.Flows (m, []) (Or.inl rfl)
  rw [r1]
  simp [Run.bind, e1]

/-- Scenario "Flow join": the flows `F1{NodeTID a, ANodeTID a, BNodeTID b}` and
`F2{NodeTID a, BNodeTID c}` give the nodes `a, a, b, a, c`. -/
theorem Nodes_resolves_known_TIDs_witness :
    FlowTraversalStep.Nodes memory samplePackages (flowStepOn tidGraph [flowF1, flowF2]) [] =
      .ok { GraphTraversal := some { Graph := tidGraph },
            nodes := [n1, n1, n2, n1, n3],
            error := none } :=
  Nodes_resolves_known_TIDs memory samplePackages (flowStepOn tidGraph [flowF1, flowF2]) [] []
    { Graph := tidGraph } { Flows := [flowF1, flowF2] } rfl rfl (by decide) rfl rfl

/-- C19 fails as stated: on a graph holding a node whose `TID` is `*`, the flow
`{NodeTID a, ANodeTID *}` resolves, TID by TID, to the nodes `a` and `*`, but
`Nodes` returns `a` only: the TID `*` is not looked up. -/
theorem Nodes_skips_resolvable_TID :
    [flowUnknownA].flatMap (fun fl => resolveTIDs memory starGraph []
        [fl.NodeTID, fl.ANodeTID, fl.BNodeTID]) = [n1, starNode] ∧
    FlowTraversalStep.Nodes memory samplePackages (flowStepOn starGraph [flowUnknownA]) []
      = .ok { GraphTraversal := some { Graph := starGraph }, nodes := [n1] } := by
  decide

/-! ### C20 -/

/-- C20: `CaptureNode` and `Hops` return the same result, node list and error,
for every flow step (with or without a carried error, panics included) and
every parameter list. -/
theorem CaptureNode_eq_Hops {σ : Type} (B : GraphBackend σ) (D : Packages)
    (f : FlowTraversalStep σ) (s : List Value) :
    FlowTraversalStep.CaptureNode B D f s = FlowTraversalStep.Hops B D f s := by
  unfold FlowTraversalStep.CaptureNode FlowTraversalStep.Hops
  rfl

/-! ### C12 and C13 -/

theorem paramsToFilterLoop_cons (D : Packages) (p q : Value) (rest : List Value)
    (acc : List Filter) :
    paramsToFilterLoop D (p :: q :: rest) acc =
      match pairFilter D p q with
      | .error err => .error err
      | .ok f => paramsToFilterLoop D rest (acc ++ [f]) := by
  cases p <;> cases q <;> simp only [paramsToFilterLoop, pairFilter]
  split <;> rfl

theorem flat_length (kvs : List (Value × Value)) :
    (kvs.flatMap (fun p => [p.1, p.2])).length = 2 * kvs.length := by
  induction kvs with
  | nil => rfl
  | cons p kvs ih => simp [List.flatMap_cons, ih]; omega

theorem even_list_is_pairs : ∀ (n : Nat) (params : List Value), params.length = 2 * n →
      ∃ kvs : List (Value × Value), params = kvs.flatMap (fun p => [p.1, p.2]) ∧
        kvs.length = n := by
  intro n
  induction n with
  | zero =>
    intro params h
    have : params = [] := List.length_eq_zero.mp (by simpa using h)
    exact ⟨[], by simp [this], rfl⟩
  | succ n ih =>
    intro params h
    match params, h with
    | a :: b :: rest, h =>
      obtain ⟨kvs, hk, hl⟩ := ih rest (by simp at h; omega)
      exact ⟨(a, b) :: kvs, by simp [List.flatMap_cons, hk], by simp [hl]⟩
    | [], h => simp at h
    | [_], h => simp at h; omega

/-- The loop over a list of pairs all of which translate. -/
theorem paramsToFilterLoop_ok (D : Packages) (kvs : List (Value × Value)) :
    ∀ (acc ops : List Filter), List.Forall₂ (fun p f => pairFilter D p.1 p.2 = .ok f) kvs ops →
      paramsToFilterLoop D (kvs.flatMap (fun p => [p.1, p.2])) acc = .ok (acc ++ ops) := by
  induction kvs with
  | nil =>
    intro acc ops h
    cases h
    simp [paramsToFilterLoop]
  | cons p kvs ih =>
    intro acc ops h
    cases h with
    | cons hp hrest =>
      rename_i f ops'
      simp only [List.flatMap_cons, List.cons_append, List.nil_append]
      rw [paramsToFilterLoop_cons, hp]
      simp only []
      rw [ih _ _ hrest]
      simp

/-- The loop over a list of pairs one of which does not translate. -/
theorem paramsToFilterLoop_error (D : Packages) (kvs : List (Value × Value)) :
    ∀ (acc : List Filter), (∃ p ∈ kvs, ∃ e, pairFilter D p.1 p.2 = .error e) →
      ∃ p ∈ kvs, ∃ e, pairFilter D p.1 p.2 = .error e ∧
        paramsToFilterLoop D (kvs.flatMap (fun p => [p.1, p.2])) acc = .error e := by
  induction kvs with
  | nil => intro acc h; obtain ⟨p, hp, _⟩ := h; cases hp
  | cons p kvs ih =>
    intro acc h
    simp only [List.flatMap_cons, List.cons_append, List.nil_append]
    rw [paramsToFilterLoop_cons]
    cases hp : pairFilter D p.1 p.2 with
    | error e => exact ⟨p, List.mem_cons_self _ _, e, hp, rfl⟩
    | ok f =>
      simp only []
      have h' : ∃ p' ∈ kvs, ∃ e, pairFilter D p'.1 p'.2 = .error e := by
        obtain ⟨p', hp', e, he⟩ := h
        rcases List.mem_cons.mp hp' with heq | hmem
        · subst heq; rw [hp] at he; cases he
        · exact ⟨p', hmem, e, he⟩
      obtain ⟨p', hp', e, he, hl⟩ := ih (acc ++ [f]) h'
      exact ⟨p', List.mem_cons_of_mem _ hp', e, he, hl⟩

/-- Every pair translates or some pair does not. -/
theorem pairs_translate_or_not (D : Packages) (kvs : List (Value × Value)) :
    (∃ ops, List.Forall₂ (fun p f => pairFilter D p.1 p.2 = .ok f) kvs ops) ∨
    (∃ p ∈ kvs, ∃ e, pairFilter D p.1 p.2 = .error e) := by
  induction kvs with
  | nil => exact Or.inl ⟨[], List.Forall₂.nil⟩
  | cons p kvs ih =>
    cases hp : pairFilter D p.1 p.2 with
    | error e => exact Or.inr ⟨p, List.mem_cons_self _ _, e, hp⟩
    | ok f =>
      rcases ih with ⟨ops, h⟩ | ⟨p', hp', e, he⟩
      · exact Or.inl ⟨f :: ops, List.Forall₂.cons hp h⟩
      · exact Or.inr ⟨p', List.mem_cons_of_mem _ hp', e, he⟩

/-- Function `paramsToFilter` on a non-empty list of pairs. -/
theorem paramsToFilter_flat (D : Packages) (kvs : List (Value × Value)) (hne : kvs ≠ []) :
    paramsToFilter D (kvs.flatMap (fun p => [p.1, p.2])) =
      match paramsToFilterLoop D (kvs.flatMap (fun p => [p.1, p.2])) [] with
      | .error err => .error err
      | .ok andFilters => .ok (Filter.And andFilters) := by
  have hl := flat_length kvs
  have hpos : 0 < kvs.length := List.length_pos.mpr hne
  unfold paramsToFilter
  rw [if_neg (by omega), if_neg (by omega)]

theorem forall₂_imp_mem {α β : Type} {R S : α → β → Prop} {l : List α} {l1 : List β}
    (h : List.Forall₂ R l l1) : (∀ a b, a ∈ l → R a b → S a b) → List.Forall₂ S l l1 := by
  induction h with
  | nil => intro _; exact List.Forall₂.nil
  | cons hab _ ih =>
    intro himp
    exact List.Forall₂.cons (himp _ _ (List.mem_cons_self _ _) hab)
      (ih (fun a b ha hr => himp a b (List.mem_cons_of_mem _ ha) hr))

theorem pairFilter_key_not_string (D : Packages) (p q : Value) (h : ∀ k, p ≠ .str k) :
    pairFilter D p q = .error (.text "keys should be of string type") := by
  cases p with
  | str k => exact absurd rfl (h k)
  | _ => rfl

theorem pairFilter_expanded (D : Packages) (k v : String)
    (h : k = "Network" ∨ k = "Link" ∨ k = "Transport") :
    pairFilter D (.str k) (.str v) =
      .ok (Filter.Or [Filter.TermString (k ++ ".A") v, Filter.TermString (k ++ ".B") v]) := by
  simp [pairFilter, h]

theorem pairFilter_generic (D : Packages) (k : String) (q : Value)
    (h : ¬ ((∃ v, q = .str v) ∧ (k = "Network" ∨ k = "Link" ∨ k = "Transport"))) :
    pairFilter D (.str k) q = D.ParamToFilter k q := by
  cases q with
  | str v =>
    have h2 : ¬ (k = "Network" ∨ k = "Link" ∨ k = "Transport") := fun hk => h ⟨⟨v, rfl⟩, hk⟩
    simp only [pairFilter, if_neg h2]
  | _ => rfl

/-- An error of one iteration is the key error or an error of the generic
translation. -/
theorem pairFilter_error (D : Packages) (p q : Value) (e : Error)
    (h : pairFilter D p q = .error e) :
    ((∀ k, p ≠ .str k) ∧ e = .text "keys should be of string type") ∨
    (∃ k, p = .str k ∧ D.ParamToFilter k q = .error e) := by
  cases p with
  | str k =>
    right
    refine ⟨k, rfl, ?_⟩
    by_cases hx : (∃ v, q = .str v) ∧ (k = "Network" ∨ k = "Link" ∨ k = "Transport")
    · obtain ⟨⟨v, hv⟩, hk⟩ := hx
      subst hv
      rw [pairFilter_expanded D k v hk] at h
      cases h
    · rw [pairFilter_generic D k q hx] at h
      exact h
  | int i =>
    left
    refine ⟨fun k hk => (by cases hk), ?_⟩
    simp only [pairFilter, Except.error.injEq] at h
    exact h.symm
  | bool b =>
    left
    refine ⟨fun k hk => (by cases hk), ?_⟩
    simp only [pairFilter, Except.error.injEq] at h
    exact h.symm
  | int64 i =>
    left
    refine ⟨fun k hk => (by cases hk), ?_⟩
    simp only [pairFilter, Except.error.injEq] at h
    exact h.symm
  | float64 b =>
    left
    refine ⟨fun k hk => (by cases hk), ?_⟩
    simp only [pairFilter, Except.error.injEq] at h
    exact h.symm
  | uncomparable t c =>
    left
    refine ⟨fun k hk => (by cases hk), ?_⟩
    simp only [pairFilter, Except.error.injEq] at h
    exact h.symm

/-- C12, as the code has it: a pair `(k, v)` with a string value is expanded to
`(k.A == v OR k.B == v)` when `k` is exactly `Network`, `Link` or `Transport`,
and the filter is then satisfied by exactly the flows whose `k.A` or `k.B`
equals `v`; every other key, dotted keys such as `Network.A` included, goes
through the generic `ParamToFilter` translation. -/
theorem paramsToFilter_expands_exact_keys (D : Packages) (k v : String) :
    ((k = "Network" ∨ k = "Link" ∨ k = "Transport") →
      paramsToFilter D [.str k, .str v] =
        .ok (.And [.Or [.TermString (k ++ ".A") v, .TermString (k ++ ".B") v]]) ∧
      ∀ fl : Flow,
        (Filter.And [.Or [.TermString (k ++ ".A") v, .TermString (k ++ ".B") v]]).Eval fl = true ↔
          (fl.GetFieldString (k ++ ".A") = .ok v ∨ fl.GetFieldString (k ++ ".B") = .ok v)) ∧
    (¬ (k = "Network" ∨ k = "Link" ∨ k = "Transport") →
      paramsToFilter D [.str k, .str v] =
        match D.ParamToFilter k (.str v) with
        | .ok f => .ok (.And [f])
        | .error err => .error err) := by
  constructor
  · intro h
    constructor
    · have := paramsToFilter_flat D [(Value.str k, Value.str v)] (by simp)
      simp only [List.flatMap_cons, List.flatMap_nil, List.append_nil] at this
      rw [this, paramsToFilterLoop_cons, pairFilter_expanded D k v h]
      simp [paramsToFilterLoop]
    · intro fl
      simp [Filter.Eval, Filter.EvalAll, Filter.EvalAny]
  · intro h
    have := paramsToFilter_flat D [(Value.str k, Value.str v)] (by simp)
    simp only [List.flatMap_cons, List.flatMap_nil, List.append_nil] at this
    rw [this, paramsToFilterLoop_cons, pairFilter_generic D k (.str v) (fun hx => h hx.2)]
    cases D.ParamToFilter k (.str v) <;> simp [paramsToFilterLoop]

/-- The key `Network` is expanded, the key `Network.A` is not. -/
theorem paramsToFilter_expands_exact_keys_witness :
    (paramsToFilter samplePackages [.str "Network", .str "10.0.0.1"] =
        .ok (.And [.Or [.TermString ("Network" ++ ".A") "10.0.0.1",
                        .TermString ("Network" ++ ".B") "10.0.0.1"]]) ∧
      ∀ fl : Flow,
        (Filter.And [.Or [.TermString ("Network" ++ ".A") "10.0.0.1",
                          .TermString ("Network" ++ ".B") "10.0.0.1"]]).Eval fl = true ↔
          (fl.GetFieldString ("Network" ++ ".A") = .ok "10.0.0.1" ∨
            fl.GetFieldString ("Network" ++ ".B") = .ok "10.0.0.1")) ∧
    paramsToFilter samplePackages [.str "Network.A", .str "10.0.0.1"] =
      (match samplePackages.ParamToFilter "Network.A" (.str "10.0.0.1") with
        | .ok f => .ok (.And [f])
        | .error err => .error err) :=
  ⟨(paramsToFilter_expands_exact_keys samplePackages "Network" "10.0.0.1").1 (by decide),
   (paramsToFilter_expands_exact_keys samplePackages "Network.A" "10.0.0.1").2 (by decide)⟩

/-- C12 fails as stated: the first segment of the key `Network.A` is
`Network`, yet `Has('Network.A', '10.0.0.1')` is not expanded; with the term
translation its filter is `Network.A == 10.0.0.1` alone, which a flow whose
`Network.B` is `10.0.0.1` does not satisfy. -/
theorem Has_dotted_key_not_expanded :
    paramsToFilter samplePackages [.str "Network.A", .str "10.0.0.1"]
      = .ok (.And [.TermString "Network.A" "10.0.0.1"]) ∧
    paramsToFilter samplePackages [.str "Network.A", .str "10.0.0.1"]
      ≠ .ok (.And [.Or [.TermString "Network.A" "10.0.0.1", .TermString "Network.B" "10.0.0.1"]]) ∧
    flowToOne.GetFieldString "Network.B" = .ok "10.0.0.1" ∧
    (Filter.And [.TermString "Network.A" "10.0.0.1"]).Eval flowToOne = false := by
  decide

/-- C13: `paramsToFilter` returns an error, and no filter, when fewer than two
parameters are given, when their number is odd, or when the key of some pair
is not a string; every list of even length is a list of pairs; for a non-empty
list of pairs whose keys are all strings and whose pairs sent to the generic
translation are accepted by it, the result is an `And` filter with one operand
per pair, in order: the expansion for an exact layer key with a string value,
the generic translation otherwise; and any error returned is one of its three
own messages or an error of the generic translation. -/
theorem paramsToFilter_rejects_malformed (D : Packages) (params : List Value)
    (kvs : List (Value × Value)) :
    (params.length < 2 →
      paramsToFilter D params = .error (.text "At least two parameters must be provided")) ∧
    (2 ≤ params.length → params.length % 2 ≠ 0 →
      paramsToFilter D params = .error (.text "slice must be defined by pair k,v: ")) ∧
    (params.length % 2 = 0 →
      ∃ kvs1 : List (Value × Value), params = kvs1.flatMap (fun p => [p.1, p.2]) ∧
        kvs1.length = params.length / 2) ∧
    ((∃ p ∈ kvs, ∀ k, p.1 ≠ .str k) →
      ∃ e, paramsToFilter D (kvs.flatMap (fun p => [p.1, p.2])) = .error e) ∧
    (kvs ≠ [] → (∀ p ∈ kvs, ∃ k, p.1 = .str k) →
      (∀ p ∈ kvs, ∀ k, p.1 = .str k →
        ¬ ((∃ v, p.2 = .str v) ∧ (k = "Network" ∨ k = "Link" ∨ k = "Transport")) →
        ∃ f, D.ParamToFilter k p.2 = .ok f) →
      ∃ ops, paramsToFilter D (kvs.flatMap (fun p => [p.1, p.2])) = .ok (.And ops) ∧
        ops.length = kvs.length ∧
        List.Forall₂ (fun p f => ∃ k, p.1 = .str k ∧
          ((∃ v, p.2 = .str v ∧ (k = "Network" ∨ k = "Link" ∨ k = "Transport") ∧
              f = .Or [.TermString (k ++ ".A") v, .TermString (k ++ ".B") v]) ∨
           (¬ ((∃ v, p.2 = .str v) ∧ (k = "Network" ∨ k = "Link" ∨ k = "Transport")) ∧
              D.ParamToFilter k p.2 = .ok f))) kvs ops) ∧
    (∀ e, paramsToFilter D params = .error e →
      e = .text "At least two parameters must be provided" ∨
      e = .text "slice must be defined by pair k,v: " ∨
      e = .text "keys should be of string type" ∨
      ∃ k q, D.ParamToFilter k q = .error e) := by
  refine ⟨?_, ?_, ?_, ?_, ?_, ?_⟩
  · intro h
    simp [paramsToFilter, h]
  · intro h2 hodd
    unfold paramsToFilter
    rw [if_neg (by omega), if_pos hodd]
  · intro heven
    obtain ⟨kvs1, h1, h2⟩ := even_list_is_pairs (params.length / 2) params (by omega)
    exact ⟨kvs1, h1, h2⟩
  · rintro ⟨p, hp, hkey⟩
    have hne : kvs ≠ [] := fun h => by rw [h] at hp; cases hp
    obtain ⟨p1, -, e, -, hl⟩ := paramsToFilterLoop_error D kvs []
      ⟨p, hp, _, pairFilter_key_not_string D p.1 p.2 hkey⟩
    exact ⟨e, by rw [paramsToFilter_flat D kvs hne, hl]⟩
  · intro hne hkeys hgen
    rcases pairs_translate_or_not D kvs with ⟨ops, hops⟩ | ⟨p, hp, e, he⟩
    · refine ⟨ops, ?_, hops.length_eq.symm, ?_⟩
      · rw [paramsToFilter_flat D kvs hne, paramsToFilterLoop_ok D kvs [] ops hops]
        simp
      · refine forall₂_imp_mem hops ?_
        intro p f hp hpf
        obtain ⟨k, hk⟩ := hkeys p hp
        refine ⟨k, hk, ?_⟩
        rw [hk] at hpf
        by_cases hx : (∃ v, p.2 = .str v) ∧ (k = "Network" ∨ k = "Link" ∨ k = "Transport")
        · obtain ⟨⟨v, hv⟩, hsp⟩ := hx
          left
          rw [hv, pairFilter_expanded D k v hsp] at hpf
          exact ⟨v, hv, hsp, (Except.ok.inj hpf).symm⟩
        · right
          rw [pairFilter_generic D k p.2 hx] at hpf
          exact ⟨hx, hpf⟩
    · exfalso
      rcases pairFilter_error D p.1 p.2 e he with ⟨hkey, -⟩ | ⟨k, hk, herr⟩
      · obtain ⟨k, hk⟩ := hkeys p hp
        exact hkey k hk
      · by_cases hx : (∃ v, p.2 = .str v) ∧ (k = "Network" ∨ k = "Link" ∨ k = "Transport")
        · obtain ⟨⟨v, hv⟩, hsp⟩ := hx
          rw [hk, hv, pairFilter_expanded D k v hsp] at he
          cases he
        · obtain ⟨f, hf⟩ := hgen p hp k hk hx
          rw [hf] at herr
          cases herr
  · intro e he
    by_cases h2 : params.length < 2
    · left
      simp only [paramsToFilter, h2, if_true, Except.error.injEq] at he
      exact he.symm
    · by_cases hodd : params.length % 2 ≠ 0
      · right; left
        unfold paramsToFilter at he
        rw [if_neg h2, if_pos hodd] at he
        exact (Except.error.inj he).symm
      · right; right
        obtain ⟨kvs1, h1, hlen⟩ := even_list_is_pairs (params.length / 2) params (by omega)
        have hne : kvs1 ≠ [] := by
          intro h
          rw [h] at hlen
          simp at hlen
          omega
        rw [h1, paramsToFilter_flat D kvs1 hne] at he
        rcases pairs_translate_or_not D kvs1 with ⟨ops, hops⟩ | hbad
        · rw [paramsToFilterLoop_ok D kvs1 [] ops hops] at he
          cases he
        · obtain ⟨p, -, e1, he1, hl⟩ := paramsToFilterLoop_error D kvs1 [] hbad
          rw [hl] at he
          have : e1 = e := Except.error.inj he
          subst this
          rcases pairFilter_error D p.1 p.2 e1 he1 with ⟨-, ht⟩ | ⟨k, -, herr⟩
          · exact Or.inl ht
          · exact Or.inr ⟨k, p.2, herr⟩

/-- One parameter, three parameters, a key that is not a string, and two
well-formed pairs. -/
theorem paramsToFilter_rejects_malformed_witness :
    paramsToFilter samplePackages [.str "UUID"]
      = .error (.text "At least two parameters must be provided") ∧
    paramsToFilter samplePackages [.str "UUID", .str "u", .str "x"]
      = .error (.text "slice must be defined by pair k,v: ") ∧
    (∃ e, paramsToFilter samplePackages
      ([(Value.int 1, Value.str "u")].flatMap (fun p => [p.1, p.2])) = .error e) ∧
    (∃ ops, paramsToFilter samplePackages
        ([(Value.str "Network", Value.str "10.0.0.1"), (Value.str "UUID", Value.str "u")].flatMap
          (fun p => [p.1, p.2])) = .ok (.And ops) ∧
      ops.length = [(Value.str "Network", Value.str "10.0.0.1"),
        (Value.str "UUID", Value.str "u")].length ∧
      List.Forall₂ (fun p f => ∃ k, p.1 = .str k ∧
        ((∃ v, p.2 = .str v ∧ (k = "Network" ∨ k = "Link" ∨ k = "Transport") ∧
            f = .Or [.TermString (k ++ ".A") v, .TermString (k ++ ".B") v]) ∨
         (¬ ((∃ v, p.2 = .str v) ∧ (k = "Network" ∨ k = "Link" ∨ k = "Transport")) ∧
            samplePackages.ParamToFilter k p.2 = .ok f)))
        [(Value.str "Network", Value.str "10.0.0.1"), (Value.str "UUID", Value.str "u")] ops) :=
  ⟨(paramsToFilter_rejects_malformed samplePackages [.str "UUID"] []).1 (by decide),
   (paramsToFilter_rejects_malformed samplePackages [.str "UUID", .str "u", .str "x"] []).2.1
      (by decide) (by decide),
   (paramsToFilter_rejects_malformed samplePackages [] [(Value.int 1, Value.str "u")]).2.2.2.1
      ⟨(Value.int 1, Value.str "u"), List.mem_singleton_self _, fun k h => by cases h⟩,
   (paramsToFilter_rejects_malformed samplePackages []
      [(Value.str "Network", Value.str "10.0.0.1"), (Value.str "UUID", Value.str "u")]).2.2.2.2.1
      (by decide)
      (by
        intro p hp
        simp only [List.mem_cons, List.mem_singleton, List.not_mem_nil, or_false] at hp
        rcases hp with h | h <;> subst h <;> exact ⟨_, rfl⟩)
      (by
        intro p hp k hk _
        simp only [List.mem_cons, List.mem_singleton, List.not_mem_nil, or_false] at hp
        rcases hp with h | h <;> subst h <;> exact ⟨_, rfl⟩)⟩

/-! ### C14 -/

theorem wrapInt64_of_range (x : Int) (h1 : -2 ^ 63 ≤ x) (h2 : x < 2 ^ 63) : wrapInt64 x = x := by
  unfold wrapInt64
  omega

/-- A flow is active in a range exactly when it started by the end of the
range and lasted until its beginning. -/
theorem ActiveIn_eval (r : Range) (fl : Flow) :
    (Filter.ActiveIn r "").Eval fl = true ↔ fl.Start ≤ r.To ∧ r.From ≤ fl.Last := by
  have h1 : fl.GetFieldInt64 ("" ++ "Start") = .ok fl.Start := by
    simp [Flow.GetFieldInt64]
  have h2 : fl.GetFieldInt64 ("" ++ "Last") = .ok fl.Last := by
    simp [Flow.GetFieldInt64]
  simp only [Filter.Eval, h1, h2, Bool.and_eq_true, decide_eq_true_eq]

/-- C14, as the code has it: `addTimeFilter` replaces the filter of the query
by `AND(previous filter, ActiveIn(range, ""))` and changes nothing else, where
the range is `From = s - 1000 * e` (the configured `flow.expire` is multiplied
by 1000), `To = l`, as long as these `int64` operations do not overflow; every
flow satisfying the new filter then has `Last >= s - 1000 * e` and
`Start <= l`. -/
theorem addTimeFilter_widens_by_expire_ms (D : Packages) (fsq : SearchQuery) (ts : TimeSlice)
    (hmul : -2 ^ 63 ≤ D.flowExpire * 1000 ∧ D.flowExpire * 1000 < 2 ^ 63)
    (hsub : -2 ^ 63 ≤ ts.Start - D.flowExpire * 1000 ∧ ts.Start - D.flowExpire * 1000 < 2 ^ 63) :
    FlowGremlinTraversalStep.addTimeFilter D fsq ts =
      { fsq with Filter := .And [fsq.Filter,
          .ActiveIn { From := ts.Start - 1000 * D.flowExpire, To := ts.Last } ""] } ∧
    ∀ fl : Flow, (FlowGremlinTraversalStep.addTimeFilter D fsq ts).Filter.Eval fl = true →
      fl.Last ≥ ts.Start - 1000 * D.flowExpire ∧ fl.Start ≤ ts.Last := by
  have hfrom : wrapInt64 (ts.Start - wrapInt64 (D.flowExpire * 1000))
      = ts.Start - 1000 * D.flowExpire := by
    rw [wrapInt64_of_range _ hmul.1 hmul.2, wrapInt64_of_range _ hsub.1 hsub.2]
    ring
  have heq : FlowGremlinTraversalStep.addTimeFilter D fsq ts =
      { fsq with Filter := .And [fsq.Filter,
          .ActiveIn { From := ts.Start - 1000 * D.flowExpire, To := ts.Last } ""] } := by
    unfold FlowGremlinTraversalStep.addTimeFilter
    simp only [hfrom]
  refine ⟨heq, ?_⟩
  intro fl hfl
  rw [heq] at hfl
  have hand : ∀ a b : Filter, (Filter.And [a, b]).Eval fl = (a.Eval fl && b.Eval fl) := by
    intro a b
    simp only [Filter.Eval, Filter.EvalAll, Bool.and_true]
  simp only [hand, Bool.and_eq_true] at hfl
  have := (ActiveIn_eval _ fl).mp hfl.2
  exact ⟨this.2, this.1⟩

/-- The slice `[1000, 2000]` with `flow.expire = 30000` gives the range from
`1000 - 30000000` to `2000`. -/
theorem addTimeFilter_widens_by_expire_ms_witness :
    FlowGremlinTraversalStep.addTimeFilter samplePackages {} { Start := 1000, Last := 2000 } =
      { ({} : SearchQuery) with Filter := .And [({} : SearchQuery).Filter,
          .ActiveIn { From := (1000 : Int) - 1000 * samplePackages.flowExpire,
                      To := 2000 } ""] } ∧
    ∀ fl : Flow,
      (FlowGremlinTraversalStep.addTimeFilter samplePackages {}
        { Start := 1000, Last := 2000 }).Filter.Eval fl = true →
      fl.Last ≥ (1000 : Int) - 1000 * samplePackages.flowExpire ∧ fl.Start ≤ 2000 :=
  addTimeFilter_widens_by_expire_ms samplePackages {} { Start := 1000, Last := 2000 }
    (by decide) (by decide)

/-- C14 fails as stated: for the slice `[1000, 2000]` and `flow.expire = 30000`
the range starts at `1000 - 30000000`, not at `1000 - 30000`; and for the slice
`[100000000, 100001000]` with `flow.expire = 600` a flow that ended at
`99500000` satisfies the filter although `99500000 < 100000000 - 600`. -/
theorem addTimeFilter_not_slice_minus_expire :
    (FlowGremlinTraversalStep.addTimeFilter samplePackages {} { Start := 1000, Last := 2000 }).Filter
      = .And [.nil, .ActiveIn { From := -29999000, To := 2000 } ""] ∧
    (FlowGremlinTraversalStep.addTimeFilter samplePackages {} { Start := 1000, Last := 2000 }).Filter
      ≠ .And [.nil, .ActiveIn { From := 1000 - 30000, To := 2000 } ""] ∧
    (FlowGremlinTraversalStep.addTimeFilter packagesExpire600 {}
      { Start := 100000000, Last := 100001000 }).Filter.Eval flowOld = true ∧
    ¬ (flowOld.Last ≥ 100000000 - packagesExpire600.flowExpire) := by
  decide

/-! ### C15 -/

theorem captureAllowedNodes_length {D : Packages} {nodes : List Node} :
    (captureAllowedNodes D nodes).length = 0 ↔ captureAllowedNodes D nodes = [] :=
  List.length_eq_zero

/-- C15, as the code has it: for a `Flows` step without storage adapter, an
error of `makeSearchQuery` is returned first; otherwise, when the context
carries a time slice, `Exec` fails with `NoStorageConfigured`, sending no
request, if the upstream step is a graph traversal, or a vertex collection or
shortest path with at least one capture-allowed node; when the vertex
collection or shortest path has no capture-allowed node, `Exec` returns a flow
step with an empty flow set and no error. -/
theorem Exec_without_storage {σ : Type} (D : Packages) (s : FlowGremlinTraversalStep)
    (hst : s.Storage = none) :
    (∀ e (last : GraphTraversalStep σ), FlowGremlinTraversalStep.makeSearchQuery D s = .error e →
      FlowGremlinTraversalStep.Exec D s last = .ok (.error e, [])) ∧
    (∀ q, FlowGremlinTraversalStep.makeSearchQuery D s = .ok q →
      (∀ (tv : GraphTraversal σ) ts, tv.TimeSlice = some ts →
        FlowGremlinTraversalStep.Exec D s (.GraphTraversal tv)
          = .ok (.error .NoStorageConfigured, [])) ∧
      (∀ (tv : GraphTraversalV σ) gt ts, tv.GraphTraversal = some gt → gt.TimeSlice = some ts →
        (captureAllowedNodes D tv.nodes ≠ [] →
          FlowGremlinTraversalStep.Exec D s (.GraphTraversalV tv)
            = .ok (.error .NoStorageConfigured, [])) ∧
        (captureAllowedNodes D tv.nodes = [] →
          ∃ st, FlowGremlinTraversalStep.Exec D s (.GraphTraversalV tv) = .ok (.ok st, []) ∧
            st.flowset = some {} ∧ st.error = none ∧ st.flowSearchQuery = q)) ∧
      (∀ (tv : GraphTraversalShortestPath σ) gt ts, tv.GraphTraversal = some gt →
        gt.TimeSlice = some ts →
        (captureAllowedNodes D tv.nodes ≠ [] →
          FlowGremlinTraversalStep.Exec D s (.GraphTraversalShortestPath tv)
            = .ok (.error .NoStorageConfigured, [])) ∧
        (captureAllowedNodes D tv.nodes = [] →
          ∃ st, FlowGremlinTraversalStep.Exec D s (.GraphTraversalShortestPath tv)
              = .ok (.ok st, []) ∧
            st.flowset = some {} ∧ st.error = none ∧ st.flowSearchQuery = q))) := by
  constructor
  · intro e last he
    simp [FlowGremlinTraversalStep.Exec, he]
  · intro q hq
    refine ⟨?_, ?_, ?_⟩
    · intro tv ts hts
      simp [FlowGremlinTraversalStep.Exec, hq, FlowGremlinTraversalStep.execRetrieve, hts, hst]
    · intro tv gt ts hgt hts
      constructor
      · intro hne
        have hl : (captureAllowedNodes D tv.nodes).length ≠ 0 := fun h => hne (List.length_eq_zero.mp h)
        simp [FlowGremlinTraversalStep.Exec, hq, FlowGremlinTraversalStep.execRetrieve, hts, hst,
          hgt, hl]
      · intro hnil
        refine ⟨(⟨some gt, s.Storage, some {}, q, none⟩ : FlowTraversalStep σ), ?_, rfl, rfl, rfl⟩
        simp [FlowGremlinTraversalStep.Exec, hq, hgt, hnil]
    · intro tv gt ts hgt hts
      constructor
      · intro hne
        have hl : (captureAllowedNodes D tv.nodes).length ≠ 0 := fun h => hne (List.length_eq_zero.mp h)
        simp [FlowGremlinTraversalStep.Exec, hq, FlowGremlinTraversalStep.execRetrieve, hts, hst,
          hgt, hl]
      · intro hnil
        refine ⟨(⟨some gt, s.Storage, some {}, q, none⟩ : FlowTraversalStep σ), ?_, rfl, rfl, rfl⟩
        simp [FlowGremlinTraversalStep.Exec, hq, hgt, hnil]

/-- Without storage, under the time slice `[1000, 2000]`: malformed `Has`
parameters, a graph traversal upstream, and a `veth` node upstream. -/
theorem Exec_without_storage_witness :
    FlowGremlinTraversalStep.Exec samplePackages stepBadParams
        (.GraphTraversal slicedTraversal)
      = .ok (.error (.text "At least two parameters must be provided"), []) ∧
    FlowGremlinTraversalStep.Exec samplePackages stepNoStorage
        (.GraphTraversal slicedTraversal)
      = .ok (.error .NoStorageConfigured, []) ∧
    FlowGremlinTraversalStep.Exec samplePackages stepNoStorage
        (.GraphTraversalV { GraphTraversal := some slicedTraversal, nodes := [vethNode] })
      = .ok (.error .NoStorageConfigured, []) :=
  ⟨(Exec_without_storage samplePackages stepBadParams rfl).1 _ _ rfl,
   ((Exec_without_storage samplePackages stepNoStorage rfl).2 _ rfl).1 slicedTraversal _ rfl,
   (((Exec_without_storage samplePackages stepNoStorage rfl).2 _ rfl).2.1
      { GraphTraversal := some slicedTraversal, nodes := [vethNode] } slicedTraversal _
      rfl rfl).1 (by decide)⟩

/-- C15 fails as stated: with a time slice and no storage adapter, an upstream
vertex collection without capture-allowed node (here `n1`, which has no
`Type`) makes `Exec` return a flow step with an empty flow set and no error,
not `NoStorageConfigured`. -/
theorem Exec_no_storage_no_capture_node :
    slicedTraversal.TimeSlice = some { Start := 1000, Last := 2000 } ∧
    stepNoStorage.Storage.isNone = true ∧
    (∃ st, FlowGremlinTraversalStep.Exec samplePackages stepNoStorage upstreamNoCapture
        = .ok (.ok st, []) ∧ st.flowset = some {} ∧ st.error = none) ∧
    FlowGremlinTraversalStep.Exec samplePackages stepNoStorage upstreamNoCapture
      ≠ .ok (.error .NoStorageConfigured, []) := by
  have h : FlowGremlinTraversalStep.Exec samplePackages stepNoStorage upstreamNoCapture
      = .ok (.ok (⟨some slicedTraversal, none, some {}, {}, none⟩ :
          FlowTraversalStep MemoryBackend), []) := by
    rfl
  refine ⟨rfl, rfl, ⟨_, h, rfl, rfl⟩, ?_⟩
  rw [h]
  intro hc
  cases hc

/-! ### C16 -/

/-- What `Exec` does once the type switch has produced the traversal `gt` and
the capture-allowed nodes `nodes`. -/
theorem Exec_reaches_retrieval {σ : Type} (D : Packages) (s : FlowGremlinTraversalStep)
    (q : SearchQuery) (last : GraphTraversalStep σ) (gt : GraphTraversal σ) (nodes : List Node)
    (hq : FlowGremlinTraversalStep.makeSearchQuery D s = .ok q)
    (hup : (last = .GraphTraversal gt ∧ nodes = []) ∨
      (∃ tv : GraphTraversalV σ, last = .GraphTraversalV tv ∧ tv.GraphTraversal = some gt ∧
        nodes = captureAllowedNodes D tv.nodes ∧ nodes ≠ []) ∨
      (∃ tv : GraphTraversalShortestPath σ, last = .GraphTraversalShortestPath tv ∧
        tv.GraphTraversal = some gt ∧ nodes = captureAllowedNodes D tv.nodes ∧ nodes ≠ [])) :
    FlowGremlinTraversalStep.Exec D s last =
      .ok (FlowGremlinTraversalStep.execRetrieve D s q gt nodes) := by
  rcases hup with ⟨hl, hn⟩ | ⟨tv, hl, hgt, hn, hne⟩ | ⟨tv, hl, hgt, hn, hne⟩
  · subst hl hn
    simp [FlowGremlinTraversalStep.Exec, hq]
  · subst hl
    have hlen : (captureAllowedNodes D tv.nodes).length ≠ 0 :=
      fun h => hne (by rw [hn]; exact List.length_eq_zero.mp h)
    simp [FlowGremlinTraversalStep.Exec, hq, hgt, hlen, hn]
  · subst hl
    have hlen : (captureAllowedNodes D tv.nodes).length ≠ 0 :=
      fun h => hne (by rw [hn]; exact List.length_eq_zero.mp h)
    simp [FlowGremlinTraversalStep.Exec, hq, hgt, hlen, hn]

/-- C16, as the code has it: `Reduce` on a `Metrics` step sets
`metricsNextStep`. When `makeSearchQuery` succeeds, the upstream step is a
graph traversal, or a vertex collection or shortest path with at least one
capture-allowed node, the context carries a time slice and a storage adapter is
configured, the query built is the search query with the time filter and, when
there are nodes, the node filter; with `metricsNextStep` set `Exec` sends no
request and returns a flow step without flow set carrying that query;
otherwise it sends exactly one request, `SearchFlows` with that query. -/
theorem Exec_time_slice_with_storage {σ : Type} (D : Packages) (s : FlowGremlinTraversalStep)
    (q built : SearchQuery) (storage : Storage) (last : GraphTraversalStep σ)
    (gt : GraphTraversal σ) (ts : TimeSlice) (nodes : List Node)
    (hq : FlowGremlinTraversalStep.makeSearchQuery D s = .ok q)
    (hst : s.Storage = some storage) (hts : gt.TimeSlice = some ts)
    (hup : (last = .GraphTraversal gt ∧ nodes = []) ∨
      (∃ tv : GraphTraversalV σ, last = .GraphTraversalV tv ∧ tv.GraphTraversal = some gt ∧
        nodes = captureAllowedNodes D tv.nodes ∧ nodes ≠ []) ∨
      (∃ tv : GraphTraversalShortestPath σ, last = .GraphTraversalShortestPath tv ∧
        tv.GraphTraversal = some gt ∧ nodes = captureAllowedNodes D tv.nodes ∧ nodes ≠ []))
    (hb : built = if nodes = [] then FlowGremlinTraversalStep.addTimeFilter D q ts
      else { FlowGremlinTraversalStep.addTimeFilter D q ts with
        Filter := .And [(FlowGremlinTraversalStep.addTimeFilter D q ts).Filter,
          D.NewFilterForNodes nodes] }) :
    (FlowGremlinTraversalStep.Reduce D s .Metrics).map (fun r => r.1.metricsNextStep)
      = some true ∧
    (s.metricsNextStep = true →
      FlowGremlinTraversalStep.Exec D s last =
        .ok (.ok (⟨some gt, some storage, none, built, none⟩ : FlowTraversalStep σ), [])) ∧
    (s.metricsNextStep = false →
      ∃ r, FlowGremlinTraversalStep.Exec D s last = .ok (r, [.SearchFlows built]) ∧
        ((∃ e, storage.SearchFlows built = .error e ∧ r = .error e) ∨
         (∃ fs st, storage.SearchFlows built = .ok fs ∧ r = .ok st ∧
            st.flowSearchQuery = built))) := by
  have hexec := Exec_reaches_retrieval D s q last gt nodes hq hup
  have hbuilt : (if nodes.length ≠ 0 then
        { FlowGremlinTraversalStep.addTimeFilter D q ts with
          Filter := .And [(FlowGremlinTraversalStep.addTimeFilter D q ts).Filter,
            D.NewFilterForNodes nodes] }
      else FlowGremlinTraversalStep.addTimeFilter D q ts) = built := by
    rw [hb]
    by_cases hn : nodes = []
    · simp [hn]
    · have : nodes.length ≠ 0 := fun h => hn (List.length_eq_zero.mp h)
      simp [hn, this]
  refine ⟨?_, ?_, ?_⟩
  · unfold FlowGremlinTraversalStep.Reduce
    simp only []
    split <;> rfl
  · intro hm
    rw [hexec]
    unfold FlowGremlinTraversalStep.execRetrieve
    simp only [hts, hst, hm, if_true, hbuilt]
  · intro hm
    rw [hexec]
    unfold FlowGremlinTraversalStep.execRetrieve
    simp only [hts, hst, hm, hbuilt]
    cases hs : storage.SearchFlows built with
    | error e => exact ⟨_, rfl, Or.inl ⟨e, rfl, rfl⟩⟩
    | ok fs => exact ⟨_, rfl, Or.inr ⟨fs, _, rfl, rfl, rfl⟩⟩

/-- Under the time slice `[1000, 2000]` with a storage adapter and a `veth`
node upstream: before a `Metrics` step no request is sent, otherwise one
`SearchFlows` request carries the time filter and the node filter. -/
theorem Exec_time_slice_with_storage_witness :
    (FlowGremlinTraversalStep.Reduce samplePackages stepWithStorage .Metrics).map
        (fun r => r.1.metricsNextStep) = some true ∧
    FlowGremlinTraversalStep.Exec samplePackages stepBeforeMetrics upstreamVeth =
      .ok (.ok (⟨some slicedTraversal, some emptyStorage, none, slicedVethQuery, none⟩ :
        FlowTraversalStep MemoryBackend), []) ∧
    (∃ r, FlowGremlinTraversalStep.Exec samplePackages stepWithStorage upstreamVeth
        = .ok (r, [.SearchFlows slicedVethQuery]) ∧
      ((∃ e, emptyStorage.SearchFlows slicedVethQuery = .error e ∧ r = .error e) ∨
       (∃ fs st, emptyStorage.SearchFlows slicedVethQuery = .ok fs ∧ r = .ok st ∧
          st.flowSearchQuery = slicedVethQuery))) :=
  ⟨(Exec_time_slice_with_storage samplePackages stepWithStorage {} slicedVethQuery emptyStorage
      upstreamVeth slicedTraversal { Start := 1000, Last := 2000 } [vethNode] rfl rfl rfl
      (Or.inr (Or.inl ⟨_, rfl, rfl, by decide, by decide⟩)) (by decide)).1,
   (Exec_time_slice_with_storage samplePackages stepBeforeMetrics {} slicedVethQuery emptyStorage
      upstreamVeth slicedTraversal { Start := 1000, Last := 2000 } [vethNode] rfl rfl rfl
      (Or.inr (Or.inl ⟨_, rfl, rfl, by decide, by decide⟩)) (by decide)).2.1 rfl,
   (Exec_time_slice_with_storage samplePackages stepWithStorage {} slicedVethQuery emptyStorage
      upstreamVeth slicedTraversal { Start := 1000, Last := 2000 } [vethNode] rfl rfl rfl
      (Or.inr (Or.inl ⟨_, rfl, rfl, by decide, by decide⟩)) (by decide)).2.2 rfl⟩

/-- C16 fails as stated: with a time slice, a storage adapter and
`metricsNextStep` set, an upstream vertex collection without capture-allowed
node makes `Exec` return a flow step that has a flow set (the empty one) and
whose query has no time filter; and when `metricsNextStep` is not set, `Exec`
returns on the same input without any `SearchFlows` request. -/
theorem Exec_with_storage_no_capture_node :
    (∃ st, FlowGremlinTraversalStep.Exec samplePackages stepBeforeMetrics upstreamNoCapture
        = .ok (.ok st, []) ∧ st.flowset = some {} ∧ st.flowSearchQuery.Filter = .nil) ∧
    (∃ st, FlowGremlinTraversalStep.Exec samplePackages stepWithStorage upstreamNoCapture
        = .ok (.ok st, []) ∧ st.flowset = some {}) :=
  ⟨⟨(⟨some slicedTraversal, some emptyStorage, some {}, {}, none⟩ :
      FlowTraversalStep MemoryBackend), rfl, rfl, rfl⟩,
   ⟨(⟨some slicedTraversal, some emptyStorage, some {}, {}, none⟩ :
      FlowTraversalStep MemoryBackend), rfl, rfl⟩⟩

/-! ### C17 -/


theorem makeSearchQuery_range (D : Packages) (s : FlowGremlinTraversalStep) (q : SearchQuery)
    (h : FlowGremlinTraversalStep.makeSearchQuery D s = .ok q) :
    q.PaginationRange = s.context.PaginationRange.map (fun r => ({ From := 0, To := r.2 } : Range)) := by
  unfold FlowGremlinTraversalStep.makeSearchQuery at h
  split at h
  · cases h
  · simp only [Except.ok.injEq] at h
    subst h
    cases s.context.PaginationRange <;> rfl

theorem execRetrieve_paginates {σ : Type} (D : Packages) (s : FlowGremlinTraversalStep)
    (q : SearchQuery) (gt : GraphTraversal σ) (nodes : List Node)
    (r : Except Error (FlowTraversalStep σ)) (calls : List FlowCall)
    (h : FlowGremlinTraversalStep.execRetrieve D s q gt nodes = (r, calls)) :
    (∀ c ∈ calls, c.query.PaginationRange = q.PaginationRange) ∧
    (∀ st c rest, r = .ok st → calls = c :: rest →
      rest = [] ∧ ∃ fs, c.answer s = .ok fs ∧
        st.flowset = some (match s.context.PaginationRange with
          | some p => fs.Slice p.1 p.2
          | none => fs)) := by
  unfold FlowGremlinTraversalStep.execRetrieve at h
  simp only [] at h
  split at h
  · split at h
    · simp only [Prod.mk.injEq] at h
      obtain ⟨h1, h2⟩ := h
      subst h1 h2
      simp
    · rename_i storage hst
      split at h
      · simp only [Prod.mk.injEq] at h
        obtain ⟨h1, h2⟩ := h
        subst h1 h2
        simp
      · split at h
        · simp only [Prod.mk.injEq] at h
          obtain ⟨h1, h2⟩ := h
          subst h1 h2
          constructor
          · intro c hc
            simp only [List.mem_singleton] at hc
            subst hc
            simp only [FlowCall.query]
            split <;> rfl
          · intro st c rest hr
            cases hr
        · rename_i fs hfs
          simp only [Prod.mk.injEq] at h
          obtain ⟨h1, h2⟩ := h
          subst h1 h2
          constructor
          · intro c hc
            simp only [List.mem_singleton] at hc
            subst hc
            simp only [FlowCall.query]
            split <;> rfl
          · intro st c rest hr hcalls
            simp only [List.cons.injEq] at hcalls
            obtain ⟨hc, hrest⟩ := hcalls
            subst hc
            refine ⟨hrest.symm, fs, ?_, ?_⟩
            · simp only [FlowCall.answer, hst]
              exact hfs
            · simp only [Except.ok.injEq] at hr
              subst hr
              rfl
  · split at h
    · split at h
      · simp only [Prod.mk.injEq] at h
        obtain ⟨h1, h2⟩ := h
        subst h1 h2
        exact ⟨fun c hc => (by simp only [List.mem_singleton] at hc; subst hc; rfl),
          fun st c rest hr => (by cases hr)⟩
      · rename_i fs hfs
        simp only [Prod.mk.injEq] at h
        obtain ⟨h1, h2⟩ := h
        subst h1 h2
        refine ⟨fun c hc => (by simp only [List.mem_singleton] at hc; subst hc; rfl), ?_⟩
        intro st c rest hr hcalls
        simp only [List.cons.injEq] at hcalls
        obtain ⟨hc, hrest⟩ := hcalls
        subst hc
        refine ⟨hrest.symm, fs, hfs, ?_⟩
        simp only [Except.ok.injEq] at hr
        subst hr
        rfl
    · split at h
      · simp only [Prod.mk.injEq] at h
        obtain ⟨h1, h2⟩ := h
        subst h1 h2
        exact ⟨fun c hc => (by simp only [List.mem_singleton] at hc; subst hc; rfl),
          fun st c rest hr => (by cases hr)⟩
      · rename_i fs hfs
        simp only [Prod.mk.injEq] at h
        obtain ⟨h1, h2⟩ := h
        subst h1 h2
        refine ⟨fun c hc => (by simp only [List.mem_singleton] at hc; subst hc; rfl), ?_⟩
        intro st c rest hr hcalls
        simp only [List.cons.injEq] at hcalls
        obtain ⟨hc, hrest⟩ := hcalls
        subst hc
        refine ⟨hrest.symm, fs, hfs, ?_⟩
        simp only [Except.ok.injEq] at hr
        subst hr
        rfl


theorem Slice_positions (fs : FlowSet) (lo hi : Int) (i : Nat) (hlo : 0 ≤ lo) :
    (fs.Slice lo hi).Flows[i]? = if lo + i < hi then fs.Flows[lo.toNat + i]? else none := by
  unfold FlowSet.Slice
  simp only [List.getElem?_drop, List.getElem?_take]
  have : (lo.toNat + i < hi.toNat) ↔ (lo + i < hi) := by omega
  by_cases h : lo + i < hi
  · rw [if_pos h, if_pos (this.mpr h)]
  · rw [if_neg h, if_neg (fun h2 => h (this.mp h2))]

theorem Exec_paginates {σ : Type} (D : Packages) (s : FlowGremlinTraversalStep)
    (last : GraphTraversalStep σ) (r : Except Error (FlowTraversalStep σ))
    (calls : List FlowCall)
    (h : FlowGremlinTraversalStep.Exec D s last = .ok (r, calls)) :
    (∀ c ∈ calls, c.query.PaginationRange =
      s.context.PaginationRange.map (fun p => ({ From := 0, To := p.2 } : Range))) ∧
    (∀ st c rest, r = .ok st → calls = c :: rest →
      rest = [] ∧ ∃ fs, c.answer s = .ok fs ∧
        st.flowset = some (match s.context.PaginationRange with
          | some p => fs.Slice p.1 p.2
          | none => fs)) := by
  have hnone : ∀ (x : Except Error (FlowTraversalStep σ)),
      (Run.ok (x, ([] : List FlowCall)) = Run.ok (r, calls)) →
      (∀ c ∈ calls, c.query.PaginationRange =
        s.context.PaginationRange.map (fun p => ({ From := 0, To := p.2 } : Range))) ∧
      (∀ st c rest, r = .ok st → calls = c :: rest →
        rest = [] ∧ ∃ fs, c.answer s = .ok fs ∧
          st.flowset = some (match s.context.PaginationRange with
            | some p => fs.Slice p.1 p.2
            | none => fs)) := by
    intro x hx
    simp only [Run.ok.injEq, Prod.mk.injEq] at hx
    obtain ⟨-, hc⟩ := hx
    subst hc
    exact ⟨fun c hc => (by cases hc), fun st c rest _ hcalls => (by cases hcalls)⟩
  unfold FlowGremlinTraversalStep.Exec at h
  split at h
  · exact hnone _ h
  · rename_i q hq
    have hrange := makeSearchQuery_range D s q hq
    have hret : ∀ gt nodes,
        Run.ok (FlowGremlinTraversalStep.execRetrieve D s q gt nodes) = Run.ok (r, calls) →
        (∀ c ∈ calls, c.query.PaginationRange =
          s.context.PaginationRange.map (fun p => ({ From := 0, To := p.2 } : Range))) ∧
        (∀ st c rest, r = .ok st → calls = c :: rest →
          rest = [] ∧ ∃ fs, c.answer s = .ok fs ∧
            st.flowset = some (match s.context.PaginationRange with
              | some p => fs.Slice p.1 p.2
              | none => fs)) := by
      intro gt nodes hx
      simp only [Run.ok.injEq] at hx
      have := execRetrieve_paginates D s q gt nodes r calls hx
      rw [hrange] at this
      exact this
    split at h
    · exact hret _ _ h
    · split at h
      · cases h
      · simp only [] at h
        split at h
        · exact hnone _ h
        · exact hret _ _ h
    · split at h
      · cases h
      · simp only [] at h
        split at h
        · exact hnone _ h
        · exact hret _ _ h
    · exact hnone _ h


/-- C17: the query built by `makeSearchQuery` carries the range `[0, to)` when
the step has the pagination range `[from, to)` and no range when it has none,
and so does every request `Exec` sends; when `Exec` returns a flow step after
a request, that request is the only one, it was answered with a flow set, and
the flow set of the step is that set cut by `Slice(from, to)`, or the set
itself without pagination range; and the flows of `Slice(from, to)` are those
at the positions `from` to `to - 1`. -/
theorem Exec_paginates_in_memory {σ : Type} (D : Packages) (s : FlowGremlinTraversalStep)
    (last : GraphTraversalStep σ) :
    (∀ q, FlowGremlinTraversalStep.makeSearchQuery D s = .ok q →
      q.PaginationRange =
        s.context.PaginationRange.map (fun p => ({ From := 0, To := p.2 } : Range))) ∧
    (∀ r calls, FlowGremlinTraversalStep.Exec D s last = .ok (r, calls) →
      (∀ c ∈ calls, c.query.PaginationRange =
        s.context.PaginationRange.map (fun p => ({ From := 0, To := p.2 } : Range))) ∧
      (∀ st c rest, r = .ok st → calls = c :: rest →
        rest = [] ∧ ∃ fs, c.answer s = .ok fs ∧
          st.flowset = some (match s.context.PaginationRange with
            | some p => fs.Slice p.1 p.2
            | none => fs))) ∧
    (∀ (fs : FlowSet) (lo hi : Int) (i : Nat), 0 ≤ lo →
      (fs.Slice lo hi).Flows[i]? = if lo + i < hi then fs.Flows[lo.toNat + i]? else none) :=
  ⟨makeSearchQuery_range D s, Exec_paginates D s last, Slice_positions⟩

/-- With the pagination range `[1, 3)` the request carries `[0, 3)` and, of the
four flows retrieved, the second and the third are returned. -/
theorem Exec_paginates_in_memory_witness :
    paginatedQuery.PaginationRange = some { From := 0, To := 3 } ∧
    (∀ c ∈ [FlowCall.LookupFlows paginatedQuery],
      c.query.PaginationRange = some { From := 0, To := 3 }) ∧
    (∃ fs, (FlowCall.LookupFlows paginatedQuery).answer stepPaginated = .ok fs ∧
      some ({ Flows := [flowF2, flowUnknownA] } : FlowSet) = some (fs.Slice 1 3)) ∧
    (({ Flows := [flowF1, flowF2, flowUnknownA, flowToOne] } : FlowSet).Slice 1 3).Flows[0]?
      = some flowF2 :=
  ⟨(Exec_paginates_in_memory samplePackages stepPaginated
      (.GraphTraversal { Graph := tidGraph })).1 paginatedQuery rfl,
   ((Exec_paginates_in_memory samplePackages stepPaginated
      (.GraphTraversal { Graph := tidGraph })).2.1
      (.ok (⟨some { Graph := tidGraph }, none, some { Flows := [flowF2, flowUnknownA] },
        paginatedQuery, none⟩ : FlowTraversalStep MemoryBackend))
      [.LookupFlows paginatedQuery] rfl).1,
   (((Exec_paginates_in_memory samplePackages stepPaginated
      (.GraphTraversal { Graph := tidGraph })).2.1
      (.ok (⟨some { Graph := tidGraph }, none, some { Flows := [flowF2, flowUnknownA] },
        paginatedQuery, none⟩ : FlowTraversalStep MemoryBackend))
      [.LookupFlows paginatedQuery] rfl).2 _ _ [] rfl rfl).2,
   (Exec_paginates_in_memory samplePackages stepPaginated
      (.GraphTraversal { Graph := tidGraph })).2.2
      { Flows := [flowF1, flowF2, flowUnknownA, flowToOne] } 1 3 0 (by decide)⟩

/-! ### C21 -/

/-- C21: a flow step that carries an error `e` short-circuits every step. `Has`,
`Dedup` and `Sort` return the receiver itself, whose `Error()` is `e`; `Out`,
`In`, `Both`, `Nodes`, `Hops`, `CaptureNode`, `Count`, `Sum`, `PropertyValues`,
`PropertyKeys` and `Metrics` return a result that carries `e`. None of the
results depends on the flow set of the receiver, and the step returned by
`Has`, `Dedup` and `Sort` holds the flow set it held. -/
theorem error_short_circuits_steps {σ : Type} (B : GraphBackend σ) (D : Packages)
    (P : FlowPackage) (f : FlowTraversalStep σ) (e : Error) (s : List Value)
    (h : f.error = some e) :
    (f.Has D s = .ok f ∧ f.Dedup P s = .ok f ∧ f.Sort_ D P s = .ok f ∧ f.Error = some e) ∧
    (f.Out B D s = .ok { GraphTraversal := f.GraphTraversal, nodes := [], error := some e } ∧
     f.In B D s = .ok { GraphTraversal := f.GraphTraversal, nodes := [], error := some e } ∧
     f.Both B D s = .ok { GraphTraversal := f.GraphTraversal, nodes := [], error := some e } ∧
     f.Nodes B D s = .ok { GraphTraversal := f.GraphTraversal, nodes := [], error := some e } ∧
     f.Hops B D s = .ok { GraphTraversal := f.GraphTraversal, nodes := [], error := some e } ∧
     f.CaptureNode B D s =
       .ok { GraphTraversal := f.GraphTraversal, nodes := [], error := some e }) ∧
    (f.Count s = .ok { GraphTraversal := f.GraphTraversal, value := .int 0, error := some e } ∧
     f.Sum s = .ok { GraphTraversal := f.GraphTraversal, value := .nil, error := some e } ∧
     f.PropertyValues s =
       some (.ok { GraphTraversal := f.GraphTraversal, value := .nil, error := some e }) ∧
     f.PropertyKeys P s =
       .ok { GraphTraversal := f.GraphTraversal, value := .nil, error := some e } ∧
     f.Metrics D P =
       .ok ({ GraphTraversal := none, metrics := [], error := some e }, f.flowSearchQuery)) := by
  refine ⟨⟨?_, ?_, ?_, ?_⟩, ⟨?_, ?_, ?_, ?_, ?_, ?_⟩, ⟨?_, ?_, ?_, ?_, ?_⟩⟩
  · simp only [FlowTraversalStep.Has, h]
  · simp only [FlowTraversalStep.Dedup, h]
  · simp only [FlowTraversalStep.Sort_, h]
  · simp only [FlowTraversalStep.Error, h]
  · simp only [FlowTraversalStep.Out, h]
  · simp only [FlowTraversalStep.In, h]
  · simp only [FlowTraversalStep.Both, h]
  · simp only [FlowTraversalStep.Nodes, h]
  · simp only [FlowTraversalStep.Hops, h]
  · simp only [FlowTraversalStep.CaptureNode, h]
  · simp only [FlowTraversalStep.Count, h]
  · simp only [FlowTraversalStep.Sum, h]
  · simp only [FlowTraversalStep.PropertyValues, h]
  · simp only [FlowTraversalStep.PropertyKeys, h]
  · simp only [FlowTraversalStep.Metrics, h]

/-- The steps on a flow step that holds two flows and the error of an earlier
step. -/
theorem error_short_circuits_steps_witness :
    erroredStep.error = some (.text "keys should be of string type") ∧
    erroredStep.Has samplePackages [.str "UUID", .str "f1"] = .ok erroredStep ∧
    erroredStep.flowset = some { Flows := [flowF1, flowF2] } ∧
    erroredStep.Count [.str "UUID", .str "f1"] =
      .ok { GraphTraversal := erroredStep.GraphTraversal, value := .int 0,
            error := some (.text "keys should be of string type") } :=
  have h := error_short_circuits_steps memory samplePackages idleFlowPackage erroredStep
    (.text "keys should be of string type") [.str "UUID", .str "f1"] rfl
  ⟨rfl, h.1.1, rfl, h.2.2.1⟩

/-! ### C22 -/

/-- C22: a time-sliced `Metrics` step loses the failure of the storage. For
every flow step without error on a traversal whose context carries a time
slice, with a storage adapter and with a flow set or a query filter, if
`Storage.SearchMetrics` fails on every request, `Metrics()` returns a step
without traversal, without metrics and with a nil error: the branch hands
`f.error`, which is nil there, to `NewMetricsTraversalStep`, not the error
`SearchMetrics` returned. -/
theorem Metrics_drops_storage_error {σ : Type} (D : Packages) (P : FlowPackage)
    (f : FlowTraversalStep σ) (gt : GraphTraversal σ) (ts : TimeSlice) (storage : Storage)
    (herr : f.error = none) (hgt : f.GraphTraversal = some gt) (hts : gt.TimeSlice = some ts)
    (hst : f.Storage = some storage)
    (hflows : f.flowset ≠ none ∨ f.flowSearchQuery.Filter ≠ .nil)
    (hfail : ∀ q metricFilter, ∃ err, storage.SearchMetrics q metricFilter = .error err) :
    ∃ q, f.Metrics D P = .ok ({ GraphTraversal := none, metrics := [], error := none }, q) := by
  unfold FlowTraversalStep.Metrics
  simp only [herr, hgt, hts, hst]
  rcases hfs : f.flowset with _ | flowset
  · have hne : f.flowSearchQuery.Filter ≠ .nil := by
      rcases hflows with h | h
      · exact absurd hfs h
      · exact h
    simp only [if_neg hne]
    obtain ⟨err, he⟩ := hfail
      { f.flowSearchQuery with Sort_ := true, SortBy := defaultSortBy, SortOrder := D.SortAscending }
      (P.NewFilterIncludedIn
        (if ts.Start ≠ ts.Last then { From := ts.Start, To := ts.Last } else { To := ts.Last }) "")
    simp only [he]
    exact ⟨_, rfl⟩
  · simp only []
    obtain ⟨err, he⟩ := hfail
      { Filter := .And [f.flowSearchQuery.Filter, P.NewFilterForFlowSet flowset],
        PaginationRange := f.flowSearchQuery.PaginationRange,
        Dedup := f.flowSearchQuery.Dedup, DedupBy := f.flowSearchQuery.DedupBy,
        Sort_ := true, SortBy := defaultSortBy, SortOrder := D.SortAscending }
      (P.NewFilterIncludedIn
        (if ts.Start ≠ ts.Last then { From := ts.Start, To := ts.Last } else { To := ts.Last }) "")
    simp only [he]
    exact ⟨_, rfl⟩

/-- The step on the time slice `[1000, 2000]` over a storage whose searches
fail with `connection refused`. -/
theorem Metrics_drops_storage_error_witness :
    slicedFailingStep.error = none ∧
    failingStorage.SearchMetrics {} .nil = .error (.text "connection refused") ∧
    ∃ q, slicedFailingStep.Metrics samplePackages idleFlowPackage =
      .ok ({ GraphTraversal := none, metrics := [], error := none }, q) :=
  ⟨rfl, rfl, Metrics_drops_storage_error samplePackages idleFlowPackage slicedFailingStep
    slicedTraversal { Start := 1000, Last := 2000 } failingStorage rfl rfl rfl rfl
    (Or.inl (by simp [slicedFailingStep])) (fun _ _ => ⟨_, rfl⟩)⟩
/-! ### C23 -/

/-- Reading a map after `m[k] = append(m[k], x)`. -/
theorem appendAt_lookup {α : Type} (m : List (String × List α)) (k : String) (x : α)
    (u : String) :
    (appendAt m k x).lookup u =
      if u = k then some ((m.lookup k).getD [] ++ [x]) else m.lookup u := by
  induction m with
  | nil =>
    by_cases h : u = k
    · simp [appendAt, List.lookup, h]
    · have hb : (u == k) = false := by simpa using h
      simp [appendAt, List.lookup, h, hb]
  | cons en rest ih =>
    obtain ⟨k1, xs⟩ := en
    by_cases h1 : k1 = k
    · subst h1
      by_cases h : u = k1
      · simp [appendAt, List.lookup, h]
      · have hb : (u == k1) = false := by simpa using h
        simp [appendAt, List.lookup, h, hb]
    · by_cases h : u = k
      · subst h
        have h2 : ¬ u = k1 := fun h' => h1 h'.symm
        have hb : (u == k1) = false := by simpa using h2
        simp [appendAt, List.lookup, h1, hb, ih]
      · by_cases h2 : u = k1
        · simp [appendAt, List.lookup, h1, h2, h]
        · have hb : (u == k1) = false := by simpa using h2
          simp [appendAt, List.lookup, h1, hb, ih, h]

/-- The number of samples in a map after `m[k] = append(m[k], x)`. -/
theorem appendAt_total {α : Type} (m : List (String × List α)) (k : String) (x : α) :
    ((appendAt m k x).map (fun en => en.2.length)).sum =
      (m.map (fun en => en.2.length)).sum + 1 := by
  induction m with
  | nil => simp [appendAt]
  | cons en rest ih =>
    obtain ⟨k1, xs⟩ := en
    by_cases h1 : k1 = k
    · simp [appendAt, h1]; omega
    · simp [appendAt, h1, ih]; omega

/-- The live loop of `Metrics` from a map built so far. -/
theorem live_loop_spec (flows : List Flow) :
    ∀ (m : List (String × List TimedMetric)),
      (∀ u, ((flows.foldl (fun flowMetrics flow =>
          appendAt flowMetrics flow.UUID (liveMetric flow)) m).lookup u).getD [] =
        (m.lookup u).getD [] ++ (flows.filter (fun fl => decide (fl.UUID = u))).map liveMetric) ∧
      (∀ u, (flows.foldl (fun flowMetrics flow =>
          appendAt flowMetrics flow.UUID (liveMetric flow)) m).lookup u = none ↔
        (m.lookup u = none ∧ ∀ fl ∈ flows, fl.UUID ≠ u)) ∧
      ((flows.foldl (fun flowMetrics flow =>
          appendAt flowMetrics flow.UUID (liveMetric flow)) m).map (fun en => en.2.length)).sum =
        (m.map (fun en => en.2.length)).sum + flows.length := by
  induction flows with
  | nil => intro m; simp
  | cons fl flows ih =>
    intro m
    obtain ⟨h1, h2, h3⟩ := ih (appendAt m fl.UUID (liveMetric fl))
    simp only [List.foldl_cons]
    refine ⟨?_, ?_, ?_⟩
    · intro u
      rw [h1 u, appendAt_lookup]
      by_cases h : u = fl.UUID
      · subst h
        simp
      · have h' : ¬ fl.UUID = u := fun h' => h h'.symm
        simp [h, h']
    · intro u
      rw [h2 u, appendAt_lookup]
      by_cases h : u = fl.UUID
      · subst h
        simp
      · have h' : ¬ fl.UUID = u := fun h' => h h'.symm
        simp [h, h']
    · rw [h3, appendAt_total]
      simp only [List.length_cons]
      omega

/-- C23: in live mode (no time slice) `Metrics()` contributes one sample per
flow, appended under the UUID of the flow in flow order. For every flow step
without error on a traversal without time slice, the step returned carries no
error and a map that holds, under each UUID, the samples of the flows with that
UUID in their order, and nothing under a UUID no flow has; the sample of a flow
is its update window with `LastUpdateMetric` when `LastUpdateStart` or
`LastUpdateLast` is not zero, its lifetime with `Metric` otherwise; the number
of samples over all UUIDs is the number of flows. -/
theorem Metrics_live_one_sample_per_flow {σ : Type} (D : Packages) (P : FlowPackage)
    (f : FlowTraversalStep σ) (gt : GraphTraversal σ) (fs : FlowSet)
    (herr : f.error = none) (hgt : f.GraphTraversal = some gt) (hts : gt.TimeSlice = none)
    (hfs : f.flowset = some fs) :
    ∃ metrics : List (String × List TimedMetric),
      f.Metrics D P =
        .ok ({ GraphTraversal := some gt, metrics := metrics, error := none },
             f.flowSearchQuery) ∧
      (∀ u, (metrics.lookup u).getD [] =
        (fs.Flows.filter (fun fl => decide (fl.UUID = u))).map (fun fl =>
          if fl.LastUpdateStart ≠ 0 ∨ fl.LastUpdateLast ≠ 0 then
            { TimeSlice := { Start := fl.LastUpdateStart, Last := fl.LastUpdateLast },
              Metric := fl.LastUpdateMetric }
          else { TimeSlice := { Start := fl.Start, Last := fl.Last }, Metric := fl.Metric })) ∧
      (∀ u, metrics.lookup u = none ↔ ∀ fl ∈ fs.Flows, fl.UUID ≠ u) ∧
      (metrics.map (fun en => en.2.length)).sum = fs.Flows.length := by
  obtain ⟨h1, h2, h3⟩ := live_loop_spec fs.Flows []
  refine ⟨fs.Flows.foldl (fun flowMetrics flow =>
    appendAt flowMetrics flow.UUID (liveMetric flow)) [], ?_, ?_, ?_, ?_⟩
  · unfold FlowTraversalStep.Metrics
    simp only [herr, hgt, hts, hfs]
  · intro u
    rw [h1 u]
    simp only [List.lookup, Option.getD_none, List.nil_append]
    rfl
  · intro u
    rw [h2 u]
    simp [List.lookup]
  · rw [h3]
    simp

/-- Three flows, two of them under the UUID `f1`: the flow not updated yet
gives its lifetime, the updated one its update window. -/
theorem Metrics_live_one_sample_per_flow_witness :
    ∃ metrics : List (String × List TimedMetric),
      (flowStepOn tidGraph [flowF1, flowFresh, flowUpdated]).Metrics samplePackages
          idleFlowPackage =
        .ok ({ GraphTraversal := some { Graph := tidGraph }, metrics := metrics, error := none },
             {}) ∧
      (metrics.lookup "f1").getD [] =
        [{ TimeSlice := { Start := 0, Last := 10 }, Metric := {} },
         { TimeSlice := { Start := 40, Last := 50 },
           Metric := { ABPackets := 2, ABBytes := 200 } }] ∧
      (metrics.map (fun en => en.2.length)).sum = 3 :=
  have h := Metrics_live_one_sample_per_flow samplePackages idleFlowPackage
    (flowStepOn tidGraph [flowF1, flowFresh, flowUpdated]) { Graph := tidGraph }
    { Flows := [flowF1, flowFresh, flowUpdated] } rfl rfl rfl rfl
  h.elim (fun metrics hm => ⟨metrics, hm.1, (hm.2.1 "f1").trans (by decide), hm.2.2.2⟩)
/-! ### C24 -/

/-- Whether a flow has an `int64` field of a given name does not depend on the
flow. -/
theorem GetFieldInt64_uniform (key : String) :
    (∀ fl : Flow, ∃ v, fl.GetFieldInt64 key = .ok v) ∨
    (∀ fl : Flow, fl.GetFieldInt64 key = .error .ErrFieldNotFound) := by
  by_cases h0 : key = "Start"
  · subst h0; exact Or.inl (fun fl => ⟨_, rfl⟩)
  by_cases h1 : key = "Last"
  · subst h1; exact Or.inl (fun fl => ⟨_, rfl⟩)
  by_cases h2 : key = "LastUpdateStart"
  · subst h2; exact Or.inl (fun fl => ⟨_, rfl⟩)
  by_cases h3 : key = "LastUpdateLast"
  · subst h3; exact Or.inl (fun fl => ⟨_, rfl⟩)
  by_cases h4 : key = "Metric.ABPackets"
  · subst h4; exact Or.inl (fun fl => ⟨_, rfl⟩)
  by_cases h5 : key = "Metric.ABBytes"
  · subst h5; exact Or.inl (fun fl => ⟨_, rfl⟩)
  by_cases h6 : key = "Metric.BAPackets"
  · subst h6; exact Or.inl (fun fl => ⟨_, rfl⟩)
  by_cases h7 : key = "Metric.BABytes"
  · subst h7; exact Or.inl (fun fl => ⟨_, rfl⟩)
  by_cases h8 : key = "LastUpdateMetric.ABPackets"
  · subst h8; exact Or.inl (fun fl => ⟨_, rfl⟩)
  by_cases h9 : key = "LastUpdateMetric.ABBytes"
  · subst h9; exact Or.inl (fun fl => ⟨_, rfl⟩)
  by_cases h10 : key = "LastUpdateMetric.BAPackets"
  · subst h10; exact Or.inl (fun fl => ⟨_, rfl⟩)
  by_cases h11 : key = "LastUpdateMetric.BABytes"
  · subst h11; exact Or.inl (fun fl => ⟨_, rfl⟩)
  exact Or.inr (fun fl => by
    unfold Flow.GetFieldInt64
    simp only [if_neg h0, if_neg h1, if_neg h2, if_neg h3, if_neg h4, if_neg h5, if_neg h6, if_neg h7, if_neg h8, if_neg h9, if_neg h10, if_neg h11])

/-- A flow has an `int64` field as soon as another flow has it. -/
theorem GetFieldInt64_every_flow (fl fl1 : Flow) (key : String) (v : Int)
    (h : fl.GetFieldInt64 key = .ok v) : ∃ v1, fl1.GetFieldInt64 key = .ok v1 := by
  rcases GetFieldInt64_uniform key with hall | hnone
  · exact hall fl1
  · rw [hnone fl] at h
    cases h

/-- C24: `PropertyValues` omits the flows without the field, on a flow set
that is not empty. For every flow step without error and every string key,
`PropertyValues(key)` on a non-empty flow set returns no error and the slice
of the values of the field, in flow order, for exactly the flows that have it;
on an empty flow set it returns the error `ErrFieldNotFound` and a nil
value. -/
theorem PropertyValues_omits_missing {σ : Type} (f : FlowTraversalStep σ) (fs : FlowSet)
    (key : String) (rest : List Value) (herr : f.error = none) (hfs : f.flowset = some fs) :
    (fs.Flows ≠ [] →
      f.PropertyValues (.str key :: rest) =
        some (.ok { GraphTraversal := f.GraphTraversal,
                    value := .slice (fs.Flows.filterMap (fun fl => fl.fieldValue key)),
                    error := none })) ∧
    (fs.Flows = [] →
      f.PropertyValues (.str key :: rest) =
        some (.ok { GraphTraversal := f.GraphTraversal, value := .nil,
                    error := some .ErrFieldNotFound })) := by
  constructor
  · intro hne
    unfold FlowTraversalStep.PropertyValues
    simp only [herr, hfs]
    rcases hfl : fs.Flows with _ | ⟨first, others⟩
    · exact absurd hfl hne
    · simp only []
      rcases hfirst : first.GetFieldInt64 key with e | v
      · simp only [FlowTraversalStep.propertyStringValues, hfs, hfl]
        congr 3
        congr 1
        apply List.filterMap_congr
        intro fl _
        rcases hi : fl.GetFieldInt64 key with e1 | v1
        · simp only [Flow.fieldValue, hi]
        · obtain ⟨v2, hv2⟩ := GetFieldInt64_every_flow fl first key v1 hi
          rw [hfirst] at hv2
          cases hv2
      · simp only [FlowTraversalStep.propertyInt64Values, hfs, hfl]
        congr 3
        congr 1
        apply List.filterMap_congr
        intro fl _
        obtain ⟨v2, hv2⟩ := GetFieldInt64_every_flow first fl key v hfirst
        simp only [Flow.fieldValue, hv2]
  · intro hnil
    unfold FlowTraversalStep.PropertyValues
    simp only [herr, hfs, hnil]

/-- The addresses on side A of three flows, one of which has a network
layer. -/
theorem PropertyValues_omits_missing_witness :
    (flowStepOn tidGraph [flowF1, flowToOne, flowF2]).PropertyValues [.str "Network.A"] =
      some (.ok { GraphTraversal := some { Graph := tidGraph },
                  value := .slice [.str "10.0.0.2"], error := none }) :=
  ((PropertyValues_omits_missing (flowStepOn tidGraph [flowF1, flowToOne, flowF2])
    { Flows := [flowF1, flowToOne, flowF2] } "Network.A" [] rfl rfl).1 (by decide)).trans
    (by decide)

/-- C24, counterexample: on a flow step without error whose flow set is empty,
`PropertyValues("UUID")` returns the error `ErrFieldNotFound` with a nil value,
not an empty list without error. -/
theorem PropertyValues_empty_set_is_error :
    (flowStepOn tidGraph []).error = none ∧
    (flowStepOn tidGraph []).PropertyValues [.str "UUID"] =
      some (.ok { GraphTraversal := some { Graph := tidGraph }, value := .nil,
                  error := some .ErrFieldNotFound }) := by
  decide
/-! ### C25 -/

/-- The loop of `Sum` over flows that all have the field. -/
theorem sumLoop_ok (key : String) (flows : List Flow) :
    ∀ (vs s : List Int), List.Forall₂ (fun fl v => fl.GetFieldInt64 key = .ok v) flows vs →
      sumLoop key flows s = (.float64Sum (s ++ vs), none) := by
  induction flows with
  | nil =>
    intro vs s h
    cases h
    simp [sumLoop]
  | cons fl flows ih =>
    intro vs s h
    cases h with
    | cons hv hrest =>
      simp only [sumLoop, hv]
      rw [ih _ _ hrest]
      simp

/-- The loop of `Sum` ends with an error exactly when some flow lacks the
field. -/
theorem sumLoop_error_iff (key : String) (flows : List Flow) :
    ∀ (s : List Int), (sumLoop key flows s).2 ≠ none ↔
      ∃ fl ∈ flows, ∃ e, fl.GetFieldInt64 key = .error e := by
  induction flows with
  | nil => intro s; simp [sumLoop]
  | cons fl flows ih =>
    intro s
    rcases hv : fl.GetFieldInt64 key with e | v
    · simp only [sumLoop, hv]
      constructor
      · intro _
        exact ⟨fl, List.mem_cons_self _ _, e, hv⟩
      · intro _ h
        cases h
    · simp only [sumLoop, hv]
      rw [ih]
      constructor
      · rintro ⟨fl1, hm, e, he⟩
        exact ⟨fl1, List.mem_cons_of_mem _ hm, e, he⟩
      · rintro ⟨fl1, hm, e, he⟩
        rcases List.mem_cons.mp hm with heq | hm1
        · subst heq
          rw [hv] at he
          cases he
        · exact ⟨fl1, hm1, e, he⟩

/-- C25: `Sum` surfaces a missing field and otherwise adds every flow. For every
flow step without error: a parameter list that is not exactly one parameter, a
single parameter that is not a string, and a key whose first segment is
neither `Metric` nor `LastUpdateMetric` each yield an error and a nil value;
for a single string key under `Metric` or `LastUpdateMetric`, the result
carries an error exactly when some flow of the set lacks the field, and when
every flow has it the result carries no error and the value accumulated from
zero by adding the field of every flow, in flow order (zero for an empty
set). -/
theorem Sum_surfaces_missing_field {σ : Type} (f : FlowTraversalStep σ) (fs : FlowSet)
    (key : String) (keys : List Value) (herr : f.error = none) (hfs : f.flowset = some fs) :
    (keys.length ≠ 1 →
      f.Sum keys = .ok { GraphTraversal := f.GraphTraversal, value := .nil,
                         error := some (.text "Sum requires 1 parameter") }) ∧
    (∀ v : Value, (∀ k, v ≠ .str k) →
      f.Sum [v] = .ok { GraphTraversal := f.GraphTraversal, value := .nil,
                        error := some (.text "Sum parameter has to be a string key") }) ∧
    (splitHead key ≠ "Metric" → splitHead key ≠ "LastUpdateMetric" →
      f.Sum [.str key] =
        .ok { GraphTraversal := f.GraphTraversal, value := .nil,
              error := some (.text "Sum accepts only sub fields of Metric and LastUpadteMetric") }) ∧
    (splitHead key = "Metric" ∨ splitHead key = "LastUpdateMetric" →
      ∃ r : GraphTraversalValue σ, f.Sum [.str key] = .ok r ∧
        r.GraphTraversal = f.GraphTraversal ∧
        (r.error ≠ none ↔ ∃ fl ∈ fs.Flows, ∃ e, fl.GetFieldInt64 key = .error e) ∧
        (∀ vs, List.Forall₂ (fun fl v => fl.GetFieldInt64 key = .ok v) fs.Flows vs →
          r.value = .float64Sum vs ∧ r.error = none)) := by
  refine ⟨?_, ?_, ?_, ?_⟩
  · intro hlen
    unfold FlowTraversalStep.Sum
    simp only [herr]
    match keys, hlen with
    | [], _ => rfl
    | [_], h => exact absurd rfl h
    | v :: _ :: _, _ => cases v <;> rfl
  · intro v hv
    unfold FlowTraversalStep.Sum
    simp only [herr]
  · intro h1 h2
    unfold FlowTraversalStep.Sum
    simp only [herr]
    rw [if_pos ⟨h1, h2⟩]
  · intro hk
    have hnot : ¬ (splitHead key ≠ "Metric" ∧ splitHead key ≠ "LastUpdateMetric") := by
      rintro ⟨h1, h2⟩
      rcases hk with h | h
      · exact h1 h
      · exact h2 h
    refine ⟨{ GraphTraversal := f.GraphTraversal, value := (sumLoop key fs.Flows []).1,
              error := (sumLoop key fs.Flows []).2 }, ?_, rfl, ?_, ?_⟩
    · unfold FlowTraversalStep.Sum
      simp only [herr, hfs]
      rw [if_neg hnot]
    · exact sumLoop_error_iff key fs.Flows []
    · intro vs hvs
      have h := sumLoop_ok key fs.Flows vs [] hvs
      simp only [h, List.nil_append, and_self]

/-- The bytes from A to B summed over three flows, and the four rejected
calls. -/
theorem Sum_surfaces_missing_field_witness :
    (flowStepOn tidGraph [flowFresh, flowUpdated, flowF1]).Sum [.str "Metric.ABBytes"] =
      .ok { GraphTraversal := some { Graph := tidGraph }, value := .float64Sum [300, 900, 0],
            error := none } ∧
    (flowStepOn tidGraph [flowFresh, flowUpdated, flowF1]).Sum [.str "Start"] =
      .ok { GraphTraversal := some { Graph := tidGraph }, value := .nil,
            error := some (.text "Sum accepts only sub fields of Metric and LastUpadteMetric") } ∧
    (flowStepOn tidGraph [flowFresh, flowUpdated, flowF1]).Sum [] =
      .ok { GraphTraversal := some { Graph := tidGraph }, value := .nil,
            error := some (.text "Sum requires 1 parameter") } :=
  have h := Sum_surfaces_missing_field (flowStepOn tidGraph [flowFresh, flowUpdated, flowF1])
    { Flows := [flowFresh, flowUpdated, flowF1] } "Metric.ABBytes" [] rfl rfl
  have h1 := Sum_surfaces_missing_field (flowStepOn tidGraph [flowFresh, flowUpdated, flowF1])
    { Flows := [flowFresh, flowUpdated, flowF1] } "Start" [] rfl rfl
  ⟨(h.2.2.2 (Or.inl (by decide))).elim (fun r hr => by
      have hv := hr.2.2.2 [300, 900, 0] (by decide)
      rw [hr.1]
      cases r
      simp only [] at hv hr
      rw [hv.1, hv.2, hr.2.1]
      rfl),
   h1.2.2.1 (by decide) (by decide),
   h.1 (by decide)⟩
/-! ### C26 -/

/-- C26: a change event whose value fails to decode still reaches the callback.
The store holds an entry that is not JSON and the capture `c2`; the watcher
then reports a `set` of `/capture/c3` with a value that is not JSON, an error,
and a `set` of `/capture/c4`. The decoder rejects the two values that are not
JSON; the init pass leaves the first out of the index and keeps `c2`; the watch
loop, which does not look at the error of `json.Unmarshal`, calls the callback
for `c3` with the resource `New()` made, and delivers the later event. -/
theorem AsyncWatch_calls_back_on_decode_failure :
    (captureHandler.Unmarshal "not json").2 = some (.text "invalid character") ∧
    (captureHandler.Unmarshal "\x7bbroken").2 = some (.text "invalid character") ∧
    captureHandler.Index = [("c2", { UUID := "c2" })] ∧
    captureHandler.AsyncWatch
        [.ok { Action := "set", Node := .mk "/capture/c3" false "\x7bbroken" [] },
         .error (.text "connection lost"),
         .ok { Action := "set", Node := .mk "/capture/c4" false (captureJSON "c4") [] }] =
      .ok [("init", "c2", { UUID := "c2" }),
           ("set", "c3", { UUID := "" }),
           ("set", "c4", { UUID := "c4" })] := by
  decide
/-! ### C27 -/

/-- C27: `OnNodeDeleted` reads `vHost.ID` through a nil `vHost`. For every
deleted node with a non-empty `Name`, on a probe whose `vHost` is nil, the
handler does not complete: the comparison `n.ID == mapper.vHost.ID`
dereferences the nil pointer. -/
theorem OnNodeDeleted_dereferences_nil_vHost (mapper : OpenContrailProbe) (n : Node)
    (hname : (n.GetFieldString "Name").1 ≠ "") (hnil : mapper.vHost = none) :
    mapper.OnNodeDeleted n = .nilDeref := by
  unfold OpenContrailProbe.OnNodeDeleted
  simp only [if_neg hname, hnil]

/-- The deletion of the node named `tap0` on a probe without `vHost`. -/
theorem OnNodeDeleted_dereferences_nil_vHost_witness :
    (tapNode.GetFieldString "Name").1 = "tap0" ∧
    ({ vHost := none } : OpenContrailProbe).OnNodeDeleted tapNode = .nilDeref :=
  ⟨by decide,
   OnNodeDeleted_dereferences_nil_vHost { vHost := none } tapNode (by decide) rfl⟩
/-! ### C28 -/

/-- Successive `Has` steps absorbed one after the other. -/
theorem Reduce_Has_fold (D : Packages) (ps : List (List Value)) :
    ∀ s : FlowGremlinTraversalStep,
      ps.foldl (fun acc p => acc.bind (fun st => (st.Reduce D (.Has p)).map Prod.fst)) (some s) =
        some { s with hasParams := s.hasParams ++ ps.flatten } := by
  induction ps with
  | nil => intro s; simp
  | cons p ps ih =>
    intro s
    rw [List.foldl_cons]
    show List.foldl _ (some { s with hasParams := s.hasParams ++ p }) ps = _
    rw [ih]
    simp [List.append_assoc]

/-- The filter of the query built by `makeSearchQuery`. -/
theorem makeSearchQuery_filter (D : Packages) (s : FlowGremlinTraversalStep) :
    (s.makeSearchQuery D).map (fun q => q.Filter) =
      if s.hasParams = [] then .ok .nil else paramsToFilter D s.hasParams := by
  unfold FlowGremlinTraversalStep.makeSearchQuery
  by_cases h : s.hasParams = []
  · simp [h, Except.map]
  · have hpos : s.hasParams.length > 0 := List.length_pos.mpr h
    rw [if_pos hpos, if_neg h]
    rcases paramsToFilter D s.hasParams with e | flt
    · rfl
    · rfl

/-- C28: successive `Has` steps after a `Flows` step are absorbed and combined
by AND. For every flow step `s`, `s.Reduce(h)` on a `Has` step returns `s`
itself with the parameters of `h` appended to `hasParams` and no other field
changed, so that absorbing `Has(p1)`, ..., `Has(pn)` leaves
`hasParams ++ p1 ++ ... ++ pn`. When the parameters absorbed are not empty,
`makeSearchQuery` builds the filter `paramsToFilter` makes of them (or returns
its error), which for a list of pairs that all translate is the `And` of one
operand per pair, in order; when they are empty, after no `Has` step or after
`Has` steps without parameters, the query filter is nil and there is no
error. -/
theorem Reduce_Has_accumulates (D : Packages) (s : FlowGremlinTraversalStep)
    (ps : List (List Value)) (kvs : List (Value × Value)) (ops : List Filter) :
    (∀ p, s.Reduce D (.Has p) = some ({ s with hasParams := s.hasParams ++ p }, true)) ∧
    ps.foldl (fun acc p => acc.bind (fun st => (st.Reduce D (.Has p)).map Prod.fst)) (some s) =
      some { s with hasParams := s.hasParams ++ ps.flatten } ∧
    (s.hasParams ≠ [] →
      (s.makeSearchQuery D).map (fun q => q.Filter) = paramsToFilter D s.hasParams) ∧
    (s.hasParams = kvs.flatMap (fun p => [p.1, p.2]) → kvs ≠ [] →
      List.Forall₂ (fun p flt => pairFilter D p.1 p.2 = .ok flt) kvs ops →
      (s.makeSearchQuery D).map (fun q => q.Filter) = .ok (.And ops)) ∧
    (s.hasParams = [] → (s.makeSearchQuery D).map (fun q => q.Filter) = .ok .nil) := by
  refine ⟨fun p => rfl, Reduce_Has_fold D ps s, ?_, ?_, ?_⟩
  · intro h
    rw [makeSearchQuery_filter, if_neg h]
  · intro hkvs hne hops
    have hflat : kvs.flatMap (fun p => [p.1, p.2]) ≠ [] := by
      intro h0
      have hl := flat_length kvs
      rw [h0] at hl
      have hpos : 0 < kvs.length := List.length_pos.mpr hne
      have hl2 : 0 = 2 * kvs.length := hl
      omega
    rw [makeSearchQuery_filter, if_neg (by rw [hkvs]; exact hflat), hkvs,
      paramsToFilter_flat D kvs hne, paramsToFilterLoop_ok D kvs [] ops hops]
    rfl
  · intro h
    rw [makeSearchQuery_filter, if_pos h]

/-- The steps `Has("UUID", "f1")` and `Has("Network", "10.0.0.1")` absorbed by a
`Flows` step: the query filter is the `And` of the term and of the expansion
over both sides. -/
theorem Reduce_Has_accumulates_witness :
    ((({ stepNoStorage with
          hasParams := [.str "UUID", .str "f1", .str "Network", .str "10.0.0.1"] } :
        FlowGremlinTraversalStep).makeSearchQuery samplePackages).map (fun q => q.Filter)) =
      .ok (.And [.TermString "UUID" "f1",
                 .Or [.TermString "Network.A" "10.0.0.1", .TermString "Network.B" "10.0.0.1"]]) :=
  (Reduce_Has_accumulates samplePackages
    { stepNoStorage with
      hasParams := [.str "UUID", .str "f1", .str "Network", .str "10.0.0.1"] }
    [[.str "UUID", .str "f1"], [.str "Network", .str "10.0.0.1"]]
    [(.str "UUID", .str "f1"), (.str "Network", .str "10.0.0.1")]
    [.TermString "UUID" "f1",
     .Or [.TermString "Network.A" "10.0.0.1", .TermString "Network.B" "10.0.0.1"]]).2.2.2.1
    rfl (by decide)
    (List.Forall₂.cons rfl (List.Forall₂.cons rfl List.Forall₂.nil))

/-- C28, counterexample: after absorbing a `Has` step without parameters the
query of `makeSearchQuery` has the nil filter and no error, while
`paramsToFilter` on the empty parameter list is an error. -/
theorem Has_without_parameters_absorbed :
    (stepNoStorage.Reduce samplePackages (.Has [])).map (fun r => r.1.hasParams) = some [] ∧
    ((stepNoStorage.Reduce samplePackages (.Has [])).map
      (fun r => (r.1.makeSearchQuery samplePackages).map (fun q => q.Filter))) =
        some (.ok .nil) ∧
    paramsToFilter samplePackages [] =
      .error (.text "At least two parameters must be provided") := by
  decide
/-! ### C29 -/

/-- C29: `Replace` loses the edges that leave the replaced node. On the graph of
the nodes `p`, `o`, `n`, `c` with the edges `p -> o` and `o -> c`,
`Replace(o, n, m)` tests `parent.ID == n.ID` on the edge `o -> c`, whose parent
is `o`, and so links `o -> n` where `n -> c` was due; deleting `o` then deletes
that edge. Afterwards `o` and its edges are gone, the edge `p -> n` is there,
`n` is returned with the metadata of `o`, and no edge joins `n` to `c`. -/
theorem Replace_drops_child_edges :
    (memory.GetNodeEdges replaceEdgesGraph.backend oldNode = [edgePO, edgeOC]) ∧
    (Graph.Replace memory uuid oldNode newNode [] replaceEdgesGraph).1 =
      { ID := "n", metadatas := [("Name", .str "eth0")] } ∧
    (Graph.Replace memory uuid oldNode newNode [] replaceEdgesGraph).2.backend.nodes.map
      (fun x => x.ID) = ["p", "n", "c"] ∧
    (Graph.Replace memory uuid oldNode newNode [] replaceEdgesGraph).2.backend.edges =
      [{ ID := "uuid-0", metadatas := [], parent := "p", child := "n" }] ∧
    Graph.AreLinked memory (Graph.Replace memory uuid oldNode newNode [] replaceEdgesGraph).2
      newNode childNode = false ∧
    (Graph.Replace memory uuid oldNode newNode [] replaceEdgesGraph).2.calls =
      [(1, .OnEdgeDeleted edgePO),
       (1, .OnEdgeAdded { ID := "uuid-0", metadatas := [], parent := "p", child := "n" }),
       (1, .OnEdgeDeleted edgeOC),
       (1, .OnEdgeAdded { ID := "uuid-1", metadatas := [], parent := "o", child := "n" }),
       (1, .OnNodeUpdated { ID := "n", metadatas := [("Name", .str "eth0")] }),
       (1, .OnEdgeDeleted { ID := "uuid-1", metadatas := [], parent := "o", child := "n" }),
       (1, .OnNodeDeleted oldNode)] := by
  decide
/-! ### C30 -/

/-- Over the in-memory backend `Graph.DelNode` stores no new node. -/
theorem memory_DelNode_nodes_subset (g : Graph MemoryBackend) (n x : Node)
    (hx : x ∈ (Graph.DelNode memory n g).2.backend.nodes) : x ∈ g.backend.nodes := by
  have hn := (memory_DelEdge_fold_nodes (memory.GetNodeEdges g.backend n) g).1
  unfold Graph.DelNode at hx
  simp only [] at hx
  generalize (memory.GetNodeEdges g.backend n).foldl
    (fun acc e => (Graph.DelEdge memory e acc).2) g = g1 at hx hn
  rw [← hn]
  by_cases h : (g1.backend.nodes.any fun y => y.ID == n.ID) = true
  · simp only [memory, MemoryBackend.DelNode, MemoryBackend.hasNode, h, if_true,
      Graph.NotifyNodeDeleted, Graph.notify] at hx
    exact (List.mem_filter.mp hx).1
  · have h2 : (g1.backend.nodes.any fun y => y.ID == n.ID) = false := by simpa using h
    simp only [memory, MemoryBackend.DelNode, MemoryBackend.hasNode, h2] at hx
    exact hx

/-- Over the in-memory backend the child `GetEdgeNodes` reports is a stored
node. -/
theorem memory_GetEdgeNodes_child_stored (m : MemoryBackend) (e : Edge) (child : Node)
    (h : (memory.GetEdgeNodes m e).2 = some child) : child ∈ m.nodes :=
  List.mem_of_find?_eq_some h

/-- The loop of `delSubGraph` does not run out of nested calls when the
recursive calls do not, and keeps what they keep: the marks only grow and the
stored nodes stay within `S`. -/
theorem delSubGraphLoop_fuel (S : Finset Identifier) (n : Node) (base : List Identifier)
    (recurse : Node → List Identifier → Graph MemoryBackend →
      Run (List Identifier × Graph MemoryBackend))
    (hrec : ∀ child m g, (∀ x ∈ g.backend.nodes, x.ID ∈ S) → child.ID ∈ S → base ⊆ m →
      recurse child m g ≠ .outOfFuel ∧
      ∀ m1 g1, recurse child m g = .ok (m1, g1) →
        m ⊆ m1 ∧ ∀ x ∈ g1.backend.nodes, x.ID ∈ S) :
    ∀ (es : List Edge) (m : List Identifier) (g : Graph MemoryBackend),
      (∀ x ∈ g.backend.nodes, x.ID ∈ S) → base ⊆ m →
      Graph.delSubGraphLoop memory n recurse es m g ≠ .outOfFuel ∧
      ∀ m1 g1, Graph.delSubGraphLoop memory n recurse es m g = .ok (m1, g1) →
        m ⊆ m1 ∧ ∀ x ∈ g1.backend.nodes, x.ID ∈ S := by
  intro es
  induction es with
  | nil =>
    intro m g hg _
    refine ⟨by simp [Graph.delSubGraphLoop], ?_⟩
    intro m1 g1 h
    simp only [Graph.delSubGraphLoop, Run.ok.injEq, Prod.mk.injEq] at h
    obtain ⟨rfl, rfl⟩ := h
    exact ⟨List.Subset.refl _, hg⟩
  | cons e es ih =>
    intro m g hg hbase
    rcases hc : (memory.GetEdgeNodes g.backend e).2 with _ | child
    · simp [Graph.delSubGraphLoop, hc]
    · have hstored : child.ID ∈ S := hg child (memory_GetEdgeNodes_child_stored _ _ _ hc)
      by_cases hne : child.ID ≠ n.ID
      · obtain ⟨hr1, hr2⟩ := hrec child m g hg hstored hbase
        rcases hr : recurse child m g with ⟨m2, g2⟩ | _ | _ | _
        · obtain ⟨hm2, hg2⟩ := hr2 m2 g2 hr
          have hg3 : ∀ x ∈ (Graph.DelNode memory child g2).2.backend.nodes, x.ID ∈ S :=
            fun x hx => hg2 x (memory_DelNode_nodes_subset g2 child x hx)
          obtain ⟨hi1, hi2⟩ := ih m2 (Graph.DelNode memory child g2).2 hg3
            (List.Subset.trans hbase hm2)
          simp only [Graph.delSubGraphLoop, hc, if_pos hne, hr]
          refine ⟨hi1, ?_⟩
          intro m1 g1 h
          obtain ⟨h1, h2⟩ := hi2 m1 g1 h
          exact ⟨List.Subset.trans hm2 h1, h2⟩
        · simp [Graph.delSubGraphLoop, hc, if_pos hne, hr]
        · exact absurd hr hr1
        · simp [Graph.delSubGraphLoop, hc, if_pos hne, hr]
      · obtain ⟨hi1, hi2⟩ := ih m g hg hbase
        simp only [Graph.delSubGraphLoop, hc, if_neg hne]
        exact ⟨hi1, hi2⟩

/-- Method `delSubGraph` on a stored node does not run out of nested calls when
their number exceeds the number of identifiers of `S` not yet marked. -/
theorem delSubGraph_fuel (S : Finset Identifier) :
    ∀ (fuel : Nat) (n : Node) (m : List Identifier) (g : Graph MemoryBackend),
      (∀ x ∈ g.backend.nodes, x.ID ∈ S) → n.ID ∈ S → (S \ m.toFinset).card < fuel →
      Graph.delSubGraph memory fuel n m g ≠ .outOfFuel ∧
      ∀ m1 g1, Graph.delSubGraph memory fuel n m g = .ok (m1, g1) →
        m ⊆ m1 ∧ ∀ x ∈ g1.backend.nodes, x.ID ∈ S := by
  intro fuel
  induction fuel with
  | zero => intro n m g _ _ h; exact absurd h (Nat.not_lt_zero _)
  | succ fuel ih =>
    intro n m g hg hn hcard
    by_cases hm : n.ID ∈ m
    · simp only [Graph.delSubGraph, if_pos hm]
      refine ⟨by simp, ?_⟩
      intro m1 g1 h
      simp only [Run.ok.injEq, Prod.mk.injEq] at h
      obtain ⟨rfl, rfl⟩ := h
      exact ⟨List.Subset.refl _, hg⟩
    · simp only [Graph.delSubGraph, if_neg hm]
      have hlt : (S \ (n.ID :: m).toFinset).card < (S \ m.toFinset).card := by
        apply Finset.card_lt_card
        rw [Finset.ssubset_iff_of_subset]
        · exact ⟨n.ID, by simp [hn, hm], by simp⟩
        · intro i hi
          simp only [Finset.mem_sdiff, List.mem_toFinset, List.mem_cons, not_or] at hi ⊢
          exact ⟨hi.1, hi.2.2⟩
      have hrec : ∀ child m2 g2, (∀ x ∈ g2.backend.nodes, x.ID ∈ S) → child.ID ∈ S →
          (n.ID :: m) ⊆ m2 →
          Graph.delSubGraph memory fuel child m2 g2 ≠ .outOfFuel ∧
          ∀ m1 g1, Graph.delSubGraph memory fuel child m2 g2 = .ok (m1, g1) →
            m2 ⊆ m1 ∧ ∀ x ∈ g1.backend.nodes, x.ID ∈ S := by
        intro child m2 g2 hg2 hchild hsub
        apply ih child m2 g2 hg2 hchild
        have hle : (S \ m2.toFinset).card ≤ (S \ (n.ID :: m).toFinset).card := by
          apply Finset.card_le_card
          intro i hi
          simp only [Finset.mem_sdiff, List.mem_toFinset] at hi ⊢
          exact ⟨hi.1, fun h => hi.2 (hsub h)⟩
        omega
      obtain ⟨h1, h2⟩ := delSubGraphLoop_fuel S n (n.ID :: m)
        (Graph.delSubGraph memory fuel) hrec (memory.GetNodeEdges g.backend n) (n.ID :: m) g hg
        (List.Subset.refl _)
      refine ⟨h1, ?_⟩
      intro m1 g1 h
      obtain ⟨h3, h4⟩ := h2 m1 g1 h
      exact ⟨fun i hi => h3 (List.mem_cons_of_mem _ hi), h4⟩

/-- Method `DelSubGraph` over the in-memory backend returns or panics, on any
graph and node, cycles included: it does not run out of nested calls once
their number exceeds the number of stored nodes by two. -/
theorem DelSubGraph_enough_fuel (g : Graph MemoryBackend) (n : Node) (fuel : Nat)
    (h : g.backend.nodes.length + 1 < fuel) :
    Graph.DelSubGraph memory fuel n g ≠ .outOfFuel := by
  obtain ⟨k, rfl⟩ : ∃ k, fuel = k + 1 := ⟨fuel - 1, by omega⟩
  have hS : ∀ x ∈ g.backend.nodes, x.ID ∈ (g.backend.nodes.map (fun x => x.ID)).toFinset := by
    intro x hx
    exact List.mem_toFinset.mpr (List.mem_map_of_mem _ hx)
  have hcard : ((g.backend.nodes.map (fun x => x.ID)).toFinset).card ≤ g.backend.nodes.length := by
    have := List.toFinset_card_le (g.backend.nodes.map (fun x => x.ID))
    simpa using this
  have hrec : ∀ child m2 (g2 : Graph MemoryBackend),
      (∀ x ∈ g2.backend.nodes, x.ID ∈ (g.backend.nodes.map (fun x => x.ID)).toFinset) →
      child.ID ∈ (g.backend.nodes.map (fun x => x.ID)).toFinset → [n.ID] ⊆ m2 →
      Graph.delSubGraph memory k child m2 g2 ≠ .outOfFuel ∧
      ∀ m1 g1, Graph.delSubGraph memory k child m2 g2 = .ok (m1, g1) →
        m2 ⊆ m1 ∧ ∀ x ∈ g1.backend.nodes,
          x.ID ∈ (g.backend.nodes.map (fun x => x.ID)).toFinset := by
    intro child m2 g2 hg2 hchild _
    apply delSubGraph_fuel _ k child m2 g2 hg2 hchild
    have hle : ((g.backend.nodes.map (fun x => x.ID)).toFinset \ m2.toFinset).card ≤
        ((g.backend.nodes.map (fun x => x.ID)).toFinset).card :=
      Finset.card_le_card Finset.sdiff_subset
    omega
  obtain ⟨h1, -⟩ := delSubGraphLoop_fuel _ n [n.ID] (Graph.delSubGraph memory k) hrec
    (memory.GetNodeEdges g.backend n) [n.ID] g hS (List.Subset.refl _)
  unfold Graph.DelSubGraph
  simp only [Graph.delSubGraph, List.not_mem_nil, if_false]
  rcases hr : Graph.delSubGraphLoop memory n (Graph.delSubGraph memory k)
      (memory.GetNodeEdges g.backend n) [n.ID] g with ⟨m1, g1⟩ | _ | _ | _
  · simp
  · simp
  · exact absurd hr h1
  · simp

/-- C30: `DelSubGraph(n)` deletes `n` itself when `n` lies on a cycle. On the
cycle `n1 -> n2 -> n1`, `DelSubGraph(n1)` visits `n2`, where the edge
`n2 -> n1` leads back to `n1`: the recursive call returns at once, since `n1`
is marked, and `DelNode(n1)` follows it. With the edge into `n1` stored first
the call ends with both nodes deleted, `n1` before `n2`; with the edge out of
`n1` stored first, the loop over the edges of `n1` goes on to an edge whose
ends are gone and dereferences the nil child. -/
theorem DelSubGraph_deletes_root_on_cycle :
    (Graph.DelSubGraph memory 3 n1 cycleIntoFirst =
      .ok ((), { cycleIntoFirst with
                 backend := { nodes := [], edges := [] },
                 calls := [(1, .OnEdgeDeleted e21), (1, .OnEdgeDeleted e12),
                           (1, .OnNodeDeleted n1), (1, .OnNodeDeleted n2)] })) ∧
    Graph.DelSubGraph memory 3 n1 cycleGraph = .nilDeref := by
  decide
end Skydive
